import Mathlib

/-!
# AgriFinConnect Rwanda front end: API client and local farm-record store

A shallow embedding of `frontend/src/api/client.js` (`request`, `authRequest`, `login`,
`logGetStartedActivity`, the package downloads), of `handleLogin` in
`frontend/src/pages/GetStartedPage.jsx`, of the farm-record handlers and the CSV export in
`frontend/src/pages/FarmerDashboard.jsx` and of `handleDownloadPackage` of the two
dashboards, together with the part of the browser platform these functions call (JSON
text, `Response` bodies, `localStorage`).

Conventions of the embedding

* A JavaScript value that can come out of `JSON.parse` is a `Json`; a property that
  is missing (`undefined`) is `none` of `Option Json`.
* Numbers are integers (`Date.now()` identifiers are); a numeric literal with a
  fraction or an exponent is outside the fragment and is not accepted by `JSON.parse`.
* Strings are sequences of Unicode scalar values.
* A promise that rejects, or a statement that throws, is `Except.error`.
* React state is passed explicitly: a handler maps the state it closes over to the state
  after its updates.
-/

set_option maxRecDepth 8000

namespace AgriFin

/-! ## JavaScript values -/

/-- JSON values, the JavaScript values that `JSON.parse` produces. An object is the
list of its members in insertion order. -/
inductive Json where
  | null
  | bool (b : Bool)
  | num (n : Int)
  | str (s : String)
  | arr (xs : List Json)
  | obj (ms : List (String × Json))

instance : Inhabited Json := ⟨Json.null⟩

/-- Values that a JavaScript statement can throw in the modelled code. -/
inductive JsError where
  /-- The `Error` built by `request`: message, `err.status`, `err.body`. -/
  | api (message : String) (status : Nat) (body : Json)
  /-- A platform `TypeError` (network failure, body already read, spread of a non-iterable). -/
  | typeError (message : String)
  /-- The `SyntaxError` of `JSON.parse`. -/
  | syntaxError
  /-- The `QuotaExceededError` of `localStorage.setItem`. -/
  | quotaExceeded

/-- The `status` property of a thrown value: only the error built by `request` has one. -/
def JsError.status : JsError → Option Nat
  | .api _ s _ => some s
  | _ => none

/-- The `body` property of a thrown value. -/
def JsError.body : JsError → Option Json
  | .api _ _ b => some b
  | _ => none

/-- JavaScript truthiness (`ToBoolean`). -/
def Json.truthy : Json → Bool
  | .null => false
  | .bool b => b
  | .num n => n != 0
  | .str s => s != ""
  | .arr _ => true
  | .obj _ => true

/-- Truthiness of a possibly `undefined` value. -/
def truthy? : Option Json → Bool
  | none => false
  | some j => j.truthy

/-- Property read `o.k` on an object: the last member named `k`; `undefined` (none) when
there is none or when the value is not an object. -/
def Json.get (j : Json) (k : String) : Option Json :=
  match j with
  | .obj ms => (ms.reverse.find? (fun m => m.1 == k)).map (fun m => m.2)
  | _ => none

/-! ## JSON text: `JSON.stringify` -/

/-- Decimal digit character of a number below ten. -/
def digitChar (n : Nat) : Char := Char.ofNat (48 + n)

/-- Lower-case hexadecimal digit character of a number below sixteen. -/
def hexDigit (n : Nat) : Char := if n < 10 then Char.ofNat (48 + n) else Char.ofNat (87 + n)

/-- Decimal digits of `n`, most significant first, pushed in front of `acc`. -/
def digitsAux : Nat → Nat → List Char → List Char
  | 0, _, acc => acc
  | fuel + 1, n, acc =>
    if n < 10 then digitChar n :: acc
    else digitsAux fuel (n / 10) (digitChar (n % 10) :: acc)

/-- Decimal text of a natural number. -/
def natToDigits (n : Nat) : List Char := digitsAux (n + 1) n []

/-- Decimal text of an integer (`Number::toString` on integers). -/
def intToChars (n : Int) : List Char :=
  if n < 0 then '-' :: natToDigits n.natAbs else natToDigits n.natAbs

/-- One character of a JSON string literal (`QuoteJSONString`). -/
def quoteChar (c : Char) : List Char :=
  if c = '"' then ['\\', '"']
  else if c = '\\' then ['\\', '\\']
  else if c = Char.ofNat 8 then ['\\', 'b']
  else if c = Char.ofNat 12 then ['\\', 'f']
  else if c = '\n' then ['\\', 'n']
  else if c = '\r' then ['\\', 'r']
  else if c = '\t' then ['\\', 't']
  else if c.toNat < 32 then
    ['\\', 'u', '0', '0', hexDigit (c.toNat / 16), hexDigit (c.toNat % 16)]
  else [c]

/-- Body of a JSON string literal, without the enclosing quotes. -/
def quoteBody : List Char → List Char
  | [] => []
  | c :: cs => quoteChar c ++ quoteBody cs

/-- A JSON string literal. -/
def quoteJSONString (s : String) : List Char := '"' :: (quoteBody s.data ++ ['"'])

mutual
/-- Characters of `JSON.stringify(j)`. -/
def stringifyChars : Json → List Char
  | .null => ['n', 'u', 'l', 'l']
  | .bool true => ['t', 'r', 'u', 'e']
  | .bool false => ['f', 'a', 'l', 's', 'e']
  | .num n => intToChars n
  | .str s => quoteJSONString s
  | .arr [] => ['[', ']']
  | .arr (x :: xs) => '[' :: (stringifyChars x ++ stringifyElems xs)
  | .obj [] => ['{', '}']
  | .obj ((k, v) :: ms) =>
    '{' :: (quoteJSONString k ++ ':' :: (stringifyChars v ++ stringifyMembers ms))
/-- The elements after the first one, each preceded by a comma, and the closing bracket. -/
def stringifyElems : List Json → List Char
  | [] => [']']
  | x :: xs => ',' :: (stringifyChars x ++ stringifyElems xs)
/-- The members after the first one, each preceded by a comma, and the closing brace. -/
def stringifyMembers : List (String × Json) → List Char
  | [] => ['}']
  | (k, v) :: ms => ',' :: (quoteJSONString k ++ ':' :: (stringifyChars v ++ stringifyMembers ms))
end

/-- `JSON.stringify(j)`. -/
def JSON.stringify (j : Json) : String := String.mk (stringifyChars j)

/-! ## JSON text: `JSON.parse` -/

/-- JSON white space. -/
def isJsonWs (c : Char) : Bool := c = ' ' || c = '\t' || c = '\n' || c = '\r'

/-- Drop leading JSON white space. -/
def skipWs : List Char → List Char
  | [] => []
  | c :: cs => if isJsonWs c then skipWs cs else c :: cs

/-- Value of a decimal digit character. -/
def digitVal (c : Char) : Option Nat :=
  if 48 ≤ c.toNat ∧ c.toNat ≤ 57 then some (c.toNat - 48) else none

/-- Value of a hexadecimal digit character (either case). -/
def hexVal (c : Char) : Option Nat :=
  if 48 ≤ c.toNat ∧ c.toNat ≤ 57 then some (c.toNat - 48)
  else if 97 ≤ c.toNat ∧ c.toNat ≤ 102 then some (c.toNat - 87)
  else if 65 ≤ c.toNat ∧ c.toNat ≤ 70 then some (c.toNat - 55)
  else none

/-- Value of four hexadecimal digits. -/
def hex4 (a b c d : Char) : Option Nat :=
  match hexVal a, hexVal b, hexVal c, hexVal d with
  | some x, some y, some z, some w => some (((x * 16 + y) * 16 + z) * 16 + w)
  | _, _, _, _ => none

/-- Read the digits that continue a number whose value so far is `acc`. -/
def takeDigits : List Char → Nat → Nat × List Char
  | [], acc => (acc, [])
  | c :: cs, acc =>
    match digitVal c with
    | some d => takeDigits cs (acc * 10 + d)
    | none => (acc, c :: cs)

/-- The integer part of a JSON number: `0`, or a non-zero digit followed by digits. -/
def parseNat : List Char → Option (Nat × List Char)
  | [] => none
  | c :: cs =>
    if c = '0' then some (0, cs)
    else match digitVal c with
      | some d => some (takeDigits cs d)
      | none => none

/-- The character of a two-character escape `\e`. -/
def unescape (e : Char) : Option Char :=
  if e = '"' then some '"'
  else if e = '\\' then some '\\'
  else if e = '/' then some '/'
  else if e = 'b' then some (Char.ofNat 8)
  else if e = 'f' then some (Char.ofNat 12)
  else if e = 'n' then some '\n'
  else if e = 'r' then some '\r'
  else if e = 't' then some '\t'
  else none

/-- Put a character in front of the string of a parse result. -/
def consResult (c : Char) : Option (List Char × List Char) → Option (List Char × List Char)
  | some (s, rest) => some (c :: s, rest)
  | none => none

/-- The character of a `\u` escape whose four hexadecimal digits are at the head of the
input. The escape of a high surrogate must be followed by the `\u` escape of a low
surrogate; the two make one character. -/
def readUnicodeEscape : List Char → Option (Char × List Char)
  | a :: b :: c :: d :: cs =>
    match hex4 a b c d with
    | none => none
    | some v =>
      if v < 0xD800 ∨ 0xDFFF < v then some (Char.ofNat v, cs)
      else if 0xDC00 ≤ v then none
      else
        match cs with
        | b1 :: u1 :: a2 :: b2 :: c2 :: d2 :: cs3 =>
          if b1 = '\\' ∧ u1 = 'u' then
            match hex4 a2 b2 c2 d2 with
            | none => none
            | some w =>
              if 0xDC00 ≤ w ∧ w ≤ 0xDFFF then
                some (Char.ofNat (0x10000 + (v - 0xD800) * 0x400 + (w - 0xDC00)), cs3)
              else none
          else none
        | _ => none
  | _ => none

/-- One step inside a string literal: the closing quote (`none`), or the next character
the literal denotes; with the input after it. -/
def readStringChar : List Char → Option (Option Char × List Char)
  | [] => none
  | c :: cs =>
    if c = '"' then some (none, cs)
    else if c = '\\' then
      match cs with
      | [] => none
      | e :: cs1 =>
        if e = 'u' then
          match readUnicodeEscape cs1 with
          | some (ch, rest) => some (some ch, rest)
          | none => none
        else
          match unescape e with
          | some ch => some (some ch, cs1)
          | none => none
    else if c.toNat < 32 then none
    else some (some c, cs)

/-- The rest of a string literal after its opening quote, read in at most `fuel` steps:
the characters it denotes and the input after the closing quote. -/
def parseStringSteps : Nat → List Char → Option (List Char × List Char)
  | 0, _ => none
  | fuel + 1, cs =>
    match readStringChar cs with
    | none => none
    | some (none, rest) => some ([], rest)
    | some (some ch, rest) => consResult ch (parseStringSteps fuel rest)

/-- The rest of a string literal after its opening quote. Every step takes at least one
character, so the length of the input is budget enough. -/
def parseStringBody (cs : List Char) : Option (List Char × List Char) :=
  parseStringSteps cs.length cs

/-- Expect the characters `lit` at the head of the input. -/
def expectLit (lit : List Char) (v : Json) (cs : List Char) : Option (Json × List Char) :=
  if lit.isPrefixOf cs then some (v, cs.drop lit.length) else none

mutual
/-- A JSON value at the head of the input, after optional white space. -/
def parseValue : Nat → List Char → Option (Json × List Char)
  | 0, _ => none
  | fuel + 1, cs =>
    match skipWs cs with
    | [] => none
    | c :: rest =>
      if c = 'n' then expectLit ['u', 'l', 'l'] .null rest
      else if c = 't' then expectLit ['r', 'u', 'e'] (.bool true) rest
      else if c = 'f' then expectLit ['a', 'l', 's', 'e'] (.bool false) rest
      else if c = '"' then
        match parseStringBody rest with
        | some (s, r) => some (.str (String.mk s), r)
        | none => none
      else if c = '[' then
        match skipWs rest with
        | [] => none
        | d :: r => if d = ']' then some (.arr [], r) else
          match parseElements fuel (d :: r) with
          | some (xs, r1) => some (.arr xs, r1)
          | none => none
      else if c = '{' then
        match skipWs rest with
        | [] => none
        | d :: r => if d = '}' then some (.obj [], r) else
          match parseMembers fuel (d :: r) with
          | some (ms, r1) => some (.obj ms, r1)
          | none => none
      else if c = '-' then
        match parseNat rest with
        | some (n, r) => some (.num (-(n : Int)), r)
        | none => none
      else
        match parseNat (c :: rest) with
        | some (n, r) => some (.num (n : Int), r)
        | none => none
/-- One or more values separated by commas, up to and including the closing bracket. -/
def parseElements : Nat → List Char → Option (List Json × List Char)
  | 0, _ => none
  | fuel + 1, cs =>
    match parseValue fuel cs with
    | none => none
    | some (x, r) =>
      match skipWs r with
      | [] => none
      | d :: r1 =>
        if d = ']' then some ([x], r1)
        else if d = ',' then
          match parseElements fuel r1 with
          | some (xs, r2) => some (x :: xs, r2)
          | none => none
        else none
/-- One or more members `"key": value` separated by commas, up to and including the
closing brace. -/
def parseMembers : Nat → List Char → Option (List (String × Json) × List Char)
  | 0, _ => none
  | fuel + 1, cs =>
    match skipWs cs with
    | [] => none
    | q :: r0 =>
      if q = '"' then
        match parseStringBody r0 with
        | none => none
        | some (k, r) =>
          match skipWs r with
          | [] => none
          | colon :: r1 =>
            if colon = ':' then
              match parseValue fuel r1 with
              | none => none
              | some (v, r2) =>
                match skipWs r2 with
                | [] => none
                | d :: r3 =>
                  if d = '}' then some ([(String.mk k, v)], r3)
                  else if d = ',' then
                    match parseMembers fuel r3 with
                    | some (ms, r4) => some ((String.mk k, v) :: ms, r4)
                    | none => none
                  else none
            else none
      else none
end

/-- `JSON.parse(text)`: the value of the text, or a `SyntaxError`. The recursion budget is
the length of the text, which every JSON text fits in. -/
def JSON.parse (text : String) : Except JsError Json :=
  match parseValue (text.data.length + 1) text.data with
  | some (j, rest) => if skipWs rest = [] then .ok j else .error .syntaxError
  | none => .error .syntaxError

/-! ## Object literals and strings -/

/-- Property read on an object given by its members in order: as in an object literal,
the last member with the name counts. -/
def getProp {α : Type} (o : List (String × α)) (k : String) : Option α :=
  match o with
  | [] => none
  | (k1, v1) :: rest =>
    match getProp rest k with
    | some v => some v
    | none => if k1 = k then some v1 else none

/-- Whether an object has an own property `k`. -/
def hasProp {α : Type} (o : List (String × α)) (k : String) : Bool :=
  o.any (fun m => m.1 == k)

/-- Give every member named `k` the value `v`. -/
def replaceProp {α : Type} : List (String × α) → String → α → List (String × α)
  | [], _, _ => []
  | (k1, v1) :: rest, k, v => (k1, if k1 = k then v else v1) :: replaceProp rest k v

/-- Assignment `o[k] = v`: an existing property keeps its place and takes the new value,
a new property goes last. -/
def setProp {α : Type} (o : List (String × α)) (k : String) (v : α) : List (String × α) :=
  if hasProp o k then replaceProp o k v else o ++ [(k, v)]

/-- Object spread: the members of `src` are assigned to `o` one after the other. -/
def spread {α : Type} (o src : List (String × α)) : List (String × α) :=
  src.foldl (fun acc m => setProp acc m.1 m.2) o

/-- `hay.includes(needle)` on character lists. -/
def includesChars (needle : List Char) : List Char → Bool
  | [] => needle.isEmpty
  | c :: cs => needle.isPrefixOf (c :: cs) || includesChars needle cs

/-- `hay.includes(needle)`. -/
def includes (hay needle : String) : Bool := includesChars needle.data hay.data

/-- White space and line terminators, the characters `String.prototype.trim` removes. -/
def isJsWhitespace (c : Char) : Bool :=
  let n := c.toNat
  (9 ≤ n && n ≤ 13) || n = 32 || n = 160 || n = 5760 || (8192 ≤ n && n ≤ 8202) ||
  n = 8232 || n = 8233 || n = 8239 || n = 8287 || n = 12288 || n = 65279

/-- Drop leading white space. -/
def trimStartChars : List Char → List Char
  | [] => []
  | c :: cs => if isJsWhitespace c then trimStartChars cs else c :: cs

/-- `s.trim()`. -/
def jsTrim (s : String) : String :=
  String.mk (trimStartChars (trimStartChars s.data).reverse).reverse

/-- A string is blank when it is empty or consists of white space only. -/
def isBlank (s : String) : Bool := s.data.all isJsWhitespace

/-- `s.toLowerCase()` on ASCII letters; other characters are kept. -/
def toLowerCase (s : String) : String := String.mk (s.data.map Char.toLower)

mutual
/-- `String(v)` (`ToString`) of a JavaScript value. -/
def toJsChars : Json → List Char
  | .null => ['n', 'u', 'l', 'l']
  | .bool true => ['t', 'r', 'u', 'e']
  | .bool false => ['f', 'a', 'l', 's', 'e']
  | .num n => intToChars n
  | .str s => s.data
  | .arr [] => []
  | .arr (x :: xs) => joinElem x ++ joinRest xs
  | .obj _ => "[object Object]".data
/-- An array element in `Array.prototype.join`: `null` gives the empty text, any other
element its `String(v)`. -/
def joinElem : Json → List Char
  | .null => []
  | .bool true => ['t', 'r', 'u', 'e']
  | .bool false => ['f', 'a', 'l', 's', 'e']
  | .num n => intToChars n
  | .str s => s.data
  | .arr [] => []
  | .arr (x :: xs) => joinElem x ++ joinRest xs
  | .obj _ => "[object Object]".data
/-- The elements after the first one, each preceded by a comma. -/
def joinRest : List Json → List Char
  | [] => []
  | x :: xs => ',' :: (joinElem x ++ joinRest xs)
end

/-- `String(v)`. -/
def toJsString (j : Json) : String := String.mk (toJsChars j)

/-! ## The browser platform: `localStorage`, `fetch`, `Response` -/

/-- `localStorage`: the stored entries and the quota, counted in characters of keys and
values. -/
structure Storage where
  items : List (String × String)
  capacity : Nat

/-- Characters used by a list of entries. -/
def Storage.usage : List (String × String) → Nat
  | [] => 0
  | (k, v) :: rest => k.length + v.length + Storage.usage rest

/-- `localStorage.getItem(k)`: the stored text, or `null` (none). -/
def Storage.getItem (st : Storage) (k : String) : Option String :=
  (st.items.find? (fun m => m.1 == k)).map (fun m => m.2)

/-- The entries after writing `v` under `k`. -/
def Storage.written (st : Storage) (k v : String) : List (String × String) :=
  (k, v) :: st.items.filter (fun m => !(m.1 == k))

/-- Whether a write of `v` under `k` fits in the quota. -/
def Storage.accepts (st : Storage) (k v : String) : Bool :=
  Storage.usage (st.written k v) ≤ st.capacity

/-- `localStorage.setItem(k, v)`: throws `QuotaExceededError` and leaves the storage as it
is when the new content does not fit. -/
def Storage.setItem (st : Storage) (k v : String) : Except JsError Storage :=
  if st.accepts k v then .ok { st with items := st.written k v } else .error .quotaExceeded

/-- `localStorage.removeItem(k)`. -/
def Storage.removeItem (st : Storage) (k : String) : Storage :=
  { st with items := st.items.filter (fun m => !(m.1 == k)) }

/-- A body given to `fetch`: a JavaScript value of JSON shape (object, array, string, ...)
or a `FormData` multipart payload. -/
inductive BodyValue where
  | json (j : Json)
  | formData (parts : List (String × String))

/-- The options object of `request` and the init object of `fetch`. A field that is
`none` is absent from the object. -/
structure Options where
  method : Option String := none
  headers : Option (List (String × String)) := none
  body : Option BodyValue := none

/-- What the server sent: status line, headers (names in lower case, as `Headers` keeps
them) and body text; `body` is `none` for a null body (for example status 204). -/
structure Reply where
  status : Nat
  statusText : String
  headers : List (String × String)
  body : Option String

/-- A `Response` object: the reply and whether its body stream has been read. -/
structure Response where
  reply : Reply
  bodyUsed : Bool

/-- The `Response` that `fetch` resolves with: its body has not been read. -/
def Response.fresh (r : Reply) : Response := { reply := r, bodyUsed := false }

/-- `res.ok`: the status is in the range 200 to 299. -/
def Response.ok (res : Response) : Bool := 200 ≤ res.reply.status && res.reply.status ≤ 299

/-- `res.headers.get(name)`: header names compare without regard to case. -/
def Response.header (res : Response) (name : String) : Option String :=
  (res.reply.headers.find? (fun m => toLowerCase m.1 == toLowerCase name)).map (fun m => m.2)

/-- Reading the body of a response (the "consume body" steps of the Fetch standard): a
body that has been read already cannot be read again and the read rejects with a
`TypeError`; a null body reads as the empty text. The response after the attempt comes
second. -/
def Response.consume (res : Response) : Except JsError String × Response :=
  match res.reply.body with
  | none => (.ok "", res)
  | some text =>
    if res.bodyUsed then (.error (.typeError "body stream already read"), res)
    else (.ok text, { res with bodyUsed := true })

/-- `res.text()`. -/
def Response.text (res : Response) : Except JsError String × Response := res.consume

/-- `res.json()`: read the body, then parse it. -/
def Response.json (res : Response) : Except JsError Json × Response :=
  match res.consume with
  | (.ok text, res1) => (JSON.parse text, res1)
  | (.error e, res1) => (.error e, res1)

/-- The transport `fetch(url, init)`: a reply from the server, or a rejection (network
failure). -/
abbrev Fetch := String → Options → Except JsError Reply

/-- Build-time environment `import.meta.env`. -/
structure Env where
  VITE_API_URL : Option String
  PROD : Bool
  DEV : Bool

/-! ## `api/client.js` -/

/-- Live API base URL. -/
def LIVE_API_BASE : String := "https://agrifinconnectrwanda.onrender.com/api"

/-- `API_BASE = import.meta.env.VITE_API_URL || (import.meta.env.PROD ? LIVE_API_BASE : '/api')`. -/
def API_BASE (env : Env) : String :=
  match env.VITE_API_URL with
  | some u => if u != "" then u else (if env.PROD then LIVE_API_BASE else "/api")
  | none => if env.PROD then LIVE_API_BASE else "/api"

/-- `typeof v === 'object'`. -/
def typeofObject : Json → Bool
  | .null => true
  | .arr _ => true
  | .obj _ => true
  | _ => false

/-- The `config` that `request` hands to `fetch` (client.js lines 12 to 21): the default
content type and the caller's headers, and the body as JSON text when
`options.body && typeof options.body === 'object' && !(options.body instanceof FormData)`. -/
def requestConfig (options : Options) : Options :=
  let config : Options :=
    { options with
      headers := some (spread [("Content-Type", "application/json")] (options.headers.getD [])) }
  match options.body with
  | some (.json j) =>
    if j.truthy && typeofObject j then
      { config with body := some (.json (.str (JSON.stringify j))) }
    else config
  | _ => config

/-- `contentType && contentType.includes('application/json')` for the `content-type`
header of a response. -/
def declaresJson (res : Response) : Bool :=
  match res.header "content-type" with
  | some contentType => contentType != "" && includes contentType "application/json"
  | none => false

/-- What `request` does with the response (client.js lines 23 to 40). The development
warning of line 32 writes to the console only. -/
def handleResponse (res : Response) : Except JsError Json :=
  if !res.ok then
    let message := if res.reply.statusText != "" then res.reply.statusText else "API error"
    match res.json with
    | (.ok j, _) => .error (.api message res.reply.status j)
    | (.error _, res1) =>
      match res1.text with
      | (.ok text, _) => .error (.api message res.reply.status (.str text))
      | (.error e, _) => .error e
  else if declaresJson res then res.json.1
  else (res.text.1).map Json.str

/-- The call to the transport and the handling of its answer (client.js lines 11 and 22
to 40): `fetch` is called once, with the URL of the endpoint and `config`. -/
def send (env : Env) (fetch : Fetch) (endpoint : String) (config : Options) :
    Except JsError Json :=
  match fetch (API_BASE env ++ endpoint) config with
  | .error e => .error e
  | .ok reply => handleResponse (Response.fresh reply)

/-- `request(endpoint, options)`. -/
def request (env : Env) (fetch : Fetch) (endpoint : String) (options : Options) :
    Except JsError Json :=
  send env fetch endpoint (requestConfig options)

/-- `login({ email, password })`. -/
def login (env : Env) (fetch : Fetch) (email password : String) : Except JsError Json :=
  request env fetch "/auth/login/"
    { method := some "POST"
      body := some (.json (.obj [("email", .str (toLowerCase (jsTrim email))),
                                 ("password", .str password)])) }

/-- The options `authRequest` passes on to `request` (client.js lines 124 to 129). -/
def authOptions (storage : Storage) (options : Options) : Options :=
  let token := storage.getItem "agrifinconnect-token"
  let headers := setProp (spread [] (options.headers.getD [])) "Authorization"
    (match token with
     | some tk => if tk != "" then "Token " ++ tk else ""
     | none => "")
  { options with headers := some headers }

/-- `authRequest(endpoint, options)`. -/
def authRequest (env : Env) (storage : Storage) (fetch : Fetch) (endpoint : String)
    (options : Options) : Except JsError Json :=
  request env fetch endpoint (authOptions storage options)

/-! ## `pages/GetStartedPage.jsx`: `handleLogin` -/

/-- Property read `v.k` on any JavaScript value: reading a property of `null` throws. -/
def readProp (v : Json) (k : String) : Except JsError (Option Json) :=
  match v with
  | .null => .error (.typeError "Cannot read properties of null")
  | _ => .ok (v.get k)

/-- Optional chaining `v?.k` on a possibly `undefined` value. -/
def optProp (v : Option Json) (k : String) : Option Json :=
  match v with
  | some (.obj ms) => (Json.obj ms).get k
  | _ => none

/-- Optional index `v?.[0]` on a possibly `undefined` value. -/
def optIndex0 (v : Option Json) : Option Json :=
  match v with
  | some (.arr (x :: _)) => some x
  | some (.str s) =>
    (match s.data with
     | c :: _ => some (.str (String.mk [c]))
     | [] => none)
  | some (.obj ms) => (Json.obj ms).get "0"
  | _ => none

/-- The operator `a || b` on possibly `undefined` values. -/
def orElse (a b : Option Json) : Option Json := if truthy? a then a else b

/-- Dashboard path of each role. -/
def ROLE_TO_PATH : List (String × String) :=
  [("farmer", "/dashboard/farmer"),
   ("microfinance", "/dashboard/microfinance"),
   ("admin", "/dashboard/admin")]

/-- `ROLE_TO_PATH[v]` for a possibly `undefined` key (own properties only). -/
def rolePath (v : Option Json) : Option String :=
  match v with
  | some j => getProp ROLE_TO_PATH (toJsString j)
  | none => none

/-- The object `handleLogin` returns. -/
structure LoginResult where
  success : Bool
  error : Option Json

/-- What `handleLogin` leaves behind: its result, `localStorage`, and the argument of the
call to `navigate` when it was called. -/
structure LoginOutcome where
  result : LoginResult
  storage : Storage
  navigated : Option (Option String)

/-- The `try` block of `handleLogin` after `login` has resolved with `data`
(GetStartedPage.jsx lines 49 to 57). A throw comes with the storage at that point. -/
def loginSuccess (storage : Storage) (role : String) (data : Json) :
    Except (JsError × Storage) LoginOutcome :=
  match readProp data "token" with
  | .error e => .error (e, storage)
  | .ok token =>
    let userRole := optProp (data.get "user") "role"
    let path := match rolePath userRole with
      | some p => if p != "" then some p else getProp ROLE_TO_PATH role
      | none => getProp ROLE_TO_PATH role
    let done (st : Storage) : LoginOutcome :=
      { result := { success := true, error := none }, storage := st, navigated := some path }
    match token with
    | none => .ok (done storage)
    | some tk =>
      if tk.truthy then
        match storage.setItem "agrifinconnect-token" (toJsString tk) with
        | .error e => .error (e, storage)
        | .ok st1 =>
          let user := if truthy? (data.get "user") then (data.get "user").getD (.obj []) else .obj []
          match st1.setItem "agrifinconnect-user" (JSON.stringify user) with
          | .error e => .error (e, st1)
          | .ok st2 => .ok (done st2)
      else .ok (done storage)

/-- The message of a 400 response (GetStartedPage.jsx lines 63 to 65). -/
def validationMessage (body : Json) : Json :=
  match body with
  | .obj _ | .arr _ =>
    (orElse (body.get "error")
      (orElse (optIndex0 (body.get "email"))
        (orElse (optIndex0 (body.get "password"))
          (some (.str (JSON.stringify body)))))).getD (.str (JSON.stringify body))
  | _ => body

/-- The `catch` block of `handleLogin` (GetStartedPage.jsx lines 58 to 69). -/
def loginFailure (t : String → String) (err : JsError) : LoginResult :=
  if err.status = some 401 then
    { success := false, error := some (.str (t "getStarted.errorInvalidCredentials")) }
  else if err.status = some 400 ∧ truthy? err.body then
    { success := false, error := some (validationMessage (err.body.getD .null)) }
  else { success := false, error := some (.str (t "getStarted.errorGeneric")) }

/-- `handleLogin(role, { email, password })`. The analytics call of line 46 is not awaited
and never rejects, so it has no part in the outcome. -/
def handleLogin (env : Env) (t : String → String) (fetch : Fetch) (storage : Storage)
    (role email password : String) : LoginOutcome :=
  match login env fetch email password with
  | .error err => { result := loginFailure t err, storage := storage, navigated := none }
  | .ok data =>
    match loginSuccess storage role data with
    | .ok out => out
    | .error (err, st) => { result := loginFailure t err, storage := st, navigated := none }

/-! ## `pages/FarmerDashboard.jsx`: the four farm-record stores -/

/-- The `employeeForm` state: the text of each input. -/
structure EmployeeForm where
  full_name : String
  role : String
  start_date : String
  pay_frequency : String
  pay_amount : String
  phone : String
  national_id : String
  employee_type : String
  status : String
  notes : String

/-- The empty form that `useState` starts with and that a successful add resets to. -/
def EmployeeForm.initial : EmployeeForm :=
  { full_name := ""
    role := ""
    start_date := ""
    pay_frequency := "monthly"
    pay_amount := ""
    phone := ""
    national_id := ""
    employee_type := "permanent"
    status := "active"
    notes := "" }

/-- The members of the form object, in the order of the object literal. -/
def EmployeeForm.members (f : EmployeeForm) : List (String × Json) :=
  [("full_name", .str f.full_name),
   ("role", .str f.role),
   ("start_date", .str f.start_date),
   ("pay_frequency", .str f.pay_frequency),
   ("pay_amount", .str f.pay_amount),
   ("phone", .str f.phone),
   ("national_id", .str f.national_id),
   ("employee_type", .str f.employee_type),
   ("status", .str f.status),
   ("notes", .str f.notes)]

/-- The `seedForm` state: the text of each input. -/
structure SeedForm where
  name : String
  variety : String
  quantity : String
  unit : String
  supplier : String
  lot_number : String
  purchase_date : String
  storage_location : String
  notes : String

/-- The empty form that `useState` starts with and that a successful add resets to. -/
def SeedForm.initial : SeedForm :=
  { name := ""
    variety := ""
    quantity := ""
    unit := "kg"
    supplier := ""
    lot_number := ""
    purchase_date := ""
    storage_location := ""
    notes := "" }

/-- The members of the form object, in the order of the object literal. -/
def SeedForm.members (f : SeedForm) : List (String × Json) :=
  [("name", .str f.name),
   ("variety", .str f.variety),
   ("quantity", .str f.quantity),
   ("unit", .str f.unit),
   ("supplier", .str f.supplier),
   ("lot_number", .str f.lot_number),
   ("purchase_date", .str f.purchase_date),
   ("storage_location", .str f.storage_location),
   ("notes", .str f.notes)]

/-- The `productionForm` state: the text of each input. -/
structure ProductionForm where
  crop : String
  season : String
  area_hectares : String
  planting_date : String
  harvest_date : String
  harvested_quantity : String
  harvested_unit : String
  field_name : String
  buyer : String
  price_per_unit : String
  total_revenue : String
  notes : String

/-- The empty form that `useState` starts with and that a successful add resets to. -/
def ProductionForm.initial : ProductionForm :=
  { crop := ""
    season := ""
    area_hectares := ""
    planting_date := ""
    harvest_date := ""
    harvested_quantity := ""
    harvested_unit := "kg"
    field_name := ""
    buyer := ""
    price_per_unit := ""
    total_revenue := ""
    notes := "" }

/-- The members of the form object, in the order of the object literal. -/
def ProductionForm.members (f : ProductionForm) : List (String × Json) :=
  [("crop", .str f.crop),
   ("season", .str f.season),
   ("area_hectares", .str f.area_hectares),
   ("planting_date", .str f.planting_date),
   ("harvest_date", .str f.harvest_date),
   ("harvested_quantity", .str f.harvested_quantity),
   ("harvested_unit", .str f.harvested_unit),
   ("field_name", .str f.field_name),
   ("buyer", .str f.buyer),
   ("price_per_unit", .str f.price_per_unit),
   ("total_revenue", .str f.total_revenue),
   ("notes", .str f.notes)]

/-- The `fertilizerForm` state: the text of each input. -/
structure FertilizerForm where
  crop : String
  field_name : String
  fertilizer_name : String
  application_date : String
  rate : String
  interval_days : String
  fertilizer_type : String
  method : String
  supplier : String
  cost : String
  notes : String

/-- The empty form that `useState` starts with and that a successful add resets to. -/
def FertilizerForm.initial : FertilizerForm :=
  { crop := ""
    field_name := ""
    fertilizer_name := ""
    application_date := ""
    rate := ""
    interval_days := ""
    fertilizer_type := "basal"
    method := "broadcast"
    supplier := ""
    cost := ""
    notes := "" }

/-- The members of the form object, in the order of the object literal. -/
def FertilizerForm.members (f : FertilizerForm) : List (String × Json) :=
  [("crop", .str f.crop),
   ("field_name", .str f.field_name),
   ("fertilizer_name", .str f.fertilizer_name),
   ("application_date", .str f.application_date),
   ("rate", .str f.rate),
   ("interval_days", .str f.interval_days),
   ("fertilizer_type", .str f.fertilizer_type),
   ("method", .str f.method),
   ("supplier", .str f.supplier),
   ("cost", .str f.cost),
   ("notes", .str f.notes)]

/-- The farm-data part of the dashboard: the four record lists, the four forms, and
`localStorage`. A record list is whatever value its initializer produced. -/
structure FarmState where
  farmEmployees : Json
  seedStock : Json
  productionRecords : Json
  fertilizerRecords : Json
  employeeForm : EmployeeForm
  seedForm : SeedForm
  productionForm : ProductionForm
  fertilizerForm : FertilizerForm
  storage : Storage
  activeFarmTab : String := "employees"

/-- The body shared by the four `useState` initializers:
`try { const raw = localStorage.getItem(key); return raw ? JSON.parse(raw) : []; } catch { return []; }`. -/
def loadRecords (storage : Storage) (key : String) : Json :=
  match storage.getItem key with
  | none => .arr []
  | some raw =>
    if raw != "" then
      match JSON.parse raw with
      | .ok j => j
      | .error _ => .arr []
    else .arr []

/-- Initializer of `farmEmployees`. -/
def initFarmEmployees (storage : Storage) : Json := loadRecords storage "farm-employees"

/-- Initializer of `seedStock`. -/
def initSeedStock (storage : Storage) : Json := loadRecords storage "farm-seed-stock"

/-- Initializer of `productionRecords`. -/
def initProductionRecords (storage : Storage) : Json :=
  loadRecords storage "farm-production-records"

/-- Initializer of `fertilizerRecords`. -/
def initFertilizerRecords (storage : Storage) : Json :=
  loadRecords storage "farm-fertilizer-records"

/-- The `try { localStorage.setItem(key, JSON.stringify(next)); } catch { }` of the four
`persist` functions. -/
def tryStore (storage : Storage) (key : String) (next : Json) : Storage :=
  match storage.setItem key (JSON.stringify next) with
  | .ok st => st
  | .error _ => storage

/-- `persistFarmEmployees(next)`. -/
def persistFarmEmployees (s : FarmState) (next : Json) : FarmState :=
  { s with farmEmployees := next, storage := tryStore s.storage "farm-employees" next }

/-- `persistSeedStock(next)`. -/
def persistSeedStock (s : FarmState) (next : Json) : FarmState :=
  { s with seedStock := next, storage := tryStore s.storage "farm-seed-stock" next }

/-- `persistProductionRecords(next)`. -/
def persistProductionRecords (s : FarmState) (next : Json) : FarmState :=
  { s with productionRecords := next,
           storage := tryStore s.storage "farm-production-records" next }

/-- `persistFertilizerRecords(next)`. -/
def persistFertilizerRecords (s : FarmState) (next : Json) : FarmState :=
  { s with fertilizerRecords := next,
           storage := tryStore s.storage "farm-fertilizer-records" next }

/-- Array spread `[...v]`: the elements of an array, the characters of a string; any other
value is not iterable. -/
def spreadArray (v : Json) : Except JsError (List Json) :=
  match v with
  | .arr xs => .ok xs
  | .str s => .ok (s.data.map (fun c => Json.str (String.mk [c])))
  | _ => .error (.typeError "value is not iterable")

/-- The record `{ id: Date.now(), ...form }` of a form with the given members. -/
def newRecord (now : Nat) (members : List (String × Json)) : Json :=
  .obj (spread [("id", .num (now : Int))] members)

/-- `[...records, { id: Date.now(), ...form }]`. -/
def appendRecord (records : Json) (now : Nat) (members : List (String × Json)) :
    Except JsError Json :=
  match spreadArray records with
  | .ok xs => .ok (.arr (xs ++ [newRecord now members]))
  | .error e => .error e

/-- `handleAddEmployee(e)`, run when `Date.now()` is `now`. -/
def handleAddEmployee (now : Nat) (s : FarmState) : Except JsError FarmState :=
  if jsTrim s.employeeForm.full_name = "" then .ok s
  else
    match appendRecord s.farmEmployees now s.employeeForm.members with
    | .error e => .error e
    | .ok next => .ok { persistFarmEmployees s next with employeeForm := EmployeeForm.initial }

/-- `handleAddSeed(e)`, run when `Date.now()` is `now`. -/
def handleAddSeed (now : Nat) (s : FarmState) : Except JsError FarmState :=
  if jsTrim s.seedForm.name = "" then .ok s
  else
    match appendRecord s.seedStock now s.seedForm.members with
    | .error e => .error e
    | .ok next => .ok { persistSeedStock s next with seedForm := SeedForm.initial }

/-- `handleAddProduction(e)`, run when `Date.now()` is `now`. -/
def handleAddProduction (now : Nat) (s : FarmState) : Except JsError FarmState :=
  if jsTrim s.productionForm.crop = "" then .ok s
  else
    match appendRecord s.productionRecords now s.productionForm.members with
    | .error e => .error e
    | .ok next =>
      .ok { persistProductionRecords s next with productionForm := ProductionForm.initial }

/-- `handleAddFertilizer(e)`, run when `Date.now()` is `now`. -/
def handleAddFertilizer (now : Nat) (s : FarmState) : Except JsError FarmState :=
  if jsTrim s.fertilizerForm.fertilizer_name = "" then .ok s
  else
    match appendRecord s.fertilizerRecords now s.fertilizerForm.members with
    | .error e => .error e
    | .ok next =>
      .ok { persistFertilizerRecords s next with fertilizerForm := FertilizerForm.initial }

/-! ## `api/client.js`: analytics and package download -/

/-- The `message` property of a thrown value. The texts of platform errors differ between
browsers; they are never empty. -/
def JsError.message : JsError → String
  | .api m _ _ => m
  | .typeError m => m
  | .syntaxError => "Unexpected token in JSON"
  | .quotaExceeded => "The quota has been exceeded."

/-- `logGetStartedActivity(eventType, role)`: the call to `fetch` is inside `try`, and the
`catch` block is empty. -/
def logGetStartedActivity (env : Env) (fetch : Fetch) (eventType role : String) :
    Except JsError Unit :=
  match fetch (API_BASE env ++ "/activity/log/")
      { method := some "POST"
        headers := some [("Content-Type", "application/json")]
        body := some (.json (.str (JSON.stringify
          (.obj [("event_type", .str eventType), ("role", .str role)])))) } with
  | .ok _ => .ok ()
  | .error _ => .ok ()

/-- A template literal part `${v}` for a possibly `undefined` value. -/
def templ : Option Json → String
  | none => "undefined"
  | some j => toJsString j

/-- `res.blob()`: the bytes of the body, read like any other body. -/
def Response.blob (res : Response) : Except JsError String × Response := res.consume

/-- What the download functions throw on a response that is not ok (client.js lines 215
to 224): an error with the status, and the body from `res.json()` or else `res.text()`. -/
def downloadError (res : Response) : JsError :=
  let message := if res.reply.statusText != "" then res.reply.statusText else "Download failed"
  match res.json with
  | (.ok j, _) => .api message res.reply.status j
  | (.error _, res1) =>
    match res1.text with
    | (.ok text, _) => .api message res.reply.status (.str text)
    | (.error e, _) => e

/-- The object a package download returns. -/
structure PackageDownload where
  blob : String
  contentDisposition : String

/-- The init object of the package downloads: `GET` with the stored token. -/
def packageRequest (storage : Storage) : Options :=
  { method := some "GET"
    headers := some [("Authorization",
      match storage.getItem "agrifinconnect-token" with
      | some tk => if tk != "" then "Token " ++ tk else ""
      | none => "")] }

/-- The body shared by the two package downloads, after `url` has been built. -/
def downloadPackage (storage : Storage) (fetch : Fetch) (url : String) :
    Except JsError PackageDownload :=
  match fetch url (packageRequest storage) with
  | .error e => .error e
  | .ok reply =>
    let res := Response.fresh reply
    if !res.ok then .error (downloadError res)
    else
      match res.blob with
      | (.error e, _) => .error e
      | (.ok bytes, res1) =>
        .ok { blob := bytes
              contentDisposition :=
                match res1.header "content-disposition" with
                | some v => if v != "" then v else ""
                | none => "" }

/-- `downloadFarmerApplicationPackage(id)`. -/
def downloadFarmerApplicationPackage (env : Env) (storage : Storage) (fetch : Fetch)
    (id : Option Json) : Except JsError PackageDownload :=
  downloadPackage storage fetch
    (API_BASE env ++ "/farmer/applications/" ++ templ id ++ "/package/")

/-- `downloadMfiApplicationPackage(id)`. -/
def downloadMfiApplicationPackage (env : Env) (storage : Storage) (fetch : Fetch)
    (id : Option Json) : Except JsError PackageDownload :=
  downloadPackage storage fetch
    (API_BASE env ++ "/mfi/applications/" ++ templ id ++ "/package/")

/-! ## The dashboards: `handleDownloadPackage` -/

/-- The input after `pattern` when the input starts with it, letters compared without
regard to case (`pattern` is in lower case). -/
def stripIgnoreCase : List Char → List Char → Option (List Char)
  | [], cs => some cs
  | _ :: _, [] => none
  | p :: ps, c :: cs => if c.toLower = p then stripIgnoreCase ps cs else none

/-- The longest run of characters other than the double quote at the head of the input. -/
def takeNonQuote : List Char → List Char
  | [] => []
  | c :: cs => if c = '"' then [] else c :: takeNonQuote cs

/-- A match of `/filename="?([^"]+)"?/i` that starts at the head of the input: the text
of the capture group. -/
def execFilenameHere (cs : List Char) : Option (List Char) :=
  match stripIgnoreCase "filename=".data cs with
  | none => none
  | some rest =>
    match rest with
    | [] => none
    | c :: r =>
      if c = '"' then
        (match takeNonQuote r with
         | [] => none
         | d :: ds => some (d :: ds))
      else some (takeNonQuote (c :: r))

/-- `/filename="?([^"]+)"?/i.exec(text)?.[1]`: the capture group of the leftmost match. -/
def execFilenameChars : List Char → Option (List Char)
  | [] => none
  | c :: cs =>
    match execFilenameHere (c :: cs) with
    | some name => some name
    | none => execFilenameChars cs

/-- `/filename="?([^"]+)"?/i.exec(text)?.[1]`. -/
def execFilename (text : String) : Option String :=
  (execFilenameChars text.data).map String.mk

/-- What a download handler leaves behind: the file it saved (name and content) if any,
the `error` state, and the `downloadingPackageId` state. -/
structure DownloadOutcome where
  saved : Option (String × String)
  error : Option Json
  downloadingPackageId : Option Json

/-- The name under which the package is saved (FarmerDashboard.jsx lines 515 and 516). -/
def packageFilename (app : Json) (contentDisposition : String) : String :=
  match execFilename contentDisposition with
  | some inferred => inferred
  | none =>
    (if truthy? (app.get "folder_name") then templ (app.get "folder_name")
     else "application_" ++ templ (app.get "id")) ++ ".zip"

/-- The message a download handler shows:
`err.body?.error || err.message || 'Failed to download package'`. -/
def downloadErrorMessage (err : JsError) : Json :=
  let bodyError := match err.body with
    | some (.obj ms) => (Json.obj ms).get "error"
    | _ => none
  if truthy? bodyError then bodyError.getD .null
  else if err.message != "" then .str err.message
  else .str "Failed to download package"

/-- The body shared by the two handlers, given the outcome of the download. -/
def finishDownload (app : Json) (download : Except JsError PackageDownload) :
    DownloadOutcome :=
  match download with
  | .ok d =>
    { saved := some (packageFilename app d.contentDisposition, d.blob)
      error := none
      downloadingPackageId := none }
  | .error err =>
    { saved := none
      error := some (downloadErrorMessage err)
      downloadingPackageId := none }

/-- `handleDownloadPackage(app)` of the farmer dashboard. -/
def FarmerDashboard.handleDownloadPackage (env : Env) (storage : Storage) (fetch : Fetch)
    (app : Json) : DownloadOutcome :=
  finishDownload app (downloadFarmerApplicationPackage env storage fetch (app.get "id"))

/-- `handleDownloadPackage(app)` of the microfinance dashboard. -/
def MicrofinanceDashboard.handleDownloadPackage (env : Env) (storage : Storage)
    (fetch : Fetch) (app : Json) : DownloadOutcome :=
  finishDownload app (downloadMfiApplicationPackage env storage fetch (app.get "id"))

/-! ## `pages/FarmerDashboard.jsx`: CSV export -/

/-- `text.replace(/"/g, '""')` on characters. -/
def doubleQuotes : List Char → List Char
  | [] => []
  | c :: cs => if c = '"' then '"' :: '"' :: doubleQuotes cs else c :: doubleQuotes cs

/-- `String(v ?? '')`: the text of a value, empty for `undefined` and `null`. -/
def cellText : Option Json → String
  | none => ""
  | some .null => ""
  | some j => toJsString j

/-- One cell of a row: the text between double quotes, its double quotes doubled. -/
def csvCell (v : Option Json) : String :=
  String.mk ('"' :: (doubleQuotes (cellText v).data ++ ['"']))

/-- The text of a row: its cells joined by commas. -/
def csvRow (cols : List (Option Json)) : String := String.intercalate "," (cols.map csvCell)

/-- `pushRow(cols)`. -/
def pushRow (rows : List String) (cols : List (Option Json)) : List String :=
  rows ++ [csvRow cols]

/-- The columns of a header row. -/
def headerCols (names : List String) : List (Option Json) := names.map (fun n => some (.str n))

/-- The columns of the row of one record: the section name and the named properties of
the record. Reading a property of `null` throws. -/
def recordCols (sectionName : String) (names : List String) (e : Json) :
    Except JsError (List (Option Json)) :=
  match e with
  | .null => .error (.typeError "Cannot read properties of null")
  | _ => .ok (some (.str sectionName) :: names.map (fun k => e.get k))

/-- The loop `list.forEach((e) => pushRow([...]))` over the elements of an array. -/
def pushRecordRows (sectionName : String) (names : List String) :
    List String → List Json → Except JsError (List String)
  | rows, [] => .ok rows
  | rows, e :: rest =>
    match recordCols sectionName names e with
    | .error err => .error err
    | .ok cols => pushRecordRows sectionName names (pushRow rows cols) rest

/-- `list.forEach(...)` on a state value: only an array has `forEach`. -/
def forEachRecord (sectionName : String) (names : List String) (rows : List String)
    (list : Json) : Except JsError (List String) :=
  match list with
  | .arr xs => pushRecordRows sectionName names rows xs
  | _ => .error (.typeError "forEach is not a function")

/-- Header of the employees section. -/
def employeeHeader : List String :=
  ["Section", "Name", "Role", "Start date", "Pay frequency", "Pay amount (RWF)"]

/-- Properties exported for an employee. -/
def employeeFields : List String :=
  ["full_name", "role", "start_date", "pay_frequency", "pay_amount"]

/-- Header of the seeds section. -/
def seedHeader : List String := ["Section", "Name", "Variety", "Quantity", "Unit"]

/-- Properties exported for a seed stock entry. -/
def seedFields : List String := ["name", "variety", "quantity", "unit"]

/-- Header of the production section. -/
def productionHeader : List String :=
  ["Section", "Crop", "Season", "Area (ha)", "Planting date", "Harvest date",
   "Harvested qty", "Unit"]

/-- Properties exported for a production record. -/
def productionFields : List String :=
  ["crop", "season", "area_hectares", "planting_date", "harvest_date",
   "harvested_quantity", "harvested_unit"]

/-- Header of the fertilizers section. -/
def fertilizerHeader : List String :=
  ["Section", "Crop/field", "Fertilizer", "Date applied", "Rate", "Interval (days)"]

/-- Properties exported for a fertilizer record. -/
def fertilizerFields : List String :=
  ["crop", "fertilizer_name", "application_date", "rate", "interval_days"]

/-- The rows `handleExportFarmData` collects (FarmerDashboard.jsx lines 338 to 390). -/
def exportRows (s : FarmState) : Except JsError (List String) :=
  if s.activeFarmTab = "employees" then
    forEachRecord "Employee" employeeFields (pushRow [] (headerCols employeeHeader))
      s.farmEmployees
  else if s.activeFarmTab = "seeds" then
    forEachRecord "SeedStock" seedFields (pushRow [] (headerCols seedHeader)) s.seedStock
  else if s.activeFarmTab = "production" then
    forEachRecord "Production" productionFields (pushRow [] (headerCols productionHeader))
      s.productionRecords
  else if s.activeFarmTab = "fertilizers" then
    forEachRecord "Fertilizer" fertilizerFields (pushRow [] (headerCols fertilizerHeader))
      s.fertilizerRecords
  else .ok []

/-- A file handed to the browser for saving. -/
structure FileDownload where
  filename : String
  mime : String
  content : String

/-- `handleExportFarmData()`: the rows joined by line breaks, saved as `farm_data.csv`. -/
def handleExportFarmData (s : FarmState) : Except JsError FileDownload :=
  match exportRows s with
  | .error e => .error e
  | .ok rows =>
    .ok { filename := "farm_data.csv"
          mime := "text/csv;charset=utf-8;"
          content := String.intercalate "\n" rows }

/-- A run of add operations on one store: before each add the user has filled in the form,
and each add reads the clock. -/
def runAdds {F : Type} (setForm : FarmState → F → FarmState)
    (add : Nat → FarmState → Except JsError FarmState) :
    FarmState → List (Nat × F) → Except JsError FarmState
  | s, [] => .ok s
  | s, (now, form) :: rest =>
    match add now (setForm s form) with
    | .ok s1 => runAdds setForm add s1 rest
    | .error e => .error e

/-! ## Words of the record-store claims -/

/-- The list `after` is `before` with `record` appended: one longer, `record` last, and
the earlier records unchanged in front of it. -/
def IsAppendOf (before : List Json) (record : Json) (after : Json) : Prop :=
  ∃ ys, after = .arr ys ∧ ys.length = before.length + 1 ∧ ys.getLast? = some record ∧
    ys.take before.length = before

/-- The record of a form: an `id` followed by the fields of the form. -/
def recordOf (now : Nat) (members : List (String × Json)) : Json :=
  .obj (("id", .num (now : Int)) :: members)

/-- The identifiers of the records of a list, in order. -/
def recordIds : Json → List (Option Json)
  | .arr xs => xs.map (fun x => x.get "id")
  | _ => []

/-- A record is an object. -/
def IsRecord (j : Json) : Prop := ∃ ms, j = .obj ms

/-- Undo `doubleQuotes`: every pair of double quotes becomes one. -/
def undoubleQuotes : List Char → List Char
  | [] => []
  | [c] => [c]
  | c :: d :: cs =>
    if c = '"' ∧ d = '"' then '"' :: undoubleQuotes cs else c :: undoubleQuotes (d :: cs)

/-- Read a cell back: drop the enclosing quotes, then undo the doubling. -/
def readCell (cell : String) : String :=
  String.mk (undoubleQuotes (cell.data.drop 1).dropLast)

/-- The cells of the row of one record. -/
def recordRow (sectionName : String) (names : List String) (e : Json) : List (Option Json) :=
  some (.str sectionName) :: names.map (fun k => e.get k)

/-- The table a section exports: the header, then one row per record. -/
def exportTable (header : List String) (sectionName : String) (names : List String)
    (xs : List Json) : List (List (Option Json)) :=
  headerCols header :: xs.map (recordRow sectionName names)

/-- The file `handleExportFarmData` saves for a table. -/
def csvFile (table : List (List (Option Json))) : FileDownload :=
  { filename := "farm_data.csv"
    mime := "text/csv;charset=utf-8;"
    content := String.intercalate "\n" (table.map csvRow) }

/-! ## Words of the round trip of JSON text -/

/-- Value of a run of decimal digits read from the left, starting from `acc`. -/
def digitsValue (acc : Nat) : List Char → Nat
  | [] => acc
  | c :: cs => digitsValue (acc * 10 + (c.toNat - 48)) cs

/-- No digit stands at the head of the input. -/
def NoDigitHead (rest : List Char) : Prop := ∀ c r, rest = c :: r → digitVal c = none

/-- A character that can start a JSON text as `JSON.stringify` writes it. -/
def ValueStart (c : Char) : Prop := isJsonWs c = false ∧ c ≠ ']' ∧ c ≠ '}'

/-- Parsing the text of `j` in front of any input that does not continue a number gives
back `j` and that input, whenever the budget exceeds the length of the text. -/
def RoundTrips (j : Json) : Prop :=
  ∀ fuel rest, (stringifyChars j).length < fuel → NoDigitHead rest →
    parseValue fuel (stringifyChars j ++ rest) = some (j, rest)

/-! ## `components/ApplicationTracker.jsx` -/

/-- The statuses of an application, in order. -/
def STATUS_ORDER : List String :=
  ["pending", "under_review", "documents_requested", "approved", "rejected"]

/-- `xs.indexOf(x)` counted from `start`: the position of the first element equal to `x`,
or `-1`. -/
def indexFrom (start : Int) (x : String) : List String → Int
  | [] => -1
  | y :: ys => if y = x then start else indexFrom (start + 1) x ys

/-- `xs.indexOf(x)` for a possibly `undefined` `x`, which equals no string. -/
def indexOf (xs : List String) (x : Option String) : Int :=
  match x with
  | none => -1
  | some v => indexFrom 0 v xs

/-- JavaScript truthiness of a possibly `undefined` string. -/
def truthyString : Option String → Bool
  | none => false
  | some v => v != ""

/-- `getProgressStep(currentStatus)`. -/
def getProgressStep (currentStatus : Option String) : Int :=
  if !truthyString currentStatus then 0
  else
    let i := indexOf STATUS_ORDER currentStatus
    if i ≥ 0 then i + 1 else 1

/-- `getHorizontalSteps(currentStatus)`. -/
def getHorizontalSteps (currentStatus : Option String) : List String :=
  let outcome := if currentStatus = some "rejected" then "rejected" else "approved"
  ["pending", "under_review", "documents_requested", outcome]

/-- `totalSteps` of the tracker. -/
def totalSteps : Int := 4

/-- `progressPercent`: `Math.min(100, Math.round((progressStep / totalSteps) * 100))`; a
quarter of a hundred is a whole number, so nothing is rounded. -/
def progressPercent (currentStatus : Option String) : Int :=
  min 100 (getProgressStep currentStatus * 25)

/-- The text of the progress label: `progressStep` of `totalSteps`. -/
def progressLabel (currentStatus : Option String) : Int × Int :=
  (getProgressStep currentStatus, totalSteps)

/-- One step of the timeline with its two marks. -/
structure TrackerStep where
  status : String
  isDone : Bool
  isCurrent : Bool

/-- `currentIndex` of the tracker: `currentStatus ? STATUS_ORDER.indexOf(currentStatus) : 0`. -/
def currentIndex (currentStatus : Option String) : Int :=
  if truthyString currentStatus then indexOf STATUS_ORDER currentStatus else 0

/-- The steps the tracker displays, with `isDone` and `isCurrent` as computed in the
`steps.map` of the component (ApplicationTracker.jsx lines 117 to 121). -/
def trackerSteps (currentStatus : Option String) : List TrackerStep :=
  (getHorizontalSteps currentStatus).map (fun status =>
    { status := status
      isDone := decide (indexOf STATUS_ORDER (some status) < currentIndex currentStatus) ||
        decide (some status = currentStatus)
      isCurrent := decide (some status = currentStatus) })

/-! ## `pages/FarmerDashboard.jsx`: `formToMlPayload` and the ML previews -/

/-- A number with a fraction, given by the text `Number::toString` writes for it. -/
structure Fraction where
  text : String
  deriving DecidableEq

/-- The value of `Number(v)` as far as the embedding follows it: an integer, `NaN`, or a
number outside the integer fragment (a fraction, an exponent, another radix, an infinity,
an integer beyond `2 ^ 53`, or a malformed numeral with digits), whose value is not
followed. -/
inductive NumberResult where
  | int (n : Int)
  | nan
  | outside
  deriving DecidableEq

/-- Whether a character is a decimal digit. -/
def isDigitChar (c : Char) : Bool := (digitVal c).isSome

/-- An integer within the range in which numbers are exact. -/
def safeInt (n : Int) : NumberResult :=
  if n.natAbs ≤ 9007199254740992 then .int n else .outside

/-- A run of decimal digits, signed, as a number. -/
def digitsToNumber (negative : Bool) (digits : List Char) : Option NumberResult :=
  if digits != [] && digits.all isDigitChar then
    some (safeInt (if negative then -(digitsValue 0 digits : Int) else (digitsValue 0 digits : Int)))
  else none

/-- `StringToNumber`: the text is trimmed; the empty text is `0`; a decimal integer with
an optional sign is that integer; a text without any digit, other than an infinity, is
`NaN`. -/
def stringToNumber (s : String) : NumberResult :=
  let cs := (jsTrim s).data
  match cs with
  | [] => .int 0
  | c :: rest =>
    let parsed :=
      if c = '-' then digitsToNumber true rest
      else if c = '+' then digitsToNumber false rest
      else digitsToNumber false (c :: rest)
    match parsed with
    | some r => r
    | none =>
      if cs.any isDigitChar then .outside
      else if cs = "Infinity".data ∨ cs = "+Infinity".data ∨ cs = "-Infinity".data then .outside
      else .nan

/-- `Number(v)` for a possibly `undefined` value. -/
def toNumber : Option Json → NumberResult
  | none => .nan
  | some .null => .int 0
  | some (.bool true) => .int 1
  | some (.bool false) => .int 0
  | some (.num n) => safeInt n
  | some (.str s) => stringToNumber s
  | some (.arr xs) => stringToNumber (toJsString (.arr xs))
  | some (.obj _) => .nan

/-- `Number(v) || d`: zero and `NaN` are falsy. -/
def numberOr (r : NumberResult) (d : Int) : NumberResult :=
  match r with
  | .int n => if n ≠ 0 then .int n else .int d
  | .nan => .int d
  | .outside => .outside

/-- `v || 'd'` for a property of the form. -/
def valueOr (v : Option Json) (d : String) : Json :=
  match v with
  | some j => if j.truthy then j else .str d
  | none => .str d

/-- The object `formToMlPayload` returns. -/
structure MlPayload where
  Age : NumberResult
  AnnualIncome : NumberResult
  CreditScore : NumberResult
  LoanAmount : NumberResult
  LoanDuration : NumberResult
  EmploymentStatus : Json
  EducationLevel : Json
  MaritalStatus : Json
  LoanPurpose : Json
  DebtToIncomeRatio : Fraction

/-- The property names of the object `formToMlPayload` returns, in the order of the
object literal. -/
def MlPayload.keys : List String :=
  ["Age", "AnnualIncome", "CreditScore", "LoanAmount", "LoanDuration", "EmploymentStatus",
   "EducationLevel", "MaritalStatus", "LoanPurpose", "DebtToIncomeRatio"]

/-- `formToMlPayload(form)`. -/
def formToMlPayload (form : Json) : MlPayload :=
  { Age := numberOr (toNumber (form.get "age")) 35
    AnnualIncome := numberOr (toNumber (form.get "annual_income")) 600000
    CreditScore := numberOr (toNumber (form.get "credit_score")) 600
    LoanAmount := numberOr (toNumber (form.get "loan_amount_requested")) 200000
    LoanDuration := numberOr (toNumber (form.get "loan_duration_months")) 24
    EmploymentStatus := valueOr (form.get "employment_status") "Self-Employed"
    EducationLevel := valueOr (form.get "education_level") "High School"
    MaritalStatus := valueOr (form.get "marital_status") "Married"
    LoanPurpose := valueOr (form.get "loan_purpose") "Other"
    DebtToIncomeRatio := { text := "0.35" } }

/-- The purpose of an ML preview call. -/
inductive ModelCall where
  | eligibility
  | risk
  | recommend
  deriving DecidableEq

/-- The `modelResults` state: one slot per purpose, `null` when empty. -/
structure ModelResults where
  eligibility : Json
  risk : Json
  recommend : Json

/-- The slot of a purpose. -/
def ModelResults.get (r : ModelResults) : ModelCall → Json
  | .eligibility => r.eligibility
  | .risk => r.risk
  | .recommend => r.recommend

/-- `{ ...r, [purpose]: v }`. -/
def ModelResults.set (r : ModelResults) (c : ModelCall) (v : Json) : ModelResults :=
  match c with
  | .eligibility => { r with eligibility := v }
  | .risk => { r with risk := v }
  | .recommend => { r with recommend := v }

/-- The part of the dashboard state the ML previews use: the single `modelLoading` value
(`'eligibility' | 'risk' | 'recommend' | null`), `modelResults`, and `loading`. -/
structure ModelState where
  modelLoading : Option ModelCall
  modelResults : ModelResults
  loading : Bool

/-- The state `useState` starts with. -/
def ModelState.initial : ModelState :=
  { modelLoading := none
    modelResults := { eligibility := .null, risk := .null, recommend := .null }
    loading := false }

/-- The message of a failed preview: `err.body?.error || err.message || 'Model unavailable'`. -/
def modelErrorMessage (err : JsError) : Json :=
  let bodyError := match err.body with
    | some (.obj ms) => (Json.obj ms).get "error"
    | _ => none
  if truthy? bodyError then bodyError.getD .null
  else if err.message != "" then .str err.message
  else .str "Model unavailable"

/-- A preview handler up to its `await`: the loading value names the call and the slot
of the call is emptied. -/
def beginModelCall (c : ModelCall) (s : ModelState) : ModelState :=
  { s with modelLoading := some c, modelResults := s.modelResults.set c .null }

/-- A preview handler after its `await`, given the outcome of the request: the slot of
the call takes the data or an object with the error message, and `finally` sets the
loading value to `null`. -/
def endModelCall (c : ModelCall) (outcome : Except JsError Json) (s : ModelState) :
    ModelState :=
  { s with
    modelResults := s.modelResults.set c
      (match outcome with
       | .ok data => data
       | .error err => .obj [("error", modelErrorMessage err)])
    modelLoading := none }

/-- `handleCheckEligibility()`, given the outcome of `predictEligibility`. -/
def handleCheckEligibility (outcome : Except JsError Json) (s : ModelState) : ModelState :=
  endModelCall .eligibility outcome (beginModelCall .eligibility s)

/-- `handleCheckRisk()`, given the outcome of `predictRisk`. -/
def handleCheckRisk (outcome : Except JsError Json) (s : ModelState) : ModelState :=
  endModelCall .risk outcome (beginModelCall .risk s)

/-- `handleGetRecommendation()`, given the outcome of `recommendLoanAmount`. -/
def handleGetRecommendation (outcome : Except JsError Json) (s : ModelState) : ModelState :=
  endModelCall .recommend outcome (beginModelCall .recommend s)

/-- The loading indication of a call: its button shows the busy label when
`modelLoading` names the call. -/
def showsLoading (c : ModelCall) (s : ModelState) : Bool := decide (s.modelLoading = some c)

/-- `disabled={loading || !!modelLoading}` of each of the three buttons. -/
def previewDisabled (s : ModelState) : Bool := s.loading || s.modelLoading.isSome

/-! ## `pages/MicrofinanceDashboard.jsx`: `handleUpdateStatus` -/

/-- A value in a request payload: a value of JSON shape, or a number with a fraction. -/
inductive JsValue where
  | json (j : Json)
  | fraction (f : Fraction)

/-- JSON text of a payload value. -/
def JsValue.chars : JsValue → List Char
  | .json j => stringifyChars j
  | .fraction f => f.text.data

/-- The texts `"key":value` of the members of an object; a member whose value is
`undefined` is left out, as `JSON.stringify` does. -/
def memberTexts : List (String × Option JsValue) → List (List Char)
  | [] => []
  | (_, none) :: rest => memberTexts rest
  | (k, some v) :: rest => (quoteJSONString k ++ ':' :: v.chars) :: memberTexts rest

/-- Join texts with commas. -/
def joinComma : List (List Char) → List Char
  | [] => []
  | [x] => x
  | x :: y :: rest => x ++ ',' :: joinComma (y :: rest)

/-- `JSON.stringify` of an object given by its members in order. -/
def stringifyObject (members : List (String × Option JsValue)) : String :=
  String.mk ('{' :: (joinComma (memberTexts members) ++ ['}']))

/-- The payload `handleUpdateStatus` builds; a field that was not assigned is `none`. -/
structure StatusPayload where
  status : Option JsValue
  note : Option JsValue
  amount : Option JsValue
  interest_rate : Option JsValue
  duration_months : Option JsValue

/-- The body object of `updateMfiApplicationStatus`:
`{ status, note, amount, interest_rate, duration_months }`. -/
def StatusPayload.members (p : StatusPayload) : List (String × Option JsValue) :=
  [("status", p.status), ("note", p.note), ("amount", p.amount),
   ("interest_rate", p.interest_rate), ("duration_months", p.duration_months)]

/-- The endpoint of a status update. -/
def updateStatusEndpoint (id : Option Json) : String :=
  "/mfi/applications/" ++ templ id ++ "/update-status/"

/-- A network as the page sees it: what the server answers to each request, and the
requests it has received so far, in order. -/
structure Network where
  respond : Fetch
  received : List (String × Options)

/-- `fetch(url, init)` on a network: the server receives the request and answers it. -/
def Network.fetch (net : Network) (url : String) (init : Options) :
    Except JsError Reply × Network :=
  (net.respond url init, { net with received := net.received ++ [(url, init)] })

/-- The call to the transport and the handling of its answer (client.js lines 11 and 22
to 40) on a network; the network after the call comes second. -/
def Network.send (env : Env) (net : Network) (endpoint : String) (config : Options) :
    Except JsError Json × Network :=
  match net.fetch (API_BASE env ++ endpoint) config with
  | (.error e, net1) => (.error e, net1)
  | (.ok reply, net1) => (handleResponse (Response.fresh reply), net1)

/-- `authRequest(endpoint, options)` on a network. -/
def Network.authRequest (env : Env) (storage : Storage) (net : Network) (endpoint : String)
    (options : Options) : Except JsError Json × Network :=
  net.send env endpoint (requestConfig (authOptions storage options))

/-- The `config` with which `updateMfiApplicationStatus` reaches `fetch`: what `request`
builds from the options of `authRequest` (`POST`, the headers of an authenticated
request), with the JSON text of the body object as body. The body object holds a number
with a fraction, so its text is written by `stringifyObject`. -/
def updateStatusConfig (storage : Storage) (payload : StatusPayload) : Options :=
  { requestConfig (authOptions storage { method := some "POST" }) with
    body := some (.json (.str (stringifyObject payload.members))) }

/-- `updateMfiApplicationStatus(id, payload)`. -/
def updateMfiApplicationStatus (env : Env) (storage : Storage) (net : Network)
    (id : Option Json) (payload : StatusPayload) : Except JsError Json × Network :=
  net.send env (updateStatusEndpoint id) (updateStatusConfig storage payload)

/-- `getMfiApplications(status)`. -/
def getMfiApplications (env : Env) (storage : Storage) (net : Network) (status : String) :
    Except JsError Json × Network :=
  net.authRequest env storage ("/mfi/applications/?status=" ++ status) {}

/-- `getMfiPortfolio()`. -/
def getMfiPortfolio (env : Env) (storage : Storage) (net : Network) :
    Except JsError Json × Network :=
  net.authRequest env storage "/mfi/portfolio/" {}

/-- Strict equality `a === b` of a value with another one that is not the same object:
values of primitive type are compared, an object or array equals no other value. -/
def strictEquals : Option Json → Option Json → Bool
  | none, none => true
  | some .null, some .null => true
  | some (.bool a), some (.bool b) => a == b
  | some (.num a), some (.num b) => a == b
  | some (.str a), some (.str b) => a == b
  | _, _ => false

/-- The part of the dashboard state `handleUpdateStatus` and the refreshes it starts use.
The status forms are kept by application id. -/
structure MfiState where
  error : Option Json
  success : Option String
  updatingId : Option Json
  statusForm : List (String × Json)
  loading : Bool
  statusFilter : String

/-- What a run of `handleUpdateStatus` leaves behind: the state and the network. -/
structure UpdateResult where
  state : MfiState
  network : Network

/-- `fetchApplications()` up to its `await`: `loading` is set, the error is cleared, and
the request for the list goes out. Its answer is handled after the caller has gone on. -/
def fetchApplications (env : Env) (storage : Storage) (r : UpdateResult) : UpdateResult :=
  { state := { r.state with loading := true, error := none }
    network := (getMfiApplications env storage r.network r.state.statusFilter).2 }

/-- `fetchPortfolio()` up to its `await`. -/
def fetchPortfolio (env : Env) (storage : Storage) (r : UpdateResult) : UpdateResult :=
  { state := { r.state with loading := true, error := none }
    network := (getMfiPortfolio env storage r.network).2 }

/-- `form.status || app.status` of `handleUpdateStatus`. -/
def selectedStatus (form app : Json) : Option Json :=
  orElse (form.get "status") (app.get "status")

/-- Whether `handleUpdateStatus` returns at once:
`!newStatus || newStatus === app.status`. When the form gives no status, `newStatus` is
`app.status` itself. -/
def nothingToUpdate (form app : Json) : Bool :=
  !truthy? (selectedStatus form app) ||
    (if truthy? (form.get "status") then strictEquals (form.get "status") (app.get "status")
     else true)

/-- The payload of an update (MicrofinanceDashboard.jsx lines 94 to 99). -/
def updatePayload (form app : Json) : StatusPayload :=
  let newStatus := selectedStatus form app
  let note := if truthy? (form.get "note") then form.get "note" else some (.str "")
  let base : StatusPayload :=
    { status := newStatus.map JsValue.json
      note := note.map JsValue.json
      amount := none
      interest_rate := none
      duration_months := none }
  if strictEquals newStatus (some (.str "approved")) then
    { base with
      amount := (orElse (app.get "recommended_amount")
        (app.get "loan_amount_requested")).map JsValue.json
      duration_months := (app.get "loan_duration_months").map JsValue.json
      interest_rate := some (.fraction { text := "0.12" }) }
  else base

/-- `statusForm[app.id] || {}`. -/
def currentForm (s : MfiState) (app : Json) : Json :=
  match getProp s.statusForm (templ (app.get "id")) with
  | some f => if f.truthy then f else .obj []
  | none => .obj []

/-- The message of a failed update:
`err.body?.error || err.message || 'Failed to update status'`. -/
def updateErrorMessage (err : JsError) : Json :=
  let bodyError := match err.body with
    | some (.obj ms) => (Json.obj ms).get "error"
    | _ => none
  if truthy? bodyError then bodyError.getD .null
  else if err.message != "" then .str err.message
  else .str "Failed to update status"

/-- `handleUpdateStatus(app)`, run on the tab `activeTab` (MicrofinanceDashboard.jsx
lines 86 to 110). Every request goes through the network, which records it. -/
def handleUpdateStatus (env : Env) (storage : Storage) (net : Network) (activeTab : String)
    (s : MfiState) (app : Json) : UpdateResult :=
  let form := currentForm s app
  if nothingToUpdate form app then { state := s, network := net }
  else
    let started : MfiState :=
      { s with updatingId := app.get "id", error := none, success := none }
    match updateMfiApplicationStatus env storage net (app.get "id")
        (updatePayload form app) with
    | (.ok _, net1) =>
      let updated : UpdateResult :=
        { state :=
            { started with
              success := some "Status updated."
              statusForm := setProp started.statusForm (templ (app.get "id")) (.obj []) }
          network := net1 }
      let refreshed := fetchApplications env storage updated
      let done := if activeTab = "portfolio" then fetchPortfolio env storage refreshed
        else refreshed
      { done with state := { done.state with updatingId := none } }
    | (.error err, net1) =>
      { state := { started with error := some (updateErrorMessage err), updatingId := none }
        network := net1 }

/-! ## Words of the login-failure, initialization and file-name claims -/

/-- The validation detail of an error body, in the words of the specification: the
`error` field of the body, else the first email error, else the first password error,
else the JSON text of the body; the body itself when it is not an object. -/
def validationDetail (body : Json) : Json :=
  match body with
  | .obj ms =>
    if truthy? ((Json.obj ms).get "error") then ((Json.obj ms).get "error").getD .null
    else if truthy? (optIndex0 ((Json.obj ms).get "email")) then
      (optIndex0 ((Json.obj ms).get "email")).getD .null
    else if truthy? (optIndex0 ((Json.obj ms).get "password")) then
      (optIndex0 ((Json.obj ms).get "password")).getD .null
    else .str (JSON.stringify (.obj ms))
  | .arr xs => .str (JSON.stringify (.arr xs))
  | .null => .null
  | .bool b => .bool b
  | .num n => .num n
  | .str text => .str text

/-- The text stored under a key is absent, empty, not JSON, or the JSON text of a list of
records. -/
def StoredListOrNothing (storage : Storage) (key : String) : Prop :=
  storage.getItem key = none ∨
  ∃ raw, storage.getItem key = some raw ∧
    (raw = "" ∨ (∃ e, JSON.parse raw = .error e) ∨
      ∃ xs, JSON.parse raw = .ok (.arr xs) ∧ ∀ x ∈ xs, IsRecord x)

/-- No occurrence of `filename=`, in any letter case, starts at one of the first `n`
positions of the text. -/
def NoFilenameBefore (n : Nat) (cs : List Char) : Prop :=
  ∀ i, i < n → stripIgnoreCase "filename=".data (cs.drop i) = none

/-- A header value in which `filename="NAME"` follows `pre` and is followed by `post`. -/
def quotedFilename (pre name post : List Char) : List Char :=
  pre ++ ("filename=".data ++ '"' :: (name ++ '"' :: post))

/-! ## Sample inputs -/

/-- A development build without a configured API URL. -/
def devEnv : Env := { VITE_API_URL := none, PROD := false, DEV := true }

/-- A reply with status 500 whose body is an HTML error page, not JSON text. -/
def serverErrorReply : Reply :=
  { status := 500
    statusText := "Internal Server Error"
    headers := [("content-type", "text/html")]
    body := some "<h1>Server Error (500)</h1>" }

/-- A reply with status 200 that declares JSON and has an empty body. -/
def emptyJsonReply : Reply :=
  { status := 200
    statusText := "OK"
    headers := [("content-type", "application/json")]
    body := some "" }

/-- A reply with status 200 that declares JSON and carries a JSON object. -/
def profileReply : Reply :=
  { status := 200
    statusText := "OK"
    headers := [("content-type", "application/json")]
    body := some "\x7b\"location\":\"Musanze\",\"age\":41\x7d" }

/-- Options with an object body and a content type chosen by the caller. -/
def plainTextOptions : Options :=
  { method := some "POST"
    headers := some [("Content-Type", "text/plain")]
    body := some (.json (.obj [("message", .str "muraho")])) }

/-- Options with an object body and one header that is not a content type. -/
def chatOptions : Options :=
  { method := some "POST"
    headers := some [("X-Trace", "7")]
    body := some (.json (.obj [("message", .str "muraho"), ("language", .str "rw")])) }

/-- A storage that holds a session token. -/
def signedInStorage : Storage :=
  { items := [("agrifinconnect-token", "9f3a")], capacity := 5000000 }

/-- The reply of a successful login of a farmer. -/
def loginReply : Reply :=
  { status := 200
    statusText := "OK"
    headers := [("content-type", "application/json")]
    body := some "\x7b\"token\":\"9f3a\",\"user\":\x7b\"id\":7,\"role\":\"farmer\"\x7d\x7d" }

/-- An empty storage with the usual quota. -/
def emptyStorage : Storage := { items := [], capacity := 5000000 }

/-- A dashboard with empty record lists, empty forms and the given storage. -/
def freshFarm (storage : Storage) : FarmState :=
  { farmEmployees := .arr []
    seedStock := .arr []
    productionRecords := .arr []
    fertilizerRecords := .arr []
    employeeForm := EmployeeForm.initial
    seedForm := SeedForm.initial
    productionForm := ProductionForm.initial
    fertilizerForm := FertilizerForm.initial
    storage := storage }

/-- A dashboard in which the key field of each of the four forms is filled in. -/
def filledFarm (storage : Storage) : FarmState :=
  { freshFarm storage with
    employeeForm := { EmployeeForm.initial with full_name := "Jean" }
    seedForm := { SeedForm.initial with name := "Maize" }
    productionForm := { ProductionForm.initial with crop := "Beans" }
    fertilizerForm := { FertilizerForm.initial with fertilizer_name := "NPK" } }

/-- A dashboard in which the key field of each of the four forms holds white space. -/
def blankFarm (storage : Storage) : FarmState :=
  { freshFarm storage with
    employeeForm := { EmployeeForm.initial with full_name := "  " }
    seedForm := { SeedForm.initial with name := " \t" }
    productionForm := { ProductionForm.initial with crop := "" }
    fertilizerForm := { FertilizerForm.initial with fertilizer_name := "\n" } }

/-- A storage whose quota is used up. -/
def fullStorage : Storage := { items := [("agrifinconnect-lang", "rw")], capacity := 20 }

/-- A storage whose farm-record entries are not JSON text. -/
def damagedStorage : Storage :=
  { items := [("farm-employees", "[\x7b\"id\":1"), ("farm-seed-stock", "undefined"),
              ("farm-fertilizer-records", "[1,]")],
    capacity := 5000000 }

/-- A reply with status 404 whose body is an HTML page. -/
def notFoundHtmlReply : Reply :=
  { status := 404
    statusText := "Not Found"
    headers := [("content-type", "text/html")]
    body := some "<h1>Not Found</h1>" }

/-- A reply with status 404 whose body is a JSON object with an `error` member. -/
def notFoundJsonReply : Reply :=
  { status := 404
    statusText := "Not Found"
    headers := [("content-type", "application/json")]
    body := some "\x7b\"error\":\"Application not found\"\x7d" }

/-- A successful package download with a `Content-Disposition` header. -/
def packageReply : Reply :=
  { status := 200
    statusText := "OK"
    headers := [("content-type", "application/zip"),
                ("content-disposition", "attachment; filename=\"application_7.zip\"")]
    body := some "PK-archive-bytes" }

/-- A reply with status 401 whose body is plain text. -/
def unauthorizedTextReply : Reply :=
  { status := 401
    statusText := "Unauthorized"
    headers := [("content-type", "text/plain")]
    body := some "Unauthorized" }

/-- A loan application as the dashboards list it. -/
def sampleApp : Json := .obj [("id", .num 7), ("folder_name", .str "loan_7")]

/-- Options whose headers supply `Content-Type: application/json` themselves. -/
def jsonHeaderOptions : Options :=
  { method := some "POST", headers := some [("Content-Type", "application/json")] }

/-- Options with a multipart form body. -/
def uploadOptions : Options :=
  { method := some "POST"
    body := some (.formData [("document_type", "national_id"), ("file", "scan.pdf")]) }

/-- A dashboard whose employee form holds a name with double quotes and a comma. -/
def quotedNameFarm : FarmState :=
  { freshFarm emptyStorage with
    employeeForm :=
      { EmployeeForm.initial with
        full_name := "Jean \"JP\", Sr", role := "Agronomist", pay_amount := "5000" } }

/-- A build with an override of the base URL. -/
def overrideEnv : Env :=
  { VITE_API_URL := some "https://staging.example.rw/api", PROD := true, DEV := false }

/-- A production build without an override. -/
def prodEnv : Env := { VITE_API_URL := none, PROD := true, DEV := false }

/-- A reply with status 400 whose body lists an email error. -/
def badRequestReply : Reply :=
  { status := 400
    statusText := "Bad Request"
    headers := [("content-type", "application/json")]
    body := some "\x7b\"email\":[\"Enter a valid email address.\"]\x7d" }

/-- A reply with status 400 whose body is the JSON text of a string. -/
def badRequestTextReply : Reply :=
  { status := 400
    statusText := "Bad Request"
    headers := [("content-type", "application/json")]
    body := some "\"Account is locked\"" }

/-- A storage whose employees entry is the JSON text of an object. -/
def objectStorage : Storage :=
  { items := [("farm-employees", "\x7b\x7d")], capacity := 5000000 }

/-- A storage whose employees entry is the JSON text of a list of one record. -/
def listStorage : Storage :=
  { items := [("farm-employees", "[\x7b\"id\":1,\"full_name\":\"Jean\"\x7d]")],
    capacity := 5000000 }

/-- A farmer form in which one number is typed as text, one is zero, one is not a number,
and one category is chosen. -/
def sampleForm : Json :=
  .obj [("age", .str "42"), ("annual_income", .num 0), ("credit_score", .str "abc"),
        ("loan_amount_requested", .num 350000), ("employment_status", .str "Employed"),
        ("education_level", .str "")]

/-- An application waiting for a decision. -/
def pendingApp : Json :=
  .obj [("id", .num 7), ("status", .str "pending"), ("loan_amount_requested", .num 200000),
        ("recommended_amount", .num 0), ("loan_duration_months", .num 12)]

/-- A dashboard in which the form of application 7 selects the given status. -/
def mfiSelecting (status : String) : MfiState :=
  { error := none, success := none, updatingId := none,
    statusForm := [("7", .obj [("status", .str status)])],
    loading := false, statusFilter := "all" }

/-- A network that has received nothing yet and whose server answers every request with
a JSON object. -/
def quietNetwork : Network := { respond := fun _ _ => .ok profileReply, received := [] }

/-- A network that has received nothing yet and whose server refuses every request. -/
def refusingNetwork : Network :=
  { respond := fun _ _ => .ok notFoundJsonReply, received := [] }

/-- A reply with status 400 whose body is plain text. -/
def badRequestPlainReply : Reply :=
  { status := 400
    statusText := "Bad Request"
    headers := [("content-type", "text/plain")]
    body := some "Email and password are required." }

/-- Two preview calls in flight: eligibility was started first, then risk. -/
def twoInFlight : ModelState :=
  beginModelCall .risk (beginModelCall .eligibility ModelState.initial)

/-! ## Objects: reading after assignment and spread -/

theorem getProp_append {α : Type} (a b : List (String × α)) (k : String) :
    getProp (a ++ b) k = match getProp b k with
      | some v => some v
      | none => getProp a k := by
  induction a with
  | nil =>
    simp only [List.nil_append, getProp]
    cases getProp b k <;> rfl
  | cons m a ih =>
    obtain ⟨k1, v1⟩ := m
    have hc : ((k1, v1) :: a) ++ b = (k1, v1) :: (a ++ b) := rfl
    rw [hc]
    simp only [getProp]
    rw [ih]
    cases getProp b k <;> rfl

theorem getProp_replaceProp {α : Type} (o : List (String × α)) (k q : String) (v : α) :
    getProp (replaceProp o k v) q =
      if q = k then (if hasProp o k then some v else none) else getProp o q := by
  induction o with
  | nil => simp [getProp, replaceProp, hasProp]
  | cons m o ih =>
    obtain ⟨k1, v1⟩ := m
    simp only [replaceProp, getProp]
    rw [ih]
    have hh : hasProp ((k1, v1) :: o) k = (k1 == k || hasProp o k) := rfl
    rw [hh]
    by_cases hq : q = k
    · subst hq
      by_cases h1 : k1 = q
      · subst h1
        cases hasProp o k1 <;> simp
      · cases hasProp o q <;> simp [h1]
    · by_cases h1 : k1 = q
      · subst h1
        simp only [hq, if_false]
      · simp only [hq, h1, if_false]

theorem getProp_setProp {α : Type} (o : List (String × α)) (k q : String) (v : α) :
    getProp (setProp o k v) q = if q = k then some v else getProp o q := by
  unfold setProp
  by_cases h : hasProp o k = true
  · simp only [h, if_true, getProp_replaceProp]
  · have h2 : hasProp o k = false := by simpa using h
    simp only [h2, Bool.false_eq_true, if_false, getProp_append, getProp]
    by_cases hq : q = k
    · subst hq; simp
    · have : ¬ k = q := fun e => hq e.symm
      simp only [hq, this, if_false]

theorem getProp_spread {α : Type} (src o : List (String × α)) (q : String) :
    getProp (spread o src) q = match getProp src q with
      | some v => some v
      | none => getProp o q := by
  induction src generalizing o with
  | nil => simp [spread, getProp]
  | cons m src ih =>
    obtain ⟨k1, v1⟩ := m
    have hs : spread o ((k1, v1) :: src) = spread (setProp o k1 v1) src := rfl
    rw [hs, ih, getProp_setProp]
    simp only [getProp]
    cases getProp src q with
    | some v => rfl
    | none =>
      by_cases h : q = k1
      · subst h; simp
      · have : ¬ k1 = q := fun e => h e.symm
        simp only [h, this, if_false]

/-! ## `request`: error responses -/

/-- When the body of an error response parses as JSON, the error carries the status of the
response and the parsed body. -/
theorem handleResponse_error_parsed (reply : Reply) (j : Json)
    (hok : (Response.fresh reply).ok = false)
    (hparse : JSON.parse (reply.body.getD "") = .ok j) :
    handleResponse (Response.fresh reply) =
      .error (.api (if reply.statusText != "" then reply.statusText else "API error")
        reply.status j) := by
  have hok1 : Response.ok { reply := reply, bodyUsed := false } = false := hok
  unfold handleResponse
  cases hb : reply.body with
  | none =>
    rw [hb] at hparse
    simp only [Option.getD] at hparse
    simp [hok1, Response.json, Response.consume, Response.fresh, hb, hparse]
  | some text =>
    rw [hb] at hparse
    simp only [Option.getD] at hparse
    simp [hok1, Response.json, Response.consume, Response.fresh, hb, hparse]

/-- When an error response has a body that does not parse as JSON, the fallback
`res.text()` reads a body that `res.json()` has read already, and what is thrown is the
`TypeError` of that second read. -/
theorem handleResponse_error_unparsable (reply : Reply) (text : String) (e : JsError)
    (hok : (Response.fresh reply).ok = false)
    (hbody : reply.body = some text)
    (hparse : JSON.parse text = .error e) :
    handleResponse (Response.fresh reply) = .error (.typeError "body stream already read") := by
  have hok1 : Response.ok { reply := reply, bodyUsed := false } = false := hok
  unfold handleResponse
  simp [hok1, Response.json, Response.text, Response.consume, Response.fresh, hbody, hparse]

/-- C1, at a reply with status 500 whose body is an HTML page: the status is not a success
status and the body is not JSON text, yet the error `request` throws is not the one with
status 500 and the raw text as body; it is the `TypeError` of reading the body twice, which
has neither a status nor a body. -/
theorem request_error_html_body :
    (Response.fresh serverErrorReply).ok = false ∧
    JSON.parse "<h1>Server Error (500)</h1>" = .error .syntaxError ∧
    request devEnv (fun _ _ => .ok serverErrorReply) "/auth/login/" {} =
      .error (.typeError "body stream already read") ∧
    (JsError.typeError "body stream already read").status = none ∧
    (JsError.typeError "body stream already read").body = none :=
  ⟨rfl, rfl, rfl, rfl, rfl⟩

/-! ## `request`: success responses -/

/-- C2 fails as stated: a reply with a success status that declares JSON and has an empty
body makes `request` throw the `SyntaxError` of `res.json()`; nothing is returned. -/
theorem request_success_empty_json_body :
    (Response.fresh emptyJsonReply).ok = true ∧
    declaresJson (Response.fresh emptyJsonReply) = true ∧
    request devEnv (fun _ _ => .ok emptyJsonReply) "/farmer/profile/" {} =
      .error .syntaxError :=
  ⟨rfl, rfl, rfl⟩

/-- C2 (amended): for a reply with a success status, `request` gives the outcome of
`JSON.parse` on the body text when the declared content type contains `application/json`
(the parsed value, or the parse error when the text is not JSON), and returns the raw
body text otherwise. -/
theorem request_success_body (env : Env) (fetch : Fetch) (endpoint : String)
    (options : Options) (reply : Reply)
    (hfetch : fetch (API_BASE env ++ endpoint) (requestConfig options) = .ok reply)
    (hok : (Response.fresh reply).ok = true) :
    request env fetch endpoint options =
      if declaresJson (Response.fresh reply) then JSON.parse (reply.body.getD "")
      else .ok (.str (reply.body.getD "")) := by
  unfold request send
  rw [hfetch]
  simp only [handleResponse, hok, Bool.not_true]
  have hd : declaresJson { reply := reply, bodyUsed := false } =
      declaresJson (Response.fresh reply) := rfl
  cases hb : reply.body with
  | none =>
    cases hj : declaresJson (Response.fresh reply) <;>
      simp [Response.json, Response.text, Response.consume, Response.fresh, hb, hj, hd,
        Except.map]
  | some text =>
    cases hj : declaresJson (Response.fresh reply) <;>
      simp [Response.json, Response.text, Response.consume, Response.fresh, hb, hj, hd,
        Except.map]

/-- Witness of `request_success_body`: a profile reply with a JSON object. -/
theorem request_success_body_witness :
    (Response.fresh profileReply).ok = true ∧
    request devEnv (fun _ _ => .ok profileReply) "/farmer/profile/" {} =
      if declaresJson (Response.fresh profileReply) then JSON.parse (profileReply.body.getD "")
      else .ok (.str (profileReply.body.getD "")) :=
  ⟨rfl, request_success_body devEnv (fun _ _ => .ok profileReply) "/farmer/profile/" {}
    profileReply rfl rfl⟩

/-! ## `request`: the configuration handed to the transport -/

/-- The content type `request` sends: the caller's when the caller supplies one, else
`application/json`. -/
theorem requestConfig_contentType (options : Options) :
    getProp ((requestConfig options).headers.getD []) "Content-Type" =
      match getProp (options.headers.getD []) "Content-Type" with
      | some v => some v
      | none => some "application/json" := by
  have h : (requestConfig options).headers =
      some (spread [("Content-Type", "application/json")] (options.headers.getD [])) := by
    unfold requestConfig
    split
    · split <;> rfl
    · rfl
  rw [h]
  simp only [Option.getD_some, getProp_spread]
  generalize getProp (options.headers.getD []) "Content-Type" = g
  cases g <;> simp [getProp]

/-- C3 fails as stated: with an object body and a caller-supplied `Content-Type: text/plain`
the body handed to the transport is JSON text but the content type is `text/plain`. -/
theorem request_object_body_caller_contentType :
    (requestConfig plainTextOptions).body =
      some (.json (.str "\x7b\"message\":\"muraho\"\x7d")) ∧
    getProp ((requestConfig plainTextOptions).headers.getD []) "Content-Type" =
      some "text/plain" :=
  ⟨rfl, by decide⟩

/-- C3 (amended): when the body is an object or an array, `request` calls the transport
with the JSON text of that body, and with `Content-Type: application/json` whenever the
caller's headers do not supply a `Content-Type` of their own. -/
theorem request_object_body (env : Env) (fetch : Fetch) (endpoint : String)
    (options : Options) (j : Json)
    (hbody : options.body = some (.json j))
    (hobj : (∃ ms, j = .obj ms) ∨ (∃ xs, j = .arr xs)) :
    request env fetch endpoint options = send env fetch endpoint (requestConfig options) ∧
    (requestConfig options).body = some (.json (.str (JSON.stringify j))) ∧
    (getProp (options.headers.getD []) "Content-Type" = none →
      getProp ((requestConfig options).headers.getD []) "Content-Type" =
        some "application/json") := by
  refine ⟨rfl, ?_, ?_⟩
  · unfold requestConfig
    rcases hobj with ⟨ms, rfl⟩ | ⟨xs, rfl⟩ <;>
      simp [hbody, Json.truthy, typeofObject]
  · intro hnone
    rw [requestConfig_contentType, hnone]

/-- Witness of `request_object_body`: a chat message sent with an extra header. -/
theorem request_object_body_witness :
    request devEnv (fun _ _ => .ok profileReply) "/chat/" chatOptions =
      send devEnv (fun _ _ => .ok profileReply) "/chat/" (requestConfig chatOptions) ∧
    (requestConfig chatOptions).body =
      some (.json (.str (JSON.stringify
        (.obj [("message", .str "muraho"), ("language", .str "rw")])))) ∧
    (getProp (chatOptions.headers.getD []) "Content-Type" = none →
      getProp ((requestConfig chatOptions).headers.getD []) "Content-Type" =
        some "application/json") :=
  request_object_body devEnv (fun _ _ => .ok profileReply) "/chat/" chatOptions
    (.obj [("message", .str "muraho"), ("language", .str "rw")]) rfl (Or.inl ⟨_, rfl⟩)

/-! ## `authRequest` -/

/-- The `Authorization` header of an authenticated request when a non-empty token is
stored. -/
theorem authOptions_authorization_stored (storage : Storage) (options : Options)
    (tk : String) (htk : storage.getItem "agrifinconnect-token" = some tk) (hne : tk ≠ "") :
    getProp ((requestConfig (authOptions storage options)).headers.getD [])
      "Authorization" = some ("Token " ++ tk) := by
  have h : (requestConfig (authOptions storage options)).headers =
      some (spread [("Content-Type", "application/json")]
        ((authOptions storage options).headers.getD [])) := by
    unfold requestConfig
    split
    · split <;> rfl
    · rfl
  rw [h]
  simp [authOptions, htk, hne, getProp_spread, getProp_setProp]

/-- C4: `authRequest` calls the transport with the header `Authorization` equal to
`Token ` followed by the stored token when a non-empty token is stored and equal to the
empty string when none is stored, and every other header the caller supplied is sent with
the caller's value. -/
theorem authRequest_authorization (env : Env) (storage : Storage) (fetch : Fetch)
    (endpoint : String) (options : Options) :
    authRequest env storage fetch endpoint options =
      send env fetch endpoint (requestConfig (authOptions storage options)) ∧
    (∀ tk, storage.getItem "agrifinconnect-token" = some tk → tk ≠ "" →
      getProp ((requestConfig (authOptions storage options)).headers.getD [])
        "Authorization" = some ("Token " ++ tk)) ∧
    (storage.getItem "agrifinconnect-token" = none →
      getProp ((requestConfig (authOptions storage options)).headers.getD [])
        "Authorization" = some "") ∧
    (∀ k v, k ≠ "Authorization" → getProp (options.headers.getD []) k = some v →
      getProp ((requestConfig (authOptions storage options)).headers.getD []) k =
        some v) := by
  have h : (requestConfig (authOptions storage options)).headers =
      some (spread [("Content-Type", "application/json")]
        ((authOptions storage options).headers.getD [])) := by
    unfold requestConfig
    split
    · split <;> rfl
    · rfl
  refine ⟨rfl, ?_, ?_, ?_⟩
  · intro tk htk hne
    exact authOptions_authorization_stored storage options tk htk hne
  · intro hnone
    rw [h]
    simp [authOptions, hnone, getProp_spread, getProp_setProp]
  · intro k v hk hv
    rw [h]
    simp [authOptions, getProp_spread, getProp_setProp, hk, hv]

/-- Witness of `authRequest_authorization`: a stored token and a caller header. -/
theorem authRequest_authorization_witness :
    getProp ((requestConfig (authOptions signedInStorage chatOptions)).headers.getD [])
        "Authorization" = some ("Token " ++ "9f3a") ∧
    getProp ((requestConfig (authOptions signedInStorage chatOptions)).headers.getD [])
        "X-Trace" = some "7" :=
  ⟨(authRequest_authorization devEnv signedInStorage (fun _ _ => .ok profileReply)
      "/farmer/profile/" chatOptions).2.1 "9f3a" rfl (by decide),
   (authRequest_authorization devEnv signedInStorage (fun _ _ => .ok profileReply)
      "/farmer/profile/" chatOptions).2.2.2 "X-Trace" "7" (by decide) rfl⟩

/-! ## `localStorage`: reading after writing -/

theorem Storage.getItem_setItem_same (st st1 : Storage) (k v : String)
    (h : st.setItem k v = .ok st1) : st1.getItem k = some v := by
  unfold Storage.setItem at h
  split at h
  · injection h with h
    subst h
    simp [Storage.getItem, Storage.written]
  · cases h

theorem Storage.getItem_setItem_other (st st1 : Storage) (k v q : String)
    (h : st.setItem k v = .ok st1) (hq : q ≠ k) : st1.getItem q = st.getItem q := by
  unfold Storage.setItem at h
  split at h
  · injection h with h
    subst h
    have hkq : (k == q) = false := by
      simp only [beq_eq_false_iff_ne, ne_eq]
      exact fun e => hq e.symm
    simp only [Storage.getItem, Storage.written, List.find?_cons, hkq]
    congr 1
    induction st.items with
    | nil => rfl
    | cons m ms ih =>
      by_cases hm : m.1 = k
      · have h1 : (m.1 == k) = true := by simp [hm]
        have h2 : (m.1 == q) = false := by
          simp only [beq_eq_false_iff_ne, ne_eq, hm]
          exact fun e => hq e.symm
        simp only [List.filter_cons, h1, Bool.not_true, List.find?_cons, h2]
        exact ih
      · have h1 : (m.1 == k) = false := by simp [hm]
        simp only [List.filter_cons, h1, Bool.not_false, if_true, List.find?_cons]
        cases (m.1 == q)
        · exact ih
        · rfl
  · cases h

theorem Storage.setItem_of_not_accepts (st : Storage) (k v : String)
    (h : st.accepts k v = false) : st.setItem k v = .error .quotaExceeded := by
  simp [Storage.setItem, h]

/-! ## `handleLogin` -/

/-- C5: when `login` resolves with a response that contains a non-empty token `T` and a
user object `U`, and `localStorage` takes the two writes, `handleLogin` reports success,
the storage holds `T` under `agrifinconnect-token` and the JSON text of `U` under
`agrifinconnect-user`, and every `authRequest` made with that storage calls the transport
with `Authorization: Token T`. -/
theorem handleLogin_persists_session (env : Env) (t : String → String) (fetch : Fetch)
    (storage st1 st2 : Storage) (role email password : String) (data : Json)
    (T : String) (U : List (String × Json))
    (hlogin : login env fetch email password = .ok data)
    (htoken : data.get "token" = some (.str T)) (hT : T ≠ "")
    (huser : data.get "user" = some (.obj U))
    (hw1 : storage.setItem "agrifinconnect-token" T = .ok st1)
    (hw2 : st1.setItem "agrifinconnect-user" (JSON.stringify (.obj U)) = .ok st2) :
    (handleLogin env t fetch storage role email password).result.success = true ∧
    (handleLogin env t fetch storage role email password).storage.getItem
      "agrifinconnect-token" = some T ∧
    (handleLogin env t fetch storage role email password).storage.getItem
      "agrifinconnect-user" = some (JSON.stringify (.obj U)) ∧
    ∀ (fetch2 : Fetch) (endpoint : String) (options : Options),
      authRequest env (handleLogin env t fetch storage role email password).storage
          fetch2 endpoint options =
        send env fetch2 endpoint (requestConfig (authOptions
          (handleLogin env t fetch storage role email password).storage options)) ∧
      getProp ((requestConfig (authOptions
          (handleLogin env t fetch storage role email password).storage
          options)).headers.getD []) "Authorization" = some ("Token " ++ T) := by
  have hout : handleLogin env t fetch storage role email password =
      { result := { success := true, error := none }, storage := st2,
        navigated := some (match rolePath (optProp (data.get "user") "role") with
          | some p => if p != "" then some p else getProp ROLE_TO_PATH role
          | none => getProp ROLE_TO_PATH role) } := by
    have hstr : toJsString (.str T) = T := by simp [toJsString, toJsChars]
    have hT1 : (T != "") = true := by simp [hT]
    have hread : readProp data "token" = .ok (some (.str T)) := by
      cases data <;> simp [Json.get] at htoken
      simp [readProp, Json.get, htoken]
    have htr : (Json.str T).truthy = true := by simp [Json.truthy, hT]
    unfold handleLogin
    rw [hlogin]
    simp only [loginSuccess, hread, htr, if_true, hstr, hw1, huser, truthy?, Json.truthy,
      Option.getD, hw2, hT1]
  have hget1 : st2.getItem "agrifinconnect-token" = some T := by
    rw [Storage.getItem_setItem_other st1 st2 _ _ _ hw2 (by decide)]
    exact Storage.getItem_setItem_same storage st1 _ _ hw1
  have hget2 : st2.getItem "agrifinconnect-user" = some (JSON.stringify (.obj U)) :=
    Storage.getItem_setItem_same st1 st2 _ _ hw2
  rw [hout]
  refine ⟨rfl, hget1, hget2, ?_⟩
  intro fetch2 endpoint options
  exact ⟨rfl, authOptions_authorization_stored st2 options T hget1 hT⟩

/-- Witness of `handleLogin_persists_session`: a farmer logs in on an empty storage. -/
theorem handleLogin_persists_session_witness :
    (handleLogin devEnv id (fun _ _ => .ok loginReply) emptyStorage "farmer"
      " Jean@Example.rw" "secret").storage.getItem "agrifinconnect-token" = some "9f3a" ∧
    (handleLogin devEnv id (fun _ _ => .ok loginReply) emptyStorage "farmer"
      " Jean@Example.rw" "secret").storage.getItem "agrifinconnect-user" =
        some (JSON.stringify (.obj [("id", .num 7), ("role", .str "farmer")])) :=
  have h := handleLogin_persists_session devEnv id (fun _ _ => .ok loginReply) emptyStorage
    { items := [("agrifinconnect-token", "9f3a")], capacity := 5000000 }
    { items := [("agrifinconnect-user", "\x7b\"id\":7,\"role\":\"farmer\"\x7d"),
                ("agrifinconnect-token", "9f3a")], capacity := 5000000 }
    "farmer" " Jean@Example.rw" "secret"
    (.obj [("token", .str "9f3a"), ("user", .obj [("id", .num 7), ("role", .str "farmer")])])
    "9f3a" [("id", .num 7), ("role", .str "farmer")] rfl rfl (by decide) rfl rfl rfl
  ⟨h.2.1, h.2.2.1⟩

/-! ## Trimming -/

theorem trimStartChars_eq_nil_iff (cs : List Char) :
    trimStartChars cs = [] ↔ cs.all isJsWhitespace = true := by
  induction cs with
  | nil => simp [trimStartChars]
  | cons c cs ih =>
    cases hc : isJsWhitespace c <;> simp [trimStartChars, hc, ih]

theorem trimStartChars_head (cs : List Char) (h : trimStartChars cs ≠ []) :
    ∃ c r, trimStartChars cs = c :: r ∧ isJsWhitespace c = false := by
  induction cs with
  | nil => exact absurd rfl h
  | cons c cs ih =>
    cases hc : isJsWhitespace c
    · exact ⟨c, cs, by simp [trimStartChars, hc], hc⟩
    · simp only [trimStartChars, hc, if_true] at h ⊢
      exact ih h

/-- The trimmed string is empty exactly when the string is blank. -/
theorem jsTrim_eq_empty_iff (s : String) : jsTrim s = "" ↔ isBlank s = true := by
  have hmk : ∀ cs : List Char, String.mk cs = "" ↔ cs = [] := by
    intro cs
    constructor
    · intro h
      have := congrArg String.data h
      simpa using this
    · intro h
      subst h
      rfl
  unfold jsTrim isBlank
  rw [hmk, List.reverse_eq_nil_iff, trimStartChars_eq_nil_iff]
  constructor
  · intro h
    by_contra hne
    have hne2 : trimStartChars s.data ≠ [] := by
      intro h0
      exact hne ((trimStartChars_eq_nil_iff _).1 h0)
    obtain ⟨c, cs, hcs, hc⟩ := trimStartChars_head s.data hne2
    rw [hcs] at h
    simp only [List.reverse_cons, List.all_append, List.all_cons, List.all_nil, Bool.and_true,
      Bool.and_eq_true] at h
    rw [hc] at h
    exact absurd h.2 (by decide)
  · intro h
    rw [(trimStartChars_eq_nil_iff _).2 h]
    rfl

/-! ## The farm-record stores: records and persistence -/

theorem appendRecord_arr (xs : List Json) (now : Nat) (members : List (String × Json)) :
    appendRecord (.arr xs) now members = .ok (.arr (xs ++ [newRecord now members])) := rfl

theorem isAppendOf_append (xs : List Json) (record : Json) :
    IsAppendOf xs record (.arr (xs ++ [record])) :=
  ⟨xs ++ [record], rfl, by simp, by simp, by simp⟩

theorem newRecord_employee (now : Nat) (f : EmployeeForm) :
    newRecord now f.members = recordOf now f.members := by
  simp [newRecord, recordOf, spread, setProp, hasProp, EmployeeForm.members]

theorem newRecord_seed (now : Nat) (f : SeedForm) :
    newRecord now f.members = recordOf now f.members := by
  simp [newRecord, recordOf, spread, setProp, hasProp, SeedForm.members]

theorem newRecord_production (now : Nat) (f : ProductionForm) :
    newRecord now f.members = recordOf now f.members := by
  simp [newRecord, recordOf, spread, setProp, hasProp, ProductionForm.members]

theorem newRecord_fertilizer (now : Nat) (f : FertilizerForm) :
    newRecord now f.members = recordOf now f.members := by
  simp [newRecord, recordOf, spread, setProp, hasProp, FertilizerForm.members]

theorem tryStore_of_not_accepts (st : Storage) (k : String) (next : Json)
    (h : st.accepts k (JSON.stringify next) = false) : tryStore st k next = st := by
  simp [tryStore, Storage.setItem, h]

theorem tryStore_of_accepts (st : Storage) (k : String) (next : Json)
    (h : st.accepts k (JSON.stringify next) = true) :
    (tryStore st k next).getItem k = some (JSON.stringify next) := by
  have hs : st.setItem k (JSON.stringify next) =
      .ok { st with items := st.written k (JSON.stringify next) } := by
    simp [Storage.setItem, h]
  have ht : tryStore st k next = { st with items := st.written k (JSON.stringify next) } := by
    simp [tryStore, hs]
  rw [ht]
  exact Storage.getItem_setItem_same st _ k _ hs

/-- What each of the four add handlers does when the key field is not blank and the list
is an array: the new list is the old one with the record appended, the storage is the
result of the attempted write, and the form is reset. -/
theorem handleAddEmployee_arr (now : Nat) (s : FarmState) (xs : List Json)
    (hseq : s.farmEmployees = .arr xs) (hkey : jsTrim s.employeeForm.full_name ≠ "") :
    handleAddEmployee now s = .ok
      { persistFarmEmployees s (.arr (xs ++ [recordOf now s.employeeForm.members])) with
        employeeForm := EmployeeForm.initial } := by
  simp only [handleAddEmployee, hkey, if_false, hseq, appendRecord_arr, newRecord_employee]

theorem handleAddSeed_arr (now : Nat) (s : FarmState) (xs : List Json)
    (hseq : s.seedStock = .arr xs) (hkey : jsTrim s.seedForm.name ≠ "") :
    handleAddSeed now s = .ok
      { persistSeedStock s (.arr (xs ++ [recordOf now s.seedForm.members])) with
        seedForm := SeedForm.initial } := by
  simp only [handleAddSeed, hkey, if_false, hseq, appendRecord_arr, newRecord_seed]

theorem handleAddProduction_arr (now : Nat) (s : FarmState) (xs : List Json)
    (hseq : s.productionRecords = .arr xs) (hkey : jsTrim s.productionForm.crop ≠ "") :
    handleAddProduction now s = .ok
      { persistProductionRecords s (.arr (xs ++ [recordOf now s.productionForm.members])) with
        productionForm := ProductionForm.initial } := by
  simp only [handleAddProduction, hkey, if_false, hseq, appendRecord_arr,
    newRecord_production]

theorem handleAddFertilizer_arr (now : Nat) (s : FarmState) (xs : List Json)
    (hseq : s.fertilizerRecords = .arr xs)
    (hkey : jsTrim s.fertilizerForm.fertilizer_name ≠ "") :
    handleAddFertilizer now s = .ok
      { persistFertilizerRecords s (.arr (xs ++ [recordOf now s.fertilizerForm.members])) with
        fertilizerForm := FertilizerForm.initial } := by
  simp only [handleAddFertilizer, hkey, if_false, hseq, appendRecord_arr,
    newRecord_fertilizer]

/-! ## The farm-record stores: the claims -/

/-- C6: in each of the four record stores, an add whose key field is not blank after
trimming returns with a list that is one longer than before, has the new record (an `id`
followed by the form fields) last, and keeps the previous records unchanged and in order
in front of it. -/
theorem add_appends_one_record (now : Nat) (s : FarmState) (xs : List Json) :
    (s.farmEmployees = .arr xs → jsTrim s.employeeForm.full_name ≠ "" →
      ∃ s1, handleAddEmployee now s = .ok s1 ∧
        IsAppendOf xs (recordOf now s.employeeForm.members) s1.farmEmployees) ∧
    (s.seedStock = .arr xs → jsTrim s.seedForm.name ≠ "" →
      ∃ s1, handleAddSeed now s = .ok s1 ∧
        IsAppendOf xs (recordOf now s.seedForm.members) s1.seedStock) ∧
    (s.productionRecords = .arr xs → jsTrim s.productionForm.crop ≠ "" →
      ∃ s1, handleAddProduction now s = .ok s1 ∧
        IsAppendOf xs (recordOf now s.productionForm.members) s1.productionRecords) ∧
    (s.fertilizerRecords = .arr xs → jsTrim s.fertilizerForm.fertilizer_name ≠ "" →
      ∃ s1, handleAddFertilizer now s = .ok s1 ∧
        IsAppendOf xs (recordOf now s.fertilizerForm.members) s1.fertilizerRecords) := by
  refine ⟨?_, ?_, ?_, ?_⟩
  · intro hseq hkey
    exact ⟨_, handleAddEmployee_arr now s xs hseq hkey, isAppendOf_append xs _⟩
  · intro hseq hkey
    exact ⟨_, handleAddSeed_arr now s xs hseq hkey, isAppendOf_append xs _⟩
  · intro hseq hkey
    exact ⟨_, handleAddProduction_arr now s xs hseq hkey, isAppendOf_append xs _⟩
  · intro hseq hkey
    exact ⟨_, handleAddFertilizer_arr now s xs hseq hkey, isAppendOf_append xs _⟩

/-- Witness of `add_appends_one_record`: the first record of each store. -/
theorem add_appends_one_record_witness :
    (∃ s1, handleAddEmployee 1730000000000 (filledFarm emptyStorage) = .ok s1 ∧
      IsAppendOf [] (recordOf 1730000000000 (filledFarm emptyStorage).employeeForm.members)
        s1.farmEmployees) ∧
    (∃ s1, handleAddSeed 1730000000000 (filledFarm emptyStorage) = .ok s1 ∧
      IsAppendOf [] (recordOf 1730000000000 (filledFarm emptyStorage).seedForm.members)
        s1.seedStock) ∧
    (∃ s1, handleAddProduction 1730000000000 (filledFarm emptyStorage) = .ok s1 ∧
      IsAppendOf [] (recordOf 1730000000000 (filledFarm emptyStorage).productionForm.members)
        s1.productionRecords) ∧
    (∃ s1, handleAddFertilizer 1730000000000 (filledFarm emptyStorage) = .ok s1 ∧
      IsAppendOf [] (recordOf 1730000000000 (filledFarm emptyStorage).fertilizerForm.members)
        s1.fertilizerRecords) :=
  ⟨(add_appends_one_record 1730000000000 (filledFarm emptyStorage) []).1 rfl (by decide),
   (add_appends_one_record 1730000000000 (filledFarm emptyStorage) []).2.1 rfl (by decide),
   (add_appends_one_record 1730000000000 (filledFarm emptyStorage) []).2.2.1 rfl
     (by decide),
   (add_appends_one_record 1730000000000 (filledFarm emptyStorage) []).2.2.2 rfl
     (by decide)⟩

/-- C7: in each of the four record stores, an add whose key field is empty or consists of
white space only returns with the state it started from: the list in memory, the forms
and the storage are unchanged. -/
theorem add_blank_key_noop (now : Nat) (s : FarmState) :
    (isBlank s.employeeForm.full_name = true → handleAddEmployee now s = .ok s) ∧
    (isBlank s.seedForm.name = true → handleAddSeed now s = .ok s) ∧
    (isBlank s.productionForm.crop = true → handleAddProduction now s = .ok s) ∧
    (isBlank s.fertilizerForm.fertilizer_name = true → handleAddFertilizer now s = .ok s) := by
  refine ⟨?_, ?_, ?_, ?_⟩
  · intro h
    simp [handleAddEmployee, (jsTrim_eq_empty_iff _).2 h]
  · intro h
    simp [handleAddSeed, (jsTrim_eq_empty_iff _).2 h]
  · intro h
    simp [handleAddProduction, (jsTrim_eq_empty_iff _).2 h]
  · intro h
    simp [handleAddFertilizer, (jsTrim_eq_empty_iff _).2 h]

/-- Witness of `add_blank_key_noop`: key fields that hold spaces, a tab, nothing and a
line break. -/
theorem add_blank_key_noop_witness :
    handleAddEmployee 1730000000000 (blankFarm emptyStorage) = .ok (blankFarm emptyStorage) ∧
    handleAddSeed 1730000000000 (blankFarm emptyStorage) = .ok (blankFarm emptyStorage) ∧
    handleAddProduction 1730000000000 (blankFarm emptyStorage) = .ok (blankFarm emptyStorage) ∧
    handleAddFertilizer 1730000000000 (blankFarm emptyStorage) = .ok (blankFarm emptyStorage) :=
  ⟨(add_blank_key_noop 1730000000000 (blankFarm emptyStorage)).1 (by decide),
   (add_blank_key_noop 1730000000000 (blankFarm emptyStorage)).2.1 (by decide),
   (add_blank_key_noop 1730000000000 (blankFarm emptyStorage)).2.2.1 (by decide),
   (add_blank_key_noop 1730000000000 (blankFarm emptyStorage)).2.2.2 (by decide)⟩

theorem loadRecords_absent_or_unparsable (storage : Storage) (key : String)
    (h : storage.getItem key = none ∨
      ∃ raw e, storage.getItem key = some raw ∧ JSON.parse raw = .error e) :
    loadRecords storage key = .arr [] := by
  unfold loadRecords
  rcases h with h | ⟨raw, e, h, hp⟩
  · simp [h]
  · simp only [h, hp]
    split <;> rfl

/-- C9: for each of the four record stores, when the storage has no entry under the key of
the store, or has one that `JSON.parse` rejects, the initializer yields the empty list;
the initializers are total functions, so no error comes out of them. -/
theorem init_absent_or_unparsable (storage : Storage) :
    ((storage.getItem "farm-employees" = none ∨
        ∃ raw e, storage.getItem "farm-employees" = some raw ∧ JSON.parse raw = .error e) →
      initFarmEmployees storage = .arr []) ∧
    ((storage.getItem "farm-seed-stock" = none ∨
        ∃ raw e, storage.getItem "farm-seed-stock" = some raw ∧ JSON.parse raw = .error e) →
      initSeedStock storage = .arr []) ∧
    ((storage.getItem "farm-production-records" = none ∨
        ∃ raw e, storage.getItem "farm-production-records" = some raw ∧ JSON.parse raw = .error e) →
      initProductionRecords storage = .arr []) ∧
    ((storage.getItem "farm-fertilizer-records" = none ∨
        ∃ raw e, storage.getItem "farm-fertilizer-records" = some raw ∧ JSON.parse raw = .error e) →
      initFertilizerRecords storage = .arr []) :=
  ⟨loadRecords_absent_or_unparsable storage _, loadRecords_absent_or_unparsable storage _,
   loadRecords_absent_or_unparsable storage _, loadRecords_absent_or_unparsable storage _⟩

/-- Witness of `init_absent_or_unparsable`: a cut-off text, the word `undefined`, a missing
entry and a dangling comma. -/
theorem init_absent_or_unparsable_witness :
    initFarmEmployees damagedStorage = .arr [] ∧
    initSeedStock damagedStorage = .arr [] ∧
    initProductionRecords damagedStorage = .arr [] ∧
    initFertilizerRecords damagedStorage = .arr [] :=
  ⟨(init_absent_or_unparsable damagedStorage).1 (Or.inr ⟨_, _, rfl, rfl⟩),
   (init_absent_or_unparsable damagedStorage).2.1 (Or.inr ⟨_, _, rfl, rfl⟩),
   (init_absent_or_unparsable damagedStorage).2.2.1 (Or.inl rfl),
   (init_absent_or_unparsable damagedStorage).2.2.2 (Or.inr ⟨_, _, rfl, rfl⟩)⟩

/-- C10: in each of the four record stores, when the key field is not blank and the write
to the storage fails, the add still returns normally, the list in memory is the appended
list, and the storage is what it was before (nothing is rolled back). -/
theorem add_write_failure_keeps_memory (now : Nat) (s : FarmState) (xs : List Json) :
    (s.farmEmployees = .arr xs → jsTrim s.employeeForm.full_name ≠ "" →
      s.storage.accepts "farm-employees"
        (JSON.stringify (.arr (xs ++ [recordOf now s.employeeForm.members]))) = false →
      ∃ s1, handleAddEmployee now s = .ok s1 ∧
        s1.farmEmployees = .arr (xs ++ [recordOf now s.employeeForm.members]) ∧
        s1.storage = s.storage) ∧
    (s.seedStock = .arr xs → jsTrim s.seedForm.name ≠ "" →
      s.storage.accepts "farm-seed-stock"
        (JSON.stringify (.arr (xs ++ [recordOf now s.seedForm.members]))) = false →
      ∃ s1, handleAddSeed now s = .ok s1 ∧
        s1.seedStock = .arr (xs ++ [recordOf now s.seedForm.members]) ∧
        s1.storage = s.storage) ∧
    (s.productionRecords = .arr xs → jsTrim s.productionForm.crop ≠ "" →
      s.storage.accepts "farm-production-records"
        (JSON.stringify (.arr (xs ++ [recordOf now s.productionForm.members]))) = false →
      ∃ s1, handleAddProduction now s = .ok s1 ∧
        s1.productionRecords = .arr (xs ++ [recordOf now s.productionForm.members]) ∧
        s1.storage = s.storage) ∧
    (s.fertilizerRecords = .arr xs → jsTrim s.fertilizerForm.fertilizer_name ≠ "" →
      s.storage.accepts "farm-fertilizer-records"
        (JSON.stringify (.arr (xs ++ [recordOf now s.fertilizerForm.members]))) = false →
      ∃ s1, handleAddFertilizer now s = .ok s1 ∧
        s1.fertilizerRecords = .arr (xs ++ [recordOf now s.fertilizerForm.members]) ∧
        s1.storage = s.storage) := by
  refine ⟨?_, ?_, ?_, ?_⟩
  · intro hseq hkey hfull
    refine ⟨_, handleAddEmployee_arr now s xs hseq hkey, rfl, ?_⟩
    exact tryStore_of_not_accepts s.storage _ _ hfull
  · intro hseq hkey hfull
    refine ⟨_, handleAddSeed_arr now s xs hseq hkey, rfl, ?_⟩
    exact tryStore_of_not_accepts s.storage _ _ hfull
  · intro hseq hkey hfull
    refine ⟨_, handleAddProduction_arr now s xs hseq hkey, rfl, ?_⟩
    exact tryStore_of_not_accepts s.storage _ _ hfull
  · intro hseq hkey hfull
    refine ⟨_, handleAddFertilizer_arr now s xs hseq hkey, rfl, ?_⟩
    exact tryStore_of_not_accepts s.storage _ _ hfull

/-- Witness of `add_write_failure_keeps_memory`: a storage whose quota is used up. -/
theorem add_write_failure_keeps_memory_witness :
    (∃ s1, handleAddEmployee 1730000000000 (filledFarm fullStorage) = .ok s1 ∧
      s1.farmEmployees = .arr ([] ++ [recordOf 1730000000000 (filledFarm fullStorage).employeeForm.members]) ∧
      s1.storage = (filledFarm fullStorage).storage) ∧
    (∃ s1, handleAddSeed 1730000000000 (filledFarm fullStorage) = .ok s1 ∧
      s1.seedStock = .arr ([] ++ [recordOf 1730000000000 (filledFarm fullStorage).seedForm.members]) ∧
      s1.storage = (filledFarm fullStorage).storage) ∧
    (∃ s1, handleAddProduction 1730000000000 (filledFarm fullStorage) = .ok s1 ∧
      s1.productionRecords = .arr ([] ++ [recordOf 1730000000000 (filledFarm fullStorage).productionForm.members]) ∧
      s1.storage = (filledFarm fullStorage).storage) ∧
    (∃ s1, handleAddFertilizer 1730000000000 (filledFarm fullStorage) = .ok s1 ∧
      s1.fertilizerRecords = .arr ([] ++ [recordOf 1730000000000 (filledFarm fullStorage).fertilizerForm.members]) ∧
      s1.storage = (filledFarm fullStorage).storage) :=
  ⟨(add_write_failure_keeps_memory 1730000000000 (filledFarm fullStorage) []).1 rfl
     (by decide) rfl,
   (add_write_failure_keeps_memory 1730000000000 (filledFarm fullStorage) []).2.1 rfl
     (by decide) rfl,
   (add_write_failure_keeps_memory 1730000000000 (filledFarm fullStorage) []).2.2.1 rfl
     (by decide) rfl,
   (add_write_failure_keeps_memory 1730000000000 (filledFarm fullStorage) []).2.2.2 rfl
     (by decide) rfl⟩

/-! ## JSON text: parsing what `JSON.stringify` writes -/

theorem digitVal_digitChar : ∀ d, d < 10 → digitVal (digitChar d) = some d := by decide

theorem digitChar_ne_zero : ∀ d, d < 10 → 0 < d → digitChar d ≠ '0' := by decide

theorem digitsAux_eq (n : Nat) : ∀ fuel acc, n < fuel →
    digitsAux fuel n acc = natToDigits n ++ acc := by
  induction n using Nat.strong_induction_on with
  | _ n ih =>
    intro fuel acc hf
    cases fuel with
    | zero => omega
    | succ f =>
      by_cases h10 : n < 10
      · simp [digitsAux, natToDigits, h10]
      · have hlt : n / 10 < n := Nat.div_lt_self (by omega) (by omega)
        have h1 : digitsAux (f + 1) n acc = digitsAux f (n / 10) (digitChar (n % 10) :: acc) := by
          simp [digitsAux, h10]
        have h2 : natToDigits n = digitsAux n (n / 10) [digitChar (n % 10)] := by
          simp [natToDigits, digitsAux, h10]
        rw [h1, h2, ih (n / 10) hlt f _ (by omega), ih (n / 10) hlt n _ hlt]
        simp

theorem natToDigits_small (n : Nat) (h : n < 10) : natToDigits n = [digitChar n] := by
  simp [natToDigits, digitsAux, h]

theorem natToDigits_step (n : Nat) (h : ¬ n < 10) :
    natToDigits n = natToDigits (n / 10) ++ [digitChar (n % 10)] := by
  have hlt : n / 10 < n := Nat.div_lt_self (by omega) (by omega)
  have h2 : natToDigits n = digitsAux n (n / 10) [digitChar (n % 10)] := by
    simp [natToDigits, digitsAux, h]
  rw [h2, digitsAux_eq (n / 10) n _ hlt]

theorem digitsValue_nil (acc : Nat) : digitsValue acc [] = acc := rfl

theorem digitsValue_cons (acc : Nat) (c : Char) (cs : List Char) :
    digitsValue acc (c :: cs) = digitsValue (acc * 10 + (c.toNat - 48)) cs := rfl

theorem digitVal_eq_some (c : Char) (d : Nat) (h : digitVal c = some d) :
    d = c.toNat - 48 := by
  unfold digitVal at h
  split at h
  · injection h with h; exact h.symm
  · cases h

theorem takeDigits_nil (acc : Nat) : takeDigits [] acc = (acc, []) := rfl

theorem takeDigits_cons (c : Char) (cs : List Char) (acc : Nat) :
    takeDigits (c :: cs) acc =
      match digitVal c with
      | some d => takeDigits cs (acc * 10 + d)
      | none => (acc, c :: cs) := rfl

theorem takeDigits_append (xs : List Char) (hx : ∀ c ∈ xs, (digitVal c).isSome = true)
    (rest : List Char) (hr : NoDigitHead rest) (acc : Nat) :
    takeDigits (xs ++ rest) acc = (digitsValue acc xs, rest) := by
  induction xs generalizing acc with
  | nil =>
    cases rest with
    | nil => rfl
    | cons c r =>
      have h := hr c r rfl
      rw [List.nil_append, takeDigits_cons, h, digitsValue_nil]
  | cons c cs ih =>
    have hc := hx c (List.mem_cons_self _ _)
    cases hd : digitVal c with
    | none => rw [hd] at hc; cases hc
    | some d =>
      have := digitVal_eq_some c d hd
      subst this
      rw [List.cons_append, takeDigits_cons, hd, digitsValue_cons]
      exact ih (fun c1 h1 => hx c1 (List.mem_cons_of_mem _ h1)) _

theorem digitsValue_append (xs ys : List Char) (acc : Nat) :
    digitsValue acc (xs ++ ys) = digitsValue (digitsValue acc xs) ys := by
  induction xs generalizing acc with
  | nil => rfl
  | cons c cs ih => rw [List.cons_append, digitsValue_cons, digitsValue_cons, ih]

theorem natToDigits_digits (n : Nat) : ∀ c ∈ natToDigits n, (digitVal c).isSome = true := by
  induction n using Nat.strong_induction_on with
  | _ n ih =>
    by_cases h10 : n < 10
    · rw [natToDigits_small n h10]
      intro c hc
      simp only [List.mem_singleton] at hc
      subst hc
      rw [digitVal_digitChar n h10]; rfl
    · have hlt : n / 10 < n := Nat.div_lt_self (by omega) (by omega)
      rw [natToDigits_step n h10]
      intro c hc
      rcases List.mem_append.1 hc with hc | hc
      · exact ih _ hlt c hc
      · simp only [List.mem_singleton] at hc
        subst hc
        rw [digitVal_digitChar _ (Nat.mod_lt _ (by decide))]; rfl

theorem digitVal_toNat (d : Nat) (h : d < 10) : (digitChar d).toNat - 48 = d := by
  have := digitVal_eq_some _ _ (digitVal_digitChar d h)
  exact this.symm

theorem digitsValue_natToDigits (n : Nat) : digitsValue 0 (natToDigits n) = n := by
  induction n using Nat.strong_induction_on with
  | _ n ih =>
    by_cases h10 : n < 10
    · rw [natToDigits_small n h10]
      rw [digitsValue_cons, digitsValue_nil, digitVal_toNat n h10]; omega
    · have hlt : n / 10 < n := Nat.div_lt_self (by omega) (by omega)
      rw [natToDigits_step n h10, digitsValue_append, ih _ hlt]
      rw [digitsValue_cons, digitsValue_nil, digitVal_toNat _ (Nat.mod_lt n (by decide : 0 < 10))]
      omega

theorem natToDigits_head (n : Nat) : ∃ c r, natToDigits n = c :: r ∧
    (digitVal c).isSome = true ∧ (0 < n → c ≠ '0') := by
  induction n using Nat.strong_induction_on with
  | _ n ih =>
    by_cases h10 : n < 10
    · refine ⟨digitChar n, [], natToDigits_small n h10, ?_, digitChar_ne_zero n h10⟩
      rw [digitVal_digitChar n h10]; rfl
    · have hlt : n / 10 < n := Nat.div_lt_self (by omega) (by omega)
      obtain ⟨c, r, hcr, hd, hz⟩ := ih _ hlt
      refine ⟨c, r ++ [digitChar (n % 10)], ?_, hd, fun _ => hz (by omega)⟩
      rw [natToDigits_step n h10, hcr]; rfl

theorem parseNat_natToDigits (n : Nat) (rest : List Char) (hr : NoDigitHead rest) :
    parseNat (natToDigits n ++ rest) = some (n, rest) := by
  by_cases h0 : n = 0
  · subst h0
    rfl
  · obtain ⟨c, r, hcr, hd, hz⟩ := natToDigits_head n
    have hz1 : c ≠ '0' := hz (by omega)
    have hall := natToDigits_digits n
    have hval := digitsValue_natToDigits n
    rw [hcr] at hall hval ⊢
    cases hdc : digitVal c with
    | none => rw [hdc] at hd; cases hd
    | some d =>
      have hdv := digitVal_eq_some c d hdc
      have hp : parseNat (c :: (r ++ rest)) = if c = '0' then some (0, r ++ rest)
          else match digitVal c with
            | some d => some (takeDigits (r ++ rest) d)
            | none => none := rfl
      simp only [List.cons_append, hp, hz1, if_false, hdc]
      have ht := takeDigits_append r (fun c1 h1 => hall c1 (List.mem_cons_of_mem _ h1)) rest hr d
      rw [ht]
      rw [digitsValue_cons, Nat.zero_mul, Nat.zero_add] at hval
      rw [hdv, hval]

theorem readStringChar_cons (c : Char) (cs : List Char) :
    readStringChar (c :: cs) =
    if c = '"' then some (none, cs)
    else if c = '\\' then
      match cs with
      | [] => none
      | e :: cs1 =>
        if e = 'u' then
          match readUnicodeEscape cs1 with
          | some (ch, rest) => some (some ch, rest)
          | none => none
        else
          match unescape e with
          | some ch => some (some ch, cs1)
          | none => none
    else if c.toNat < 32 then none
    else some (some c, cs) := rfl

theorem parseStringSteps_succ (fuel : Nat) (cs : List Char) :
    parseStringSteps (fuel + 1) cs =
    match readStringChar cs with
    | none => none
    | some (none, rest) => some ([], rest)
    | some (some ch, rest) => consResult ch (parseStringSteps fuel rest) := rfl

theorem readStringChar_escape (e : Char) (more : List Char) (ch : Char) (hu : e ≠ 'u')
    (h : unescape e = some ch) :
    readStringChar ('\\' :: e :: more) = some (some ch, more) := by
  rw [readStringChar_cons]
  simp only [show ¬ ('\\' = '"') by decide, if_false, if_true, hu, h]

theorem readStringChar_plain (c : Char) (more : List Char) (h1 : c ≠ '"') (h2 : c ≠ '\\')
    (h3 : ¬ c.toNat < 32) :
    readStringChar (c :: more) = some (some c, more) := by
  rw [readStringChar_cons]
  simp only [h1, h2, h3, if_false]

theorem hex4_low :
    ∀ n, n < 32 → hex4 '0' '0' (hexDigit (n / 16)) (hexDigit (n % 16)) = some n := by
  decide

theorem readUnicodeEscape_low (n : Nat) (hn : n < 32) (more : List Char) :
    readUnicodeEscape ('0' :: '0' :: hexDigit (n / 16) :: hexDigit (n % 16) :: more) =
      some (Char.ofNat n, more) := by
  have h : readUnicodeEscape ('0' :: '0' :: hexDigit (n / 16) :: hexDigit (n % 16) :: more) =
      match hex4 '0' '0' (hexDigit (n / 16)) (hexDigit (n % 16)) with
      | none => none
      | some v =>
        if v < 0xD800 ∨ 0xDFFF < v then some (Char.ofNat v, more)
        else if 0xDC00 ≤ v then none
        else
          match more with
          | b1 :: u1 :: a2 :: b2 :: c2 :: d2 :: cs3 =>
            if b1 = '\\' ∧ u1 = 'u' then
              match hex4 a2 b2 c2 d2 with
              | none => none
              | some w =>
                if 0xDC00 ≤ w ∧ w ≤ 0xDFFF then
                  some (Char.ofNat (0x10000 + (v - 0xD800) * 0x400 + (w - 0xDC00)), cs3)
                else none
            else none
          | _ => none := rfl
  rw [h, hex4_low n hn]
  have : n < 0xD800 ∨ 0xDFFF < n := Or.inl (by omega)
  simp only [this, if_true]

theorem readStringChar_u00 (n : Nat) (hn : n < 32) (more : List Char) :
    readStringChar ('\\' :: 'u' :: '0' :: '0' :: hexDigit (n / 16) :: hexDigit (n % 16) :: more) =
      some (some (Char.ofNat n), more) := by
  rw [readStringChar_cons]
  simp only [show ¬ ('\\' = '"') by decide, if_false, if_true, readUnicodeEscape_low n hn]

theorem quoteChar_length_pos (c : Char) : 0 < (quoteChar c).length := by
  unfold quoteChar
  repeat' split
  all_goals simp

theorem readStringChar_quoteChar (c : Char) (more : List Char) :
    readStringChar (quoteChar c ++ more) = some (some c, more) := by
  unfold quoteChar
  split
  · next h => subst h; exact readStringChar_escape _ _ _ (by decide) rfl
  split
  · next h => subst h; exact readStringChar_escape _ _ _ (by decide) rfl
  split
  · next h => subst h; exact readStringChar_escape _ _ _ (by decide) rfl
  split
  · next h => subst h; exact readStringChar_escape _ _ _ (by decide) rfl
  split
  · next h => subst h; exact readStringChar_escape _ _ _ (by decide) rfl
  split
  · next h => subst h; exact readStringChar_escape _ _ _ (by decide) rfl
  split
  · next h => subst h; exact readStringChar_escape _ _ _ (by decide) rfl
  split
  · next h =>
    have := readStringChar_u00 c.toNat h more
    rw [Char.ofNat_toNat] at this
    exact this
  · next h1 h2 _ _ _ _ _ h3 =>
    exact readStringChar_plain c more h1 h2 h3

theorem parseStringSteps_quoteBody (s : List Char) (rest : List Char) :
    ∀ fuel, (quoteBody s).length < fuel →
      parseStringSteps fuel (quoteBody s ++ '"' :: rest) = some (s, rest) := by
  induction s with
  | nil =>
    intro fuel hf
    cases fuel with
    | zero => omega
    | succ f => rfl
  | cons c cs ih =>
    intro fuel hf
    have h : quoteBody (c :: cs) = quoteChar c ++ quoteBody cs := rfl
    rw [h, List.length_append] at hf
    have hpos := quoteChar_length_pos c
    cases fuel with
    | zero => omega
    | succ f =>
      rw [h, List.append_assoc, parseStringSteps_succ, readStringChar_quoteChar]
      simp only []
      rw [ih f (by omega)]
      rfl

theorem parseStringBody_quoteBody (s : List Char) (rest : List Char) :
    parseStringBody (quoteBody s ++ '"' :: rest) = some (s, rest) := by
  unfold parseStringBody
  apply parseStringSteps_quoteBody
  simp

theorem parseValue_quoteJSONString (f : Nat) (s : String) (rest : List Char) :
    parseValue (f + 1) (quoteJSONString s ++ rest) = some (.str s, rest) := by
  have h : quoteJSONString s ++ rest = '"' :: (quoteBody s.data ++ '"' :: rest) := by
    simp [quoteJSONString]
  have hq : parseValue (f + 1) ('"' :: (quoteBody s.data ++ '"' :: rest)) =
      match parseStringBody (quoteBody s.data ++ '"' :: rest) with
        | some (s, r) => some (.str (String.mk s), r)
        | none => none := rfl
  rw [h, hq, parseStringBody_quoteBody]

theorem stringifyChars_arr_cons (x : Json) (xs : List Json) :
    stringifyChars (.arr (x :: xs)) = '[' :: (stringifyChars x ++ stringifyElems xs) := by
  rw [stringifyChars]

theorem stringifyChars_obj_cons (k : String) (v : Json) (ms : List (String × Json)) :
    stringifyChars (.obj ((k, v) :: ms)) =
      '{' :: (quoteJSONString k ++ ':' :: (stringifyChars v ++ stringifyMembers ms)) := by
  rw [stringifyChars]

theorem stringifyElems_nil : stringifyElems [] = [']'] := by rw [stringifyElems]

theorem stringifyElems_cons (x : Json) (xs : List Json) :
    stringifyElems (x :: xs) = ',' :: (stringifyChars x ++ stringifyElems xs) := by
  rw [stringifyElems]

theorem stringifyMembers_nil : stringifyMembers [] = ['}'] := by rw [stringifyMembers]

theorem stringifyMembers_cons (k : String) (v : Json) (ms : List (String × Json)) :
    stringifyMembers ((k, v) :: ms) =
      ',' :: (quoteJSONString k ++ ':' :: (stringifyChars v ++ stringifyMembers ms)) := by
  rw [stringifyMembers]

theorem stringifyChars_num (n : Int) : stringifyChars (.num n) = intToChars n := by
  rw [stringifyChars]

theorem stringifyChars_str (s : String) : stringifyChars (.str s) = quoteJSONString s := by
  rw [stringifyChars]

theorem valueStart_of_digit (c : Char) (h : (digitVal c).isSome = true) : ValueStart c := by
  have hb : 48 ≤ c.toNat ∧ c.toNat ≤ 57 := by
    unfold digitVal at h
    split at h
    · assumption
    · cases h
  have hne : ∀ d : Char, ¬ (48 ≤ d.toNat ∧ d.toNat ≤ 57) → c ≠ d := by
    intro d hd e; subst e; exact hd hb
  refine ⟨?_, hne _ (by decide), hne _ (by decide)⟩
  simp only [isJsonWs, Bool.or_eq_false_iff, decide_eq_false_iff_not]
  exact ⟨⟨⟨hne _ (by decide), hne _ (by decide)⟩, hne _ (by decide)⟩, hne _ (by decide)⟩

theorem stringifyChars_head (j : Json) : ∃ c r, stringifyChars j = c :: r ∧ ValueStart c := by
  cases j with
  | null => exact ⟨'n', _, by rw [stringifyChars], ⟨by decide, by decide, by decide⟩⟩
  | bool b =>
    cases b
    · exact ⟨'f', _, by rw [stringifyChars], ⟨by decide, by decide, by decide⟩⟩
    · exact ⟨'t', _, by rw [stringifyChars], ⟨by decide, by decide, by decide⟩⟩
  | num n =>
    rw [stringifyChars_num]
    unfold intToChars
    split
    · exact ⟨'-', _, rfl, ⟨by decide, by decide, by decide⟩⟩
    · obtain ⟨c, r, hcr, hd, _⟩ := natToDigits_head n.natAbs
      exact ⟨c, r, hcr, valueStart_of_digit c hd⟩
  | str s => exact ⟨'"', _, by rw [stringifyChars_str]; rfl, ⟨by decide, by decide, by decide⟩⟩
  | arr xs =>
    cases xs with
    | nil => exact ⟨'[', _, by rw [stringifyChars], ⟨by decide, by decide, by decide⟩⟩
    | cons x xs => exact ⟨'[', _, stringifyChars_arr_cons x xs, ⟨by decide, by decide, by decide⟩⟩
  | obj ms =>
    cases ms with
    | nil => exact ⟨'{', _, by rw [stringifyChars], ⟨by decide, by decide, by decide⟩⟩
    | cons m ms =>
      obtain ⟨k, v⟩ := m
      exact ⟨'{', _, stringifyChars_obj_cons k v ms, ⟨by decide, by decide, by decide⟩⟩

theorem parseValue_null (f : Nat) (rest : List Char) :
    parseValue (f + 1) ('n' :: 'u' :: 'l' :: 'l' :: rest) = some (.null, rest) := by
  have h : parseValue (f + 1) ('n' :: 'u' :: 'l' :: 'l' :: rest) =
      expectLit ['u', 'l', 'l'] .null ('u' :: 'l' :: 'l' :: rest) := rfl
  rw [h]
  simp [expectLit, List.isPrefixOf]

theorem parseValue_true (f : Nat) (rest : List Char) :
    parseValue (f + 1) ('t' :: 'r' :: 'u' :: 'e' :: rest) = some (.bool true, rest) := by
  have h : parseValue (f + 1) ('t' :: 'r' :: 'u' :: 'e' :: rest) =
      expectLit ['r', 'u', 'e'] (.bool true) ('r' :: 'u' :: 'e' :: rest) := rfl
  rw [h]
  simp [expectLit, List.isPrefixOf]

theorem parseValue_false (f : Nat) (rest : List Char) :
    parseValue (f + 1) ('f' :: 'a' :: 'l' :: 's' :: 'e' :: rest) = some (.bool false, rest) := by
  have h : parseValue (f + 1) ('f' :: 'a' :: 'l' :: 's' :: 'e' :: rest) =
      expectLit ['a', 'l', 's', 'e'] (.bool false) ('a' :: 'l' :: 's' :: 'e' :: rest) := rfl
  rw [h]
  simp [expectLit, List.isPrefixOf]

theorem parseValue_bracket (f : Nat) (rest : List Char) :
    parseValue (f + 1) ('[' :: rest) =
      match skipWs rest with
      | [] => none
      | d :: r => if d = ']' then some (.arr [], r) else
        match parseElements f (d :: r) with
        | some (xs, r1) => some (.arr xs, r1)
        | none => none := rfl

theorem parseValue_brace (f : Nat) (rest : List Char) :
    parseValue (f + 1) ('{' :: rest) =
      match skipWs rest with
      | [] => none
      | d :: r => if d = '}' then some (.obj [], r) else
        match parseMembers f (d :: r) with
        | some (ms, r1) => some (.obj ms, r1)
        | none => none := rfl

theorem parseValue_quote (f : Nat) (rest : List Char) :
    parseValue (f + 1) ('"' :: rest) =
      match parseStringBody rest with
        | some (s, r) => some (.str (String.mk s), r)
        | none => none := rfl

theorem parseValue_minus (f : Nat) (rest : List Char) :
    parseValue (f + 1) ('-' :: rest) =
        match parseNat rest with
        | some (n, r) => some (.num (-(n : Int)), r)
        | none => none := rfl

theorem skipWs_cons (c : Char) (cs : List Char) (h : isJsonWs c = false) :
    skipWs (c :: cs) = c :: cs := by
  show (if isJsonWs c then skipWs cs else c :: cs) = _
  simp only [h, Bool.false_eq_true, if_false]

theorem parseValue_digit (f : Nat) (c : Char) (rest : List Char)
    (h : (digitVal c).isSome = true) :
    parseValue (f + 1) (c :: rest) =
        match parseNat (c :: rest) with
        | some (n, r) => some (.num (n : Int), r)
        | none => none := by
  have hb : 48 ≤ c.toNat ∧ c.toNat ≤ 57 := by
    unfold digitVal at h
    split at h
    · assumption
    · cases h
  have hne : ∀ d : Char, ¬ (48 ≤ d.toNat ∧ d.toNat ≤ 57) → c ≠ d := by
    intro d hd e; subst e; exact hd hb
  have hws : isJsonWs c = false := by
    simp only [isJsonWs, Bool.or_eq_false_iff, decide_eq_false_iff_not]
    exact ⟨⟨⟨hne _ (by decide), hne _ (by decide)⟩, hne _ (by decide)⟩, hne _ (by decide)⟩
  rw [parseValue, skipWs_cons c rest hws]
  simp only [hne 'n' (by decide), hne 't' (by decide), hne 'f' (by decide), hne '"' (by decide),
    hne '[' (by decide), hne '{' (by decide), hne '-' (by decide), if_false]

theorem parseElements_succ (fuel : Nat) (cs : List Char) :
    parseElements (fuel + 1) cs =
    match parseValue fuel cs with
    | none => none
    | some (x, r) =>
      match skipWs r with
      | [] => none
      | d :: r1 =>
        if d = ']' then some ([x], r1)
        else if d = ',' then
          match parseElements fuel r1 with
          | some (xs, r2) => some (x :: xs, r2)
          | none => none
        else none := rfl

theorem parseMembers_succ (fuel : Nat) (cs : List Char) :
    parseMembers (fuel + 1) cs =
    match skipWs cs with
    | [] => none
    | q :: r0 =>
      if q = '"' then
        match parseStringBody r0 with
        | none => none
        | some (k, r) =>
          match skipWs r with
          | [] => none
          | colon :: r1 =>
            if colon = ':' then
              match parseValue fuel r1 with
              | none => none
              | some (v, r2) =>
                match skipWs r2 with
                | [] => none
                | d :: r3 =>
                  if d = '}' then some ([(String.mk k, v)], r3)
                  else if d = ',' then
                    match parseMembers fuel r3 with
                    | some (ms, r4) => some ((String.mk k, v) :: ms, r4)
                    | none => none
                  else none
            else none
      else none := rfl

theorem noDigitHead_cons (c : Char) (r : List Char) (h : digitVal c = none) :
    NoDigitHead (c :: r) := by
  intro c1 r1 e
  injection e with e1 e2
  subst e1
  exact h

theorem noDigitHead_nil : NoDigitHead [] := by
  intro c r e
  cases e

theorem noDigitHead_elems (xs : List Json) (rest : List Char) :
    NoDigitHead (stringifyElems xs ++ rest) := by
  cases xs with
  | nil => rw [stringifyElems_nil]; exact noDigitHead_cons _ _ (by decide)
  | cons y ys => rw [stringifyElems_cons]; exact noDigitHead_cons _ _ (by decide)

theorem noDigitHead_members (ms : List (String × Json)) (rest : List Char) :
    NoDigitHead (stringifyMembers ms ++ rest) := by
  cases ms with
  | nil => rw [stringifyMembers_nil]; exact noDigitHead_cons _ _ (by decide)
  | cons m ms =>
    obtain ⟨k, v⟩ := m
    rw [stringifyMembers_cons]; exact noDigitHead_cons _ _ (by decide)

theorem stringifyChars_length_pos (j : Json) : 0 < (stringifyChars j).length := by
  obtain ⟨c, r, h, _⟩ := stringifyChars_head j
  rw [h]
  simp

theorem stringifyElems_length_pos (xs : List Json) : 0 < (stringifyElems xs).length := by
  cases xs with
  | nil => rw [stringifyElems_nil]; simp
  | cons y ys => rw [stringifyElems_cons]; simp

theorem stringifyMembers_length_pos (ms : List (String × Json)) :
    0 < (stringifyMembers ms).length := by
  cases ms with
  | nil => rw [stringifyMembers_nil]; simp
  | cons m ms =>
    obtain ⟨k, v⟩ := m
    rw [stringifyMembers_cons]; simp

theorem parseElements_roundTrip (xs : List Json) :
    ∀ x, RoundTrips x → (∀ y ∈ xs, RoundTrips y) → ∀ fuel rest,
      (stringifyChars x ++ stringifyElems xs).length < fuel →
      parseElements fuel (stringifyChars x ++ stringifyElems xs ++ rest) =
        some (x :: xs, rest) := by
  induction xs with
  | nil =>
    intro x hx _ fuel rest hf
    rw [List.length_append] at hf
    have hepos := stringifyElems_length_pos []
    cases fuel with
    | zero => omega
    | succ f =>
      rw [parseElements_succ, List.append_assoc,
        hx f _ (by omega) (noDigitHead_elems [] rest), stringifyElems_nil]
      rfl
  | cons y ys ih =>
    intro x hx hall fuel rest hf
    rw [List.length_append] at hf
    have hxpos := stringifyChars_length_pos x
    have hepos := stringifyElems_length_pos (y :: ys)
    cases fuel with
    | zero => omega
    | succ f =>
      rw [parseElements_succ, List.append_assoc,
        hx f _ (by omega) (noDigitHead_elems (y :: ys) rest)]
      rw [stringifyElems_cons] at hf ⊢
      have hrec := ih y (hall y (List.mem_cons_self _ _))
        (fun z hz => hall z (List.mem_cons_of_mem _ hz)) f rest
        (by simp at hf ⊢; omega)
      have hs : skipWs ((',' :: (stringifyChars y ++ stringifyElems ys)) ++ rest) =
          ',' :: (stringifyChars y ++ stringifyElems ys ++ rest) := rfl
      simp only [hs, show ¬ (',' = ']') by decide, if_false, if_true, hrec]

theorem quoteJSONString_length (k : String) :
    (quoteJSONString k).length = (quoteBody k.data).length + 2 := by
  simp [quoteJSONString]

theorem parseMembers_roundTrip (ms : List (String × Json)) :
    ∀ k v, RoundTrips v → (∀ m ∈ ms, RoundTrips m.2) → ∀ fuel rest,
      (quoteJSONString k ++ ':' :: (stringifyChars v ++ stringifyMembers ms)).length < fuel →
      parseMembers fuel
        (quoteJSONString k ++ ':' :: (stringifyChars v ++ stringifyMembers ms) ++ rest) =
        some ((k, v) :: ms, rest) := by
  induction ms with
  | nil =>
    intro k v hv _ fuel rest hf
    have hin : quoteJSONString k ++ ':' :: (stringifyChars v ++ stringifyMembers []) ++ rest =
        '"' :: (quoteBody k.data ++ '"' :: ':' ::
          (stringifyChars v ++ (stringifyMembers [] ++ rest))) := by
      simp [quoteJSONString]
    simp only [List.length_append, List.length_cons, quoteJSONString_length] at hf
    have hmpos := stringifyMembers_length_pos []
    cases fuel with
    | zero => omega
    | succ f =>
      rw [hin, parseMembers_succ, skipWs_cons _ _ (by decide)]
      simp only [if_true, parseStringBody_quoteBody]
      rw [skipWs_cons _ _ (by decide)]
      simp only [if_true]
      rw [hv f _ (by omega) (noDigitHead_members [] rest), stringifyMembers_nil]
      rfl
  | cons m ms ih =>
    obtain ⟨k2, v2⟩ := m
    intro k v hv hall fuel rest hf
    have hin : quoteJSONString k ++ ':' :: (stringifyChars v ++ stringifyMembers ((k2, v2) :: ms))
          ++ rest =
        '"' :: (quoteBody k.data ++ '"' :: ':' ::
          (stringifyChars v ++ (stringifyMembers ((k2, v2) :: ms) ++ rest))) := by
      simp [quoteJSONString]
    simp only [List.length_append, List.length_cons, quoteJSONString_length] at hf
    have hmpos := stringifyMembers_length_pos ((k2, v2) :: ms)
    have hvpos := stringifyChars_length_pos v
    cases fuel with
    | zero => omega
    | succ f =>
      rw [hin, parseMembers_succ, skipWs_cons _ _ (by decide)]
      simp only [if_true, parseStringBody_quoteBody]
      rw [skipWs_cons _ _ (by decide)]
      simp only [if_true]
      rw [hv f _ (by omega) (noDigitHead_members ((k2, v2) :: ms) rest)]
      rw [stringifyMembers_cons] at hf ⊢
      have hrec := ih k2 v2 (hall (k2, v2) (List.mem_cons_self _ _))
        (fun z hz => hall z (List.mem_cons_of_mem _ hz)) f rest
        (by simp only [List.length_append, List.length_cons, quoteJSONString_length] at hf ⊢
            omega)
      have hs : skipWs ((',' :: (quoteJSONString k2 ++ ':' ::
            (stringifyChars v2 ++ stringifyMembers ms))) ++ rest) =
          ',' :: (quoteJSONString k2 ++ ':' :: (stringifyChars v2 ++ stringifyMembers ms)
            ++ rest) := rfl
      simp only [hs, show ¬ (',' = '}') by decide, if_false, if_true, hrec]

theorem roundTrips_num (n : Int) : RoundTrips (.num n) := by
  intro fuel rest hf hr
  cases fuel with
  | zero => omega
  | succ f =>
    rw [stringifyChars_num]
    unfold intToChars
    split
    · next hneg =>
      rw [List.cons_append, parseValue_minus, parseNat_natToDigits _ _ hr]
      simp only []
      have : -(n.natAbs : Int) = n := by omega
      rw [this]
    · next hpos =>
      obtain ⟨c, r, hcr, hd, _⟩ := natToDigits_head n.natAbs
      have hp := parseNat_natToDigits n.natAbs rest hr
      rw [hcr] at hp ⊢
      rw [List.cons_append] at hp ⊢
      rw [parseValue_digit f c _ hd, hp]
      simp only []
      have : (n.natAbs : Int) = n := by omega
      rw [this]

theorem roundTrips (j : Json) : RoundTrips j := by
  match j with
  | .null =>
    intro fuel rest hf _
    cases fuel with
    | zero => omega
    | succ f =>
      have h : stringifyChars .null = ['n', 'u', 'l', 'l'] := by rw [stringifyChars]
      rw [h]
      exact parseValue_null f rest
  | .bool true =>
    intro fuel rest hf _
    cases fuel with
    | zero => omega
    | succ f =>
      have h : stringifyChars (.bool true) = ['t', 'r', 'u', 'e'] := by rw [stringifyChars]
      rw [h]
      exact parseValue_true f rest
  | .bool false =>
    intro fuel rest hf _
    cases fuel with
    | zero => omega
    | succ f =>
      have h : stringifyChars (.bool false) = ['f', 'a', 'l', 's', 'e'] := by
        rw [stringifyChars]
      rw [h]
      exact parseValue_false f rest
  | .num n => exact roundTrips_num n
  | .str s =>
    intro fuel rest hf _
    cases fuel with
    | zero => omega
    | succ f =>
      rw [stringifyChars_str]
      exact parseValue_quoteJSONString f s rest
  | .arr [] =>
    intro fuel rest hf _
    cases fuel with
    | zero => omega
    | succ f =>
      have h : stringifyChars (.arr []) = ['[', ']'] := by rw [stringifyChars]
      rw [h]
      rfl
  | .arr (x :: xs) =>
    intro fuel rest hf _
    cases fuel with
    | zero => omega
    | succ f =>
      have hx : RoundTrips x := roundTrips x
      have hall : ∀ y ∈ xs, RoundTrips y := fun y _ => roundTrips y
      rw [stringifyChars_arr_cons] at hf ⊢
      have hrec := parseElements_roundTrip xs x hx hall f rest
        (by simp only [List.length_cons] at hf; omega)
      obtain ⟨c, r, hcr, hws, hb, _⟩ := stringifyChars_head x
      rw [List.cons_append, parseValue_bracket]
      rw [hcr] at hrec ⊢
      simp only [List.cons_append] at hrec ⊢
      rw [skipWs_cons _ _ hws]
      simp only [hb, if_false, hrec]
  | .obj [] =>
    intro fuel rest hf _
    cases fuel with
    | zero => omega
    | succ f =>
      have h : stringifyChars (.obj []) = ['{', '}'] := by rw [stringifyChars]
      rw [h]
      rfl
  | .obj ((k, v) :: ms) =>
    intro fuel rest hf _
    cases fuel with
    | zero => omega
    | succ f =>
      have hv : RoundTrips v := roundTrips v
      have hall : ∀ m ∈ ms, RoundTrips m.2 := fun ⟨_, v1⟩ _ => roundTrips v1
      rw [stringifyChars_obj_cons] at hf ⊢
      have hrec := parseMembers_roundTrip ms k v hv hall f rest
        (by simp only [List.length_cons] at hf; omega)
      have hq : quoteJSONString k = '"' :: (quoteBody k.data ++ ['"']) := rfl
      rw [List.cons_append, parseValue_brace]
      rw [hq] at hrec ⊢
      simp only [List.cons_append] at hrec ⊢
      rw [skipWs_cons _ _ (by decide)]
      simp only [show ¬ ('"' = '}') by decide, if_false, hrec]
termination_by sizeOf j
decreasing_by
  all_goals simp_wf
  all_goals try omega
  all_goals
    have hmem := List.sizeOf_lt_of_mem ‹_›
    simp at hmem ⊢
    omega

/-- Parsing the text that `JSON.stringify` writes gives back the value. -/

theorem JSON.parse_stringify (j : Json) : JSON.parse (JSON.stringify j) = .ok j := by
  unfold JSON.parse JSON.stringify
  have h := roundTrips j ((stringifyChars j).length + 1) [] (by omega) noDigitHead_nil
  rw [List.append_nil] at h
  simp only [h]
  rfl

/-! ## The farm-record stores: reload -/

theorem JSON.stringify_ne_empty (j : Json) : JSON.stringify j ≠ "" := by
  intro h
  have hd := congrArg String.data h
  obtain ⟨c, r, hcr, _⟩ := stringifyChars_head j
  have he : stringifyChars j = [] := hd
  rw [hcr] at he
  cases he

/-- An initializer that finds the text of `j` under its key yields `j`. -/
theorem loadRecords_of_stored (storage : Storage) (key : String) (j : Json)
    (h : storage.getItem key = some (JSON.stringify j)) : loadRecords storage key = j := by
  have hne : (JSON.stringify j != "") = true := by
    simp [JSON.stringify_ne_empty j]
  simp only [loadRecords, h, hne, if_true, JSON.parse_stringify]

/-- C8: in each of the four record stores, after an add whose key field is not blank and
whose write to the storage succeeds, running the initializer on the storage again (a
reload) yields the list that is in memory after the add: parsing the stored text gives
back the same list of records. -/
theorem reload_after_add (now : Nat) (s : FarmState) (xs : List Json) :
    (s.farmEmployees = .arr xs → jsTrim s.employeeForm.full_name ≠ "" →
      s.storage.accepts "farm-employees"
        (JSON.stringify (.arr (xs ++ [recordOf now s.employeeForm.members]))) = true →
      ∃ s1, handleAddEmployee now s = .ok s1 ∧
        s1.farmEmployees = .arr (xs ++ [recordOf now s.employeeForm.members]) ∧
        initFarmEmployees s1.storage = s1.farmEmployees) ∧
    (s.seedStock = .arr xs → jsTrim s.seedForm.name ≠ "" →
      s.storage.accepts "farm-seed-stock"
        (JSON.stringify (.arr (xs ++ [recordOf now s.seedForm.members]))) = true →
      ∃ s1, handleAddSeed now s = .ok s1 ∧
        s1.seedStock = .arr (xs ++ [recordOf now s.seedForm.members]) ∧
        initSeedStock s1.storage = s1.seedStock) ∧
    (s.productionRecords = .arr xs → jsTrim s.productionForm.crop ≠ "" →
      s.storage.accepts "farm-production-records"
        (JSON.stringify (.arr (xs ++ [recordOf now s.productionForm.members]))) = true →
      ∃ s1, handleAddProduction now s = .ok s1 ∧
        s1.productionRecords = .arr (xs ++ [recordOf now s.productionForm.members]) ∧
        initProductionRecords s1.storage = s1.productionRecords) ∧
    (s.fertilizerRecords = .arr xs → jsTrim s.fertilizerForm.fertilizer_name ≠ "" →
      s.storage.accepts "farm-fertilizer-records"
        (JSON.stringify (.arr (xs ++ [recordOf now s.fertilizerForm.members]))) = true →
      ∃ s1, handleAddFertilizer now s = .ok s1 ∧
        s1.fertilizerRecords = .arr (xs ++ [recordOf now s.fertilizerForm.members]) ∧
        initFertilizerRecords s1.storage = s1.fertilizerRecords) := by
  refine ⟨?_, ?_, ?_, ?_⟩
  · intro hseq hkey hfits
    refine ⟨_, handleAddEmployee_arr now s xs hseq hkey, rfl, ?_⟩
    exact loadRecords_of_stored _ _ _ (tryStore_of_accepts s.storage _ _ hfits)
  · intro hseq hkey hfits
    refine ⟨_, handleAddSeed_arr now s xs hseq hkey, rfl, ?_⟩
    exact loadRecords_of_stored _ _ _ (tryStore_of_accepts s.storage _ _ hfits)
  · intro hseq hkey hfits
    refine ⟨_, handleAddProduction_arr now s xs hseq hkey, rfl, ?_⟩
    exact loadRecords_of_stored _ _ _ (tryStore_of_accepts s.storage _ _ hfits)
  · intro hseq hkey hfits
    refine ⟨_, handleAddFertilizer_arr now s xs hseq hkey, rfl, ?_⟩
    exact loadRecords_of_stored _ _ _ (tryStore_of_accepts s.storage _ _ hfits)

/-- Witness of `reload_after_add`: the first record of each store, written to an empty
storage. -/
theorem reload_after_add_witness :
    (∃ s1, handleAddEmployee 1730000000000 (filledFarm emptyStorage) = .ok s1 ∧
      s1.farmEmployees =
        .arr ([] ++ [recordOf 1730000000000 (filledFarm emptyStorage).employeeForm.members]) ∧
      initFarmEmployees s1.storage = s1.farmEmployees) ∧
    (∃ s1, handleAddSeed 1730000000000 (filledFarm emptyStorage) = .ok s1 ∧
      s1.seedStock =
        .arr ([] ++ [recordOf 1730000000000 (filledFarm emptyStorage).seedForm.members]) ∧
      initSeedStock s1.storage = s1.seedStock) ∧
    (∃ s1, handleAddProduction 1730000000000 (filledFarm emptyStorage) = .ok s1 ∧
      s1.productionRecords =
        .arr ([] ++ [recordOf 1730000000000 (filledFarm emptyStorage).productionForm.members]) ∧
      initProductionRecords s1.storage = s1.productionRecords) ∧
    (∃ s1, handleAddFertilizer 1730000000000 (filledFarm emptyStorage) = .ok s1 ∧
      s1.fertilizerRecords =
        .arr ([] ++ [recordOf 1730000000000 (filledFarm emptyStorage).fertilizerForm.members]) ∧
      initFertilizerRecords s1.storage = s1.fertilizerRecords) :=
  ⟨(reload_after_add 1730000000000 (filledFarm emptyStorage) []).1 rfl (by decide) rfl,
   (reload_after_add 1730000000000 (filledFarm emptyStorage) []).2.1 rfl (by decide) rfl,
   (reload_after_add 1730000000000 (filledFarm emptyStorage) []).2.2.1 rfl (by decide) rfl,
   (reload_after_add 1730000000000 (filledFarm emptyStorage) []).2.2.2 rfl (by decide) rfl⟩

/-! ## CSV export -/

theorem recordCols_of_record (sectionName : String) (names : List String) (e : Json)
    (h : IsRecord e) : recordCols sectionName names e = .ok (recordRow sectionName names e) := by
  obtain ⟨ms, rfl⟩ := h
  rfl

theorem pushRecordRows_records (sectionName : String) (names : List String) (xs : List Json)
    (hrec : ∀ x ∈ xs, IsRecord x) : ∀ rows,
    pushRecordRows sectionName names rows xs =
      .ok (rows ++ xs.map (fun e => csvRow (recordRow sectionName names e))) := by
  induction xs with
  | nil => intro rows; simp [pushRecordRows]
  | cons e rest ih =>
    intro rows
    have he := recordCols_of_record sectionName names e (hrec e (List.mem_cons_self _ _))
    have hr := ih (fun x hx => hrec x (List.mem_cons_of_mem _ hx)) (pushRow rows (recordRow sectionName names e))
    simp only [pushRecordRows, he]
    rw [hr]
    simp [pushRow]

theorem forEachRecord_table (header : List String) (sectionName : String)
    (names : List String) (xs : List Json) (hrec : ∀ x ∈ xs, IsRecord x) :
    forEachRecord sectionName names (pushRow [] (headerCols header)) (.arr xs) =
      .ok ((exportTable header sectionName names xs).map csvRow) := by
  simp only [forEachRecord, pushRecordRows_records sectionName names xs hrec, pushRow,
    exportTable, List.nil_append, List.map_cons, List.singleton_append, List.map_map]
  rfl

theorem exportTable_length (header : List String) (sectionName : String)
    (names : List String) (xs : List Json) :
    (exportTable header sectionName names xs).length = xs.length + 1 := by
  simp [exportTable]

theorem exportTable_row_length (header : List String) (sectionName : String)
    (names : List String) (xs : List Json) (h : header.length = names.length + 1) :
    ∀ row ∈ exportTable header sectionName names xs, row.length = header.length := by
  intro row hrow
  simp only [exportTable, List.mem_cons, List.mem_map] at hrow
  rcases hrow with rfl | ⟨e, _, rfl⟩
  · simp [headerCols]
  · simp [recordRow, h]

/-- C11: for each of the four record types and every list of `n` records, the export saves
the rows of the table joined by line breaks, where the table has `n + 1` rows: the fixed
header of the record type first, then one row per record in list order; every row has as
many cells as the header. -/
theorem export_is_header_then_rows (s : FarmState) (xs : List Json)
    (hrec : ∀ x ∈ xs, IsRecord x) :
    (s.activeFarmTab = "employees" → s.farmEmployees = .arr xs →
      handleExportFarmData s =
        .ok (csvFile (exportTable employeeHeader "Employee" employeeFields xs)) ∧
      (exportTable employeeHeader "Employee" employeeFields xs).length = xs.length + 1 ∧
      ∀ row ∈ exportTable employeeHeader "Employee" employeeFields xs,
        row.length = employeeHeader.length) ∧
    (s.activeFarmTab = "seeds" → s.seedStock = .arr xs →
      handleExportFarmData s =
        .ok (csvFile (exportTable seedHeader "SeedStock" seedFields xs)) ∧
      (exportTable seedHeader "SeedStock" seedFields xs).length = xs.length + 1 ∧
      ∀ row ∈ exportTable seedHeader "SeedStock" seedFields xs,
        row.length = seedHeader.length) ∧
    (s.activeFarmTab = "production" → s.productionRecords = .arr xs →
      handleExportFarmData s =
        .ok (csvFile (exportTable productionHeader "Production" productionFields xs)) ∧
      (exportTable productionHeader "Production" productionFields xs).length = xs.length + 1 ∧
      ∀ row ∈ exportTable productionHeader "Production" productionFields xs,
        row.length = productionHeader.length) ∧
    (s.activeFarmTab = "fertilizers" → s.fertilizerRecords = .arr xs →
      handleExportFarmData s =
        .ok (csvFile (exportTable fertilizerHeader "Fertilizer" fertilizerFields xs)) ∧
      (exportTable fertilizerHeader "Fertilizer" fertilizerFields xs).length = xs.length + 1 ∧
      ∀ row ∈ exportTable fertilizerHeader "Fertilizer" fertilizerFields xs,
        row.length = fertilizerHeader.length) := by
  refine ⟨?_, ?_, ?_, ?_⟩
  · intro htab hseq
    refine ⟨?_, exportTable_length _ _ _ _, exportTable_row_length _ _ _ _ rfl⟩
    simp only [handleExportFarmData, exportRows, htab, if_true, hseq,
      forEachRecord_table employeeHeader "Employee" employeeFields xs hrec, csvFile]
  · intro htab hseq
    refine ⟨?_, exportTable_length _ _ _ _, exportTable_row_length _ _ _ _ rfl⟩
    simp only [handleExportFarmData, exportRows, htab, if_true, hseq,
      forEachRecord_table seedHeader "SeedStock" seedFields xs hrec, csvFile]
    rfl
  · intro htab hseq
    refine ⟨?_, exportTable_length _ _ _ _, exportTable_row_length _ _ _ _ rfl⟩
    simp only [handleExportFarmData, exportRows, htab, if_true, hseq,
      forEachRecord_table productionHeader "Production" productionFields xs hrec, csvFile]
    rfl
  · intro htab hseq
    refine ⟨?_, exportTable_length _ _ _ _, exportTable_row_length _ _ _ _ rfl⟩
    simp only [handleExportFarmData, exportRows, htab, if_true, hseq,
      forEachRecord_table fertilizerHeader "Fertilizer" fertilizerFields xs hrec, csvFile]
    rfl

/-- Witness of `export_is_header_then_rows`: the export of an empty employee list is the
header row alone. -/
theorem export_is_header_then_rows_witness :
    handleExportFarmData (freshFarm emptyStorage) =
      .ok (csvFile (exportTable employeeHeader "Employee" employeeFields [])) ∧
    (csvFile (exportTable employeeHeader "Employee" employeeFields [])).content =
      "\"Section\",\"Name\",\"Role\",\"Start date\",\"Pay frequency\",\"Pay amount (RWF)\"" :=
  ⟨((export_is_header_then_rows (freshFarm emptyStorage) []
      (fun _ h => absurd h (List.not_mem_nil _))).1 rfl rfl).1, rfl⟩

theorem doubleQuotes_eq_flatMap (cs : List Char) :
    doubleQuotes cs = cs.flatMap (fun c => if c = '"' then ['"', '"'] else [c]) := by
  induction cs with
  | nil => rfl
  | cons c cs ih =>
    by_cases h : c = '"'
    · simp [doubleQuotes, h, ih]
    · simp [doubleQuotes, h, ih]

theorem undoubleQuotes_doubleQuotes (cs : List Char) :
    undoubleQuotes (doubleQuotes cs) = cs := by
  induction cs with
  | nil => rfl
  | cons c cs ih =>
    by_cases h : c = '"'
    · subst h
      have h1 : doubleQuotes ('"' :: cs) = '"' :: '"' :: doubleQuotes cs := by
        simp [doubleQuotes]
      rw [h1]
      simp [undoubleQuotes, ih]
    · have h1 : doubleQuotes (c :: cs) = c :: doubleQuotes cs := by
        simp [doubleQuotes, h]
      rw [h1]
      cases hd : doubleQuotes cs with
      | nil =>
        rw [hd] at ih
        simp [undoubleQuotes, ← ih]
      | cons d ds =>
        rw [hd] at ih
        simp [undoubleQuotes, h, ih]

theorem readCell_csvCell (v : Option Json) : readCell (csvCell v) = cellText v := by
  unfold readCell csvCell
  simp [undoubleQuotes_doubleQuotes]

/-- C12: a cell is the text of the value (the empty text for a missing value) between
double quotes with every double quote of the text doubled; reading a cell back (dropping
the enclosing quotes and undoing the doubling) returns the text, and two different texts
never give the same cell. -/
theorem csvCell_quotes_and_reads_back (v : Option Json) :
    csvCell v = String.mk (['"'] ++
      (cellText v).data.flatMap (fun c => if c = '"' then ['"', '"'] else [c]) ++ ['"']) ∧
    cellText none = "" ∧
    readCell (csvCell v) = cellText v ∧
    ∀ w, cellText v ≠ cellText w → csvCell v ≠ csvCell w := by
  refine ⟨?_, rfl, readCell_csvCell v, ?_⟩
  · simp [csvCell, doubleQuotes_eq_flatMap]
  · intro w hne heq
    apply hne
    rw [← readCell_csvCell v, ← readCell_csvCell w, heq]

/-- Witness of `csvCell_quotes_and_reads_back`: a text with a double quote and a comma. -/
theorem csvCell_quotes_and_reads_back_witness :
    csvCell (some (.str "5\" pipe, long")) = "\"5\"\" pipe, long\"" ∧
    readCell "\"5\"\" pipe, long\"" = "5\" pipe, long" ∧
    csvCell (some (.str "5\" pipe, long")) ≠ csvCell (some (.str "5 pipe, long")) :=
  ⟨rfl,
   (csvCell_quotes_and_reads_back (some (.str "5\" pipe, long"))).2.2.1,
   (csvCell_quotes_and_reads_back (some (.str "5\" pipe, long"))).2.2.2
     (some (.str "5 pipe, long")) (by decide)⟩

theorem recordRow_employee (now : Nat) (f : EmployeeForm) :
    recordRow "Employee" employeeFields (recordOf now f.members) =
      [some (.str "Employee"), some (.str f.full_name), some (.str f.role),
       some (.str f.start_date), some (.str f.pay_frequency), some (.str f.pay_amount)] := by
  simp [recordRow, employeeFields, recordOf, EmployeeForm.members, Json.get]

/-- C13: adding an employee whose `full_name` is not blank to a list of `N` records gives
a list of `N + 1` records, and the export of the employees section then has `N + 2` rows
the last of which is the cells of `Employee`, the name, the role, the start date, the pay
frequency and the pay amount of the form, in that order, each quoted as in C12. -/
theorem add_employee_then_export (now : Nat) (s : FarmState) (xs : List Json)
    (hseq : s.farmEmployees = .arr xs) (hrec : ∀ x ∈ xs, IsRecord x)
    (hkey : jsTrim s.employeeForm.full_name ≠ "")
    (htab : s.activeFarmTab = "employees") :
    ∃ s1 ys rows, handleAddEmployee now s = .ok s1 ∧
      s1.farmEmployees = .arr ys ∧ ys.length = xs.length + 1 ∧
      handleExportFarmData s1 =
        .ok { filename := "farm_data.csv"
              mime := "text/csv;charset=utf-8;"
              content := String.intercalate "\n" rows } ∧
      rows.length = xs.length + 2 ∧
      rows.getLast? = some (String.intercalate ","
        [csvCell (some (.str "Employee")), csvCell (some (.str s.employeeForm.full_name)),
         csvCell (some (.str s.employeeForm.role)),
         csvCell (some (.str s.employeeForm.start_date)),
         csvCell (some (.str s.employeeForm.pay_frequency)),
         csvCell (some (.str s.employeeForm.pay_amount))]) := by
  have hall : ∀ x ∈ xs ++ [recordOf now s.employeeForm.members], IsRecord x := by
    intro x hx
    rcases List.mem_append.1 hx with h | h
    · exact hrec x h
    · simp only [List.mem_singleton] at h
      exact ⟨_, h⟩
  refine ⟨_, xs ++ [recordOf now s.employeeForm.members],
    (exportTable employeeHeader "Employee" employeeFields
      (xs ++ [recordOf now s.employeeForm.members])).map csvRow,
    handleAddEmployee_arr now s xs hseq hkey, rfl, by simp, ?_, by simp [exportTable], ?_⟩
  · simp only [handleExportFarmData, exportRows, persistFarmEmployees, htab, if_true,
      forEachRecord_table employeeHeader "Employee" employeeFields _ hall]
  · simp only [exportTable, List.map_append, List.map_cons, List.map_nil,
      recordRow_employee]
    rw [← List.cons_append, List.getLast?_append]
    simp [csvRow]

/-- Witness of `add_employee_then_export`: a name with double quotes and a comma. -/
theorem add_employee_then_export_witness :
    (∃ s1 ys rows, handleAddEmployee 1730000000000 quotedNameFarm = .ok s1 ∧
      s1.farmEmployees = .arr ys ∧ ys.length = ([] : List Json).length + 1 ∧
      handleExportFarmData s1 =
        .ok { filename := "farm_data.csv"
              mime := "text/csv;charset=utf-8;"
              content := String.intercalate "\n" rows } ∧
      rows.length = ([] : List Json).length + 2 ∧
      rows.getLast? = some (String.intercalate ","
        [csvCell (some (.str "Employee")),
         csvCell (some (.str quotedNameFarm.employeeForm.full_name)),
         csvCell (some (.str quotedNameFarm.employeeForm.role)),
         csvCell (some (.str quotedNameFarm.employeeForm.start_date)),
         csvCell (some (.str quotedNameFarm.employeeForm.pay_frequency)),
         csvCell (some (.str quotedNameFarm.employeeForm.pay_amount))])) ∧
    csvCell (some (.str quotedNameFarm.employeeForm.full_name)) =
      "\"Jean \"\"JP\"\", Sr\"" :=
  ⟨add_employee_then_export 1730000000000 quotedNameFarm []
      rfl (fun _ h => absurd h (List.not_mem_nil _)) (by decide) rfl, rfl⟩

/-! ## Identifiers -/

theorem runAdds_ids_nodup {F : Type} (proj : FarmState → Json)
    (setForm : FarmState → F → FarmState)
    (add : Nat → FarmState → Except JsError FarmState)
    (hset : ∀ s f, proj (setForm s f) = proj s)
    (hadd : ∀ now s xs, proj s = .arr xs → ∃ s1, add now s = .ok s1 ∧
      (proj s1 = .arr xs ∨
        ∃ r, proj s1 = .arr (xs ++ [r]) ∧ r.get "id" = some (.num (now : Int)))) :
    ∀ (steps : List (Nat × F)) (s : FarmState) (xs : List Json), proj s = .arr xs →
      (xs.map (fun x => x.get "id")).Nodup →
      (∀ x ∈ xs, ∀ st ∈ steps, x.get "id" ≠ some (.num (st.1 : Int))) →
      (steps.map (fun st => st.1)).Nodup →
      ∃ s1, runAdds setForm add s steps = .ok s1 ∧ (recordIds (proj s1)).Nodup := by
  intro steps
  induction steps with
  | nil =>
    intro s xs hs hn _ _
    exact ⟨s, rfl, by rw [hs]; exact hn⟩
  | cons st rest ih =>
    obtain ⟨now, form⟩ := st
    intro s xs hs hn hfresh htimes
    obtain ⟨s1, hs1, hcase⟩ := hadd now (setForm s form) xs (by rw [hset]; exact hs)
    have hrun : runAdds setForm add s ((now, form) :: rest) = runAdds setForm add s1 rest := by
      simp only [runAdds, hs1]
    rw [hrun]
    have htimes' : (rest.map (fun st => st.1)).Nodup := (List.nodup_cons.1 htimes).2
    have hnow : now ∉ rest.map (fun st => st.1) := (List.nodup_cons.1 htimes).1
    rcases hcase with h | ⟨r, h, hid⟩
    · exact ih s1 xs h hn
        (fun x hx st hst => hfresh x hx st (List.mem_cons_of_mem _ hst)) htimes'
    · refine ih s1 (xs ++ [r]) h ?_ ?_ htimes'
      · rw [List.map_append, List.nodup_append]
        refine ⟨hn, by simp, ?_⟩
        intro a ha hb
        simp only [List.map_cons, List.map_nil, List.mem_singleton] at hb
        obtain ⟨x, hx, rfl⟩ := List.mem_map.1 ha
        exact hfresh x hx (now, form) (List.mem_cons_self _ _) (by rw [hb, hid])
      · intro x hx st hst
        rcases List.mem_append.1 hx with hx | hx
        · exact hfresh x hx st (List.mem_cons_of_mem _ hst)
        · simp only [List.mem_singleton] at hx
          subst hx
          rw [hid]
          intro heq
          have h1 : (now : Int) = (st.1 : Int) := by
            injection heq with heq
            injection heq
          have h2 : now = st.1 := by exact_mod_cast h1
          exact hnow (List.mem_map.2 ⟨st, hst, h2.symm⟩)

theorem recordOf_id_employee (now : Nat) (f : EmployeeForm) :
    (recordOf now f.members).get "id" = some (.num (now : Int)) := by
  simp [recordOf, EmployeeForm.members, Json.get]

theorem recordOf_id_seed (now : Nat) (f : SeedForm) :
    (recordOf now f.members).get "id" = some (.num (now : Int)) := by
  simp [recordOf, SeedForm.members, Json.get]

theorem recordOf_id_production (now : Nat) (f : ProductionForm) :
    (recordOf now f.members).get "id" = some (.num (now : Int)) := by
  simp [recordOf, ProductionForm.members, Json.get]

theorem recordOf_id_fertilizer (now : Nat) (f : FertilizerForm) :
    (recordOf now f.members).get "id" = some (.num (now : Int)) := by
  simp [recordOf, FertilizerForm.members, Json.get]

theorem handleAddEmployee_step (now : Nat) (s : FarmState) (xs : List Json)
    (hs : s.farmEmployees = .arr xs) :
    ∃ s1, handleAddEmployee now s = .ok s1 ∧
      (s1.farmEmployees = .arr xs ∨
        ∃ r, s1.farmEmployees = .arr (xs ++ [r]) ∧ r.get "id" = some (.num (now : Int))) := by
  by_cases hkey : jsTrim s.employeeForm.full_name = ""
  · exact ⟨s, by simp [handleAddEmployee, hkey], Or.inl hs⟩
  · exact ⟨_, handleAddEmployee_arr now s xs hs hkey,
      Or.inr ⟨_, rfl, recordOf_id_employee now _⟩⟩

theorem handleAddSeed_step (now : Nat) (s : FarmState) (xs : List Json)
    (hs : s.seedStock = .arr xs) :
    ∃ s1, handleAddSeed now s = .ok s1 ∧
      (s1.seedStock = .arr xs ∨
        ∃ r, s1.seedStock = .arr (xs ++ [r]) ∧ r.get "id" = some (.num (now : Int))) := by
  by_cases hkey : jsTrim s.seedForm.name = ""
  · exact ⟨s, by simp [handleAddSeed, hkey], Or.inl hs⟩
  · exact ⟨_, handleAddSeed_arr now s xs hs hkey, Or.inr ⟨_, rfl, recordOf_id_seed now _⟩⟩

theorem handleAddProduction_step (now : Nat) (s : FarmState) (xs : List Json)
    (hs : s.productionRecords = .arr xs) :
    ∃ s1, handleAddProduction now s = .ok s1 ∧
      (s1.productionRecords = .arr xs ∨
        ∃ r, s1.productionRecords = .arr (xs ++ [r]) ∧
          r.get "id" = some (.num (now : Int))) := by
  by_cases hkey : jsTrim s.productionForm.crop = ""
  · exact ⟨s, by simp [handleAddProduction, hkey], Or.inl hs⟩
  · exact ⟨_, handleAddProduction_arr now s xs hs hkey,
      Or.inr ⟨_, rfl, recordOf_id_production now _⟩⟩

theorem handleAddFertilizer_step (now : Nat) (s : FarmState) (xs : List Json)
    (hs : s.fertilizerRecords = .arr xs) :
    ∃ s1, handleAddFertilizer now s = .ok s1 ∧
      (s1.fertilizerRecords = .arr xs ∨
        ∃ r, s1.fertilizerRecords = .arr (xs ++ [r]) ∧
          r.get "id" = some (.num (now : Int))) := by
  by_cases hkey : jsTrim s.fertilizerForm.fertilizer_name = ""
  · exact ⟨s, by simp [handleAddFertilizer, hkey], Or.inl hs⟩
  · exact ⟨_, handleAddFertilizer_arr now s xs hs hkey,
      Or.inr ⟨_, rfl, recordOf_id_fertilizer now _⟩⟩

/-- C14 fails as stated: two employees added while `Date.now()` gives the same reading
get the same identifier. -/
theorem same_millisecond_same_id :
    ∃ s1, runAdds (fun s f => { s with employeeForm := f }) handleAddEmployee
        (freshFarm emptyStorage)
        [(1730000000000, { EmployeeForm.initial with full_name := "Jean" }),
         (1730000000000, { EmployeeForm.initial with full_name := "Marie" })] = .ok s1 ∧
      recordIds s1.farmEmployees = [some (.num 1730000000000), some (.num 1730000000000)] ∧
      ¬ (recordIds s1.farmEmployees).Nodup :=
  ⟨_, rfl, rfl, by
    have h : ∀ a : Option Json, ¬ [a, a].Nodup := by intro a; simp
    exact h _⟩

/-- C14 (amended): in each of the four stores, every list reached from the empty list by
add operations whose clock readings are pairwise distinct has pairwise distinct
identifiers. -/
theorem ids_distinct_of_distinct_times (storage : Storage) :
    (∀ steps : List (Nat × EmployeeForm), (steps.map (fun st => st.1)).Nodup →
      ∃ s1, runAdds (fun s f => { s with employeeForm := f }) handleAddEmployee
          (freshFarm storage) steps = .ok s1 ∧ (recordIds s1.farmEmployees).Nodup) ∧
    (∀ steps : List (Nat × SeedForm), (steps.map (fun st => st.1)).Nodup →
      ∃ s1, runAdds (fun s f => { s with seedForm := f }) handleAddSeed
          (freshFarm storage) steps = .ok s1 ∧ (recordIds s1.seedStock).Nodup) ∧
    (∀ steps : List (Nat × ProductionForm), (steps.map (fun st => st.1)).Nodup →
      ∃ s1, runAdds (fun s f => { s with productionForm := f }) handleAddProduction
          (freshFarm storage) steps = .ok s1 ∧ (recordIds s1.productionRecords).Nodup) ∧
    (∀ steps : List (Nat × FertilizerForm), (steps.map (fun st => st.1)).Nodup →
      ∃ s1, runAdds (fun s f => { s with fertilizerForm := f }) handleAddFertilizer
          (freshFarm storage) steps = .ok s1 ∧ (recordIds s1.fertilizerRecords).Nodup) := by
  refine ⟨?_, ?_, ?_, ?_⟩
  · intro steps ht
    exact runAdds_ids_nodup (fun s => s.farmEmployees)
      (fun s f => { s with employeeForm := f }) handleAddEmployee (fun _ _ => rfl)
      handleAddEmployee_step steps (freshFarm storage) [] rfl (by simp) (by simp) ht
  · intro steps ht
    exact runAdds_ids_nodup (fun s => s.seedStock)
      (fun s f => { s with seedForm := f }) handleAddSeed (fun _ _ => rfl)
      handleAddSeed_step steps (freshFarm storage) [] rfl (by simp) (by simp) ht
  · intro steps ht
    exact runAdds_ids_nodup (fun s => s.productionRecords)
      (fun s f => { s with productionForm := f }) handleAddProduction (fun _ _ => rfl)
      handleAddProduction_step steps (freshFarm storage) [] rfl (by simp) (by simp) ht
  · intro steps ht
    exact runAdds_ids_nodup (fun s => s.fertilizerRecords)
      (fun s f => { s with fertilizerForm := f }) handleAddFertilizer (fun _ _ => rfl)
      handleAddFertilizer_step steps (freshFarm storage) [] rfl (by simp) (by simp) ht

/-- Witness of `ids_distinct_of_distinct_times`: two adds one millisecond apart. -/
theorem ids_distinct_of_distinct_times_witness :
    ∃ s1, runAdds (fun s f => { s with employeeForm := f }) handleAddEmployee
        (freshFarm emptyStorage)
        [(1730000000000, { EmployeeForm.initial with full_name := "Jean" }),
         (1730000000001, { EmployeeForm.initial with full_name := "Marie" })] = .ok s1 ∧
      (recordIds s1.farmEmployees).Nodup :=
  (ids_distinct_of_distinct_times emptyStorage).1 _ (by decide)

/-! ## Package download, analytics, login failures, headers and bodies -/

theorem finishDownload_error (app : Json) (e : JsError) :
    (finishDownload app (.error e)).saved = none ∧
    (finishDownload app (.error e)).error = some (downloadErrorMessage e) := ⟨rfl, rfl⟩

theorem downloadError_parsed (reply : Reply) (j : Json)
    (hparse : JSON.parse (reply.body.getD "") = .ok j) :
    (downloadError (Response.fresh reply)).status = some reply.status := by
  unfold downloadError
  cases hb : reply.body with
  | none =>
    rw [hb] at hparse
    simp only [Option.getD] at hparse
    simp [Response.json, Response.consume, Response.fresh, hb, hparse, JsError.status]
  | some text =>
    rw [hb] at hparse
    simp only [Option.getD] at hparse
    simp [Response.json, Response.consume, Response.fresh, hb, hparse, JsError.status]

theorem downloadError_unparsable (reply : Reply) (text : String) (e : JsError)
    (hbody : reply.body = some text) (hparse : JSON.parse text = .error e) :
    downloadError (Response.fresh reply) = .typeError "body stream already read" := by
  unfold downloadError
  simp [Response.json, Response.text, Response.consume, Response.fresh, hbody, hparse]

/-- C15, at a reply with status 404 whose body is an HTML page: both download functions
reject, but with the `TypeError` of reading the body twice, which has no status, instead
of an error with status 404. The handler saves no file and records the message of that
error. -/
theorem download_not_found_html :
    (Response.fresh notFoundHtmlReply).reply.status = 404 ∧
    downloadFarmerApplicationPackage devEnv signedInStorage (fun _ _ => .ok notFoundHtmlReply)
        (some (.num 7)) = .error (.typeError "body stream already read") ∧
    downloadMfiApplicationPackage devEnv signedInStorage (fun _ _ => .ok notFoundHtmlReply)
        (some (.num 7)) = .error (.typeError "body stream already read") ∧
    (JsError.typeError "body stream already read").status = none ∧
    (FarmerDashboard.handleDownloadPackage devEnv signedInStorage
        (fun _ _ => .ok notFoundHtmlReply) sampleApp).saved = none ∧
    (FarmerDashboard.handleDownloadPackage devEnv signedInStorage
        (fun _ _ => .ok notFoundHtmlReply) sampleApp).error =
      some (.str "body stream already read") :=
  ⟨rfl, rfl, rfl, rfl, rfl, rfl⟩

theorem download_not_found_json :
    ∃ e, downloadFarmerApplicationPackage devEnv signedInStorage
        (fun _ _ => .ok notFoundJsonReply) (some (.num 7)) = .error e ∧
      e.status = some 404 ∧
      (FarmerDashboard.handleDownloadPackage devEnv signedInStorage
        (fun _ _ => .ok notFoundJsonReply) sampleApp).saved = none ∧
      (FarmerDashboard.handleDownloadPackage devEnv signedInStorage
        (fun _ _ => .ok notFoundJsonReply) sampleApp).error =
        some (.str "Application not found") :=
  ⟨_, rfl, rfl, rfl, rfl⟩

/-- C16 fails as stated: the download returns the whole value of the `Content-Disposition`
header, not the name that the `filename=` pattern finds in it. -/
theorem download_returns_raw_header :
    downloadFarmerApplicationPackage devEnv signedInStorage (fun _ _ => .ok packageReply)
        (some (.num 7)) =
      .ok { blob := "PK-archive-bytes"
            contentDisposition := "attachment; filename=\"application_7.zip\"" } ∧
    execFilename "attachment; filename=\"application_7.zip\"" = some "application_7.zip" ∧
    "attachment; filename=\"application_7.zip\"" ≠ "application_7.zip" :=
  ⟨rfl, rfl, by decide⟩

theorem downloadPackage_success (storage : Storage) (fetch : Fetch) (url : String)
    (reply : Reply) (hfetch : fetch url (packageRequest storage) = .ok reply)
    (hok : (Response.fresh reply).ok = true) :
    downloadPackage storage fetch url =
      .ok { blob := reply.body.getD ""
            contentDisposition :=
              ((Response.fresh reply).header "content-disposition").getD "" } := by
  have hok1 : Response.ok { reply := reply, bodyUsed := false } = true := hok
  have hh : ∀ b, Response.header { reply := reply, bodyUsed := b } "content-disposition" =
      (Response.fresh reply).header "content-disposition" := fun _ => rfl
  unfold downloadPackage
  rw [hfetch]
  cases hb : reply.body with
  | none =>
    simp only [Response.fresh, hok1, Response.blob, Response.consume, hb, hh]
    cases hcd : (Response.fresh reply).header "content-disposition" with
    | none => simp [hh true, hcd]
    | some v => by_cases hv : v = "" <;> simp [hh true, hcd, hv]
  | some bytes =>
    simp only [Response.fresh, hok1, Response.blob, Response.consume, hb, hh]
    cases hcd : (Response.fresh reply).header "content-disposition" with
    | none => simp [hh true, hcd]
    | some v => by_cases hv : v = "" <;> simp [hh true, hcd, hv]

/-- C16 (amended): on a success response each of the two downloads returns the body as the
payload together with the unparsed value of the `Content-Disposition` header (the empty
text when there is none); the handler of the dashboard derives the file name from it. -/
theorem download_success_payload_and_header (env : Env) (storage : Storage) (fetch : Fetch)
    (id : Option Json) (reply : Reply) (hok : (Response.fresh reply).ok = true) :
    (fetch (API_BASE env ++ "/farmer/applications/" ++ templ id ++ "/package/")
        (packageRequest storage) = .ok reply →
      downloadFarmerApplicationPackage env storage fetch id =
        .ok { blob := reply.body.getD ""
              contentDisposition :=
                ((Response.fresh reply).header "content-disposition").getD "" }) ∧
    (fetch (API_BASE env ++ "/mfi/applications/" ++ templ id ++ "/package/")
        (packageRequest storage) = .ok reply →
      downloadMfiApplicationPackage env storage fetch id =
        .ok { blob := reply.body.getD ""
              contentDisposition :=
                ((Response.fresh reply).header "content-disposition").getD "" }) ∧
    ∀ app d, finishDownload app (.ok d) =
      { saved := some (packageFilename app d.contentDisposition, d.blob)
        error := none
        downloadingPackageId := none } :=
  ⟨fun h => downloadPackage_success storage fetch _ reply h hok,
   fun h => downloadPackage_success storage fetch _ reply h hok,
   fun _ _ => rfl⟩

/-- Witness of `download_success_payload_and_header`: a package with a declared name. -/
theorem download_success_payload_and_header_witness :
    downloadFarmerApplicationPackage devEnv signedInStorage (fun _ _ => .ok packageReply)
        (some (.num 7)) =
      .ok { blob := packageReply.body.getD ""
            contentDisposition :=
              ((Response.fresh packageReply).header "content-disposition").getD "" } ∧
    (FarmerDashboard.handleDownloadPackage devEnv signedInStorage
        (fun _ _ => .ok packageReply) sampleApp).saved =
      some ("application_7.zip", "PK-archive-bytes") :=
  ⟨(download_success_payload_and_header devEnv signedInStorage (fun _ _ => .ok packageReply)
      (some (.num 7)) packageReply rfl).1 rfl, rfl⟩

/-- C17: whatever the event type and the role, and whether the transport rejects or answers
with any response, `logGetStartedActivity` completes without raising. -/
theorem logGetStartedActivity_never_raises (env : Env) (fetch : Fetch)
    (eventType role : String) :
    logGetStartedActivity env fetch eventType role = .ok () := by
  unfold logGetStartedActivity
  split <;> rfl

theorem loginFailure_401 (t : String → String) (m : String) (b : Json) :
    loginFailure t (.api m 401 b) =
      { success := false, error := some (.str (t "getStarted.errorInvalidCredentials")) } := by
  simp [loginFailure, JsError.status]

/-- C18, at a reply with status 401 whose body is plain text: `request` throws the
`TypeError` of reading the body twice, which has no status, so `handleLogin` reports the
generic message and not the invalid-credentials one. Nothing is persisted. -/
theorem login_unauthorized_text_body :
    (Response.fresh unauthorizedTextReply).reply.status = 401 ∧
    handleLogin devEnv id (fun _ _ => .ok unauthorizedTextReply) emptyStorage "farmer"
        "jean@example.rw" "wrong" =
      { result := { success := false, error := some (.str "getStarted.errorGeneric") }
        storage := emptyStorage
        navigated := none } :=
  ⟨rfl, rfl⟩

/-- C19 fails as stated: when the caller supplies `Content-Type: application/json` the
content type sent is `application/json` although the caller does supply one. -/
theorem contentType_json_supplied_by_caller :
    getProp ((requestConfig jsonHeaderOptions).headers.getD []) "Content-Type" =
      some "application/json" ∧
    getProp (jsonHeaderOptions.headers.getD []) "Content-Type" ≠ none ∧
    ¬ (getProp ((requestConfig jsonHeaderOptions).headers.getD []) "Content-Type" =
        some "application/json" ↔
      getProp (jsonHeaderOptions.headers.getD []) "Content-Type" = none) := by
  refine ⟨by decide, by decide, ?_⟩
  intro h
  exact absurd (h.1 (by decide)) (by decide)

theorem requestConfig_headers (options : Options) :
    (requestConfig options).headers =
      some (spread [("Content-Type", "application/json")] (options.headers.getD [])) := by
  unfold requestConfig
  split
  · split <;> rfl
  · rfl

/-- C19 (amended): the headers `request` sends are the default content type merged with
the caller's headers, the caller winning: every header of the caller is sent with the
caller's value, `Content-Type` is `application/json` whenever the caller supplies none,
and no other header is added. -/
theorem request_headers_merge (env : Env) (fetch : Fetch) (endpoint : String)
    (options : Options) :
    request env fetch endpoint options = send env fetch endpoint (requestConfig options) ∧
    (∀ k v, getProp (options.headers.getD []) k = some v →
      getProp ((requestConfig options).headers.getD []) k = some v) ∧
    (getProp (options.headers.getD []) "Content-Type" = none →
      getProp ((requestConfig options).headers.getD []) "Content-Type" =
        some "application/json") ∧
    (∀ k, k ≠ "Content-Type" → getProp (options.headers.getD []) k = none →
      getProp ((requestConfig options).headers.getD []) k = none) := by
  refine ⟨rfl, ?_, ?_, ?_⟩
  · intro k v h
    rw [requestConfig_headers]
    simp [getProp_spread, h]
  · intro h
    rw [requestConfig_headers]
    simp [getProp_spread, h, getProp]
  · intro k hk h
    have hk2 : ¬ "Content-Type" = k := fun e => hk e.symm
    rw [requestConfig_headers]
    simp [getProp_spread, h, getProp, hk2]

/-- Witness of `request_headers_merge`: a caller header next to the default. -/
theorem request_headers_merge_witness :
    getProp ((requestConfig chatOptions).headers.getD []) "X-Trace" = some "7" ∧
    getProp ((requestConfig chatOptions).headers.getD []) "Content-Type" =
      some "application/json" :=
  ⟨(request_headers_merge devEnv (fun _ _ => .ok profileReply) "/chat/" chatOptions).2.1
      "X-Trace" "7" rfl,
   (request_headers_merge devEnv (fun _ _ => .ok profileReply) "/chat/" chatOptions).2.2.1
      rfl⟩

/-- C20: when the body is a multipart form payload, a text string or absent, `request`
hands the caller's body to the transport as it is, and the method is passed on
unchanged. -/
theorem request_passes_body_through (env : Env) (fetch : Fetch) (endpoint : String)
    (options : Options)
    (hbody : options.body = none ∨ (∃ parts, options.body = some (.formData parts)) ∨
      ∃ text, options.body = some (.json (.str text))) :
    request env fetch endpoint options = send env fetch endpoint (requestConfig options) ∧
    (requestConfig options).body = options.body ∧
    (requestConfig options).method = options.method := by
  refine ⟨rfl, ?_, ?_⟩
  · unfold requestConfig
    rcases hbody with h | ⟨parts, h⟩ | ⟨text, h⟩ <;> simp [h, typeofObject]
  · unfold requestConfig
    split
    · split <;> rfl
    · rfl

/-- Witness of `request_passes_body_through`: a document upload form. -/
theorem request_passes_body_through_witness :
    (requestConfig uploadOptions).body =
      some (.formData [("document_type", "national_id"), ("file", "scan.pdf")]) ∧
    (requestConfig uploadOptions).method = some "POST" :=
  ⟨(request_passes_body_through devEnv (fun _ _ => .ok profileReply)
      "/farmer/applications/7/documents/" uploadOptions (Or.inr (Or.inl ⟨_, rfl⟩))).2.1,
   (request_passes_body_through devEnv (fun _ _ => .ok profileReply)
      "/farmer/applications/7/documents/" uploadOptions (Or.inr (Or.inl ⟨_, rfl⟩))).2.2⟩

/-! ## The base URL -/

/-- C21: the base URL depends on the environment alone: it is the override when one is set
and not empty, otherwise the fixed production URL in a production build, otherwise the
relative path `/api`; and `request`, with or without authentication, calls the transport
at that base followed by the endpoint. -/
theorem apiBase_and_request_url (env : Env) :
    (∀ u, env.VITE_API_URL = some u → u ≠ "" → API_BASE env = u) ∧
    ((env.VITE_API_URL = none ∨ env.VITE_API_URL = some "") → env.PROD = true →
      API_BASE env = "https://agrifinconnectrwanda.onrender.com/api") ∧
    ((env.VITE_API_URL = none ∨ env.VITE_API_URL = some "") → env.PROD = false →
      API_BASE env = "/api") ∧
    (∀ (fetch : Fetch) (endpoint : String) (options : Options),
      request env fetch endpoint options =
        match fetch (API_BASE env ++ endpoint) (requestConfig options) with
        | .error e => .error e
        | .ok reply => handleResponse (Response.fresh reply)) ∧
    (∀ (endpoint : String) (options : Options),
      request env (fun url _ => .error (.typeError url)) endpoint options =
        .error (.typeError (API_BASE env ++ endpoint))) ∧
    (∀ (storage : Storage) (endpoint : String) (options : Options),
      authRequest env storage (fun url _ => .error (.typeError url)) endpoint options =
        .error (.typeError (API_BASE env ++ endpoint))) := by
  refine ⟨?_, ?_, ?_, fun _ _ _ => rfl, fun _ _ => rfl, fun _ _ _ => rfl⟩
  · intro u hu hne
    simp [API_BASE, hu, hne]
  · intro h hp
    rcases h with h | h <;> simp [API_BASE, h, hp, LIVE_API_BASE]
  · intro h hp
    rcases h with h | h <;> simp [API_BASE, h, hp]

/-- Witness of `apiBase_and_request_url`: a build with an override, a production build and
a development build, and the URL of a chat request in development. -/
theorem apiBase_and_request_url_witness :
    API_BASE overrideEnv = "https://staging.example.rw/api" ∧
    API_BASE prodEnv = "https://agrifinconnectrwanda.onrender.com/api" ∧
    API_BASE devEnv = "/api" ∧
    request devEnv (fun url _ => .error (.typeError url)) "/chat/" chatOptions =
      .error (.typeError ("/api" ++ "/chat/")) :=
  ⟨(apiBase_and_request_url overrideEnv).1 _ rfl (by decide),
   (apiBase_and_request_url prodEnv).2.1 (Or.inl rfl) rfl,
   (apiBase_and_request_url devEnv).2.2.1 (Or.inl rfl) rfl,
   (apiBase_and_request_url devEnv).2.2.2.2.1 "/chat/" chatOptions⟩

/-! ## The ML previews -/

/-- C22 fails as stated: with the eligibility and the risk call both in flight, the
completion of the eligibility call turns the loading indication of the risk call off. -/
theorem completion_clears_other_loading :
    showsLoading .risk twoInFlight = true ∧
    showsLoading .risk
      (endModelCall .eligibility (.ok (.obj [("approved", .bool true)])) twoInFlight) =
      false :=
  ⟨rfl, rfl⟩

theorem ModelResults.get_set_other (r : ModelResults) (c d : ModelCall) (v : Json)
    (h : c ≠ d) : (r.set c v).get d = r.get d := by
  cases c <;> cases d <;> first | rfl | exact absurd rfl h

/-- C22 (amended): the three preview calls share one loading value that names the call
started last. Starting a call sets it to that call, which disables the three buttons and
shows the loading indication of no other call; the completion of a call sets it to `null`,
which ends the loading indication of every call, and leaves the result slots of the other
calls unchanged. -/
theorem model_calls_share_one_flag (c : ModelCall) (s : ModelState) :
    (beginModelCall c s).modelLoading = some c ∧
    previewDisabled (beginModelCall c s) = true ∧
    (∀ d, d ≠ c → showsLoading d (beginModelCall c s) = false) ∧
    (∀ outcome, (endModelCall c outcome s).modelLoading = none) ∧
    (∀ outcome d, showsLoading d (endModelCall c outcome s) = false) ∧
    (∀ outcome d, d ≠ c →
      (endModelCall c outcome s).modelResults.get d = s.modelResults.get d) := by
  refine ⟨rfl, by simp [previewDisabled, beginModelCall], ?_, fun _ => rfl, ?_, ?_⟩
  · intro d hd
    simp only [showsLoading, beginModelCall, decide_eq_false_iff_not]
    intro h
    injection h with h
    exact hd h.symm
  · intro outcome d
    simp [showsLoading, endModelCall]
  · intro outcome d hd
    exact ModelResults.get_set_other _ _ _ _ (fun e => hd e.symm)

/-- Witness of `model_calls_share_one_flag`: the eligibility call completes while the risk
call is in flight; the slot of the risk call is what it was. -/
theorem model_calls_share_one_flag_witness :
    (endModelCall .eligibility (.ok (.obj [("approved", .bool true)]))
        twoInFlight).modelResults.get .risk = twoInFlight.modelResults.get .risk ∧
    showsLoading .eligibility (beginModelCall .risk ModelState.initial) = false :=
  ⟨(model_calls_share_one_flag .eligibility twoInFlight).2.2.2.2.2
      (.ok (.obj [("approved", .bool true)])) .risk (by decide),
   (model_calls_share_one_flag .risk ModelState.initial).2.2.1 .eligibility (by decide)⟩

/-! ## The application tracker -/

/-- For a status that is not empty and not `rejected`, known or not, the progress step is
between 1 and 4. -/
theorem getProgressStep_in_range (s : String) (hne : s ≠ "") (hrej : s ≠ "rejected") :
    1 ≤ getProgressStep (some s) ∧ getProgressStep (some s) ≤ 4 := by
  have ht : truthyString (some s) = true := by simp [truthyString, hne]
  simp only [getProgressStep, ht, Bool.not_true, indexOf, STATUS_ORDER, indexFrom]
  simp only [Bool.false_eq_true, if_false]
  split_ifs <;> first | omega | simp_all

/-- C23: the code at the status `rejected`: `getProgressStep` returns 5, the label reads
5 of 4 steps, and 5 is more than the total of 4. -/
theorem getProgressStep_rejected :
    getProgressStep (some "rejected") = 5 ∧
    progressLabel (some "rejected") = (5, 4) ∧
    ¬ (getProgressStep (some "rejected") ≤ totalSteps) ∧
    getProgressStep none = 0 := by
  refine ⟨by decide, by decide, by decide, by decide⟩

/-- C24: for every current status, absent ones included, `getHorizontalSteps` returns
four steps: `pending`, `under_review`, `documents_requested`, and an outcome that is
`rejected` when the current status is `rejected` and `approved` in every other case. -/
theorem getHorizontalSteps_four (currentStatus : Option String) :
    (getHorizontalSteps currentStatus).length = 4 ∧
    (getHorizontalSteps currentStatus).take 3 =
      ["pending", "under_review", "documents_requested"] ∧
    (currentStatus = some "rejected" →
      (getHorizontalSteps currentStatus)[3]? = some "rejected") ∧
    (currentStatus ≠ some "rejected" →
      (getHorizontalSteps currentStatus)[3]? = some "approved") := by
  refine ⟨rfl, rfl, ?_, ?_⟩
  · intro h; simp [getHorizontalSteps, h]
  · intro h; simp [getHorizontalSteps, h]

/-- Witness of `getHorizontalSteps_four`: a rejected application, one under review, and
one without a status. -/
theorem getHorizontalSteps_four_witness :
    (getHorizontalSteps (some "rejected"))[3]? = some "rejected" ∧
    (getHorizontalSteps (some "under_review"))[3]? = some "approved" ∧
    (getHorizontalSteps none)[3]? = some "approved" :=
  ⟨(getHorizontalSteps_four (some "rejected")).2.2.1 rfl,
   (getHorizontalSteps_four (some "under_review")).2.2.2 (by decide),
   (getHorizontalSteps_four none).2.2.2 (by decide)⟩

/-- C30: for each of the five statuses, exactly one of the four displayed steps is marked
current; every step displayed at or before it is marked done, and no step displayed after
it is. -/
theorem tracker_marks (currentStatus : String) (h : currentStatus ∈ STATUS_ORDER) :
    ((trackerSteps (some currentStatus)).filter (fun st => st.isCurrent)).length = 1 ∧
    ∀ i j : Fin (trackerSteps (some currentStatus)).length,
      ((trackerSteps (some currentStatus)).get j).isCurrent = true →
      (i ≤ j → ((trackerSteps (some currentStatus)).get i).isDone = true) ∧
      (j < i → ((trackerSteps (some currentStatus)).get i).isDone = false) := by
  simp only [STATUS_ORDER, List.mem_cons, List.mem_singleton, List.not_mem_nil, or_false] at h
  rcases h with rfl | rfl | rfl | rfl | rfl <;> decide

/-- Witness of `tracker_marks`: an application under review has one current step, and a
rejected one too. -/
theorem tracker_marks_witness :
    ((trackerSteps (some "under_review")).filter (fun st => st.isCurrent)).length = 1 ∧
    ((trackerSteps (some "rejected")).filter (fun st => st.isCurrent)).length = 1 :=
  ⟨(tracker_marks "under_review" (by decide)).1, (tracker_marks "rejected" (by decide)).1⟩

/-! ## `handleLogin`: the messages of a failed login -/

theorem validationMessage_eq_detail (body : Json) :
    validationMessage body = validationDetail body := by
  cases body with
  | obj ms =>
    simp only [validationMessage, validationDetail, orElse]
    by_cases h1 : truthy? ((Json.obj ms).get "error") = true
    · simp [h1]
      cases h : (Json.obj ms).get "error" <;> simp [h] at h1 ⊢
      simp [truthy?] at h1
    · simp only [h1, Bool.false_eq_true, if_false]
      by_cases h2 : truthy? (optIndex0 ((Json.obj ms).get "email")) = true
      · simp [h2]
        cases h : optIndex0 ((Json.obj ms).get "email") <;> simp [h] at h2 ⊢
        simp [truthy?] at h2
      · simp only [h2, Bool.false_eq_true, if_false]
        by_cases h3 : truthy? (optIndex0 ((Json.obj ms).get "password")) = true
        · simp [h3]
          cases h : optIndex0 ((Json.obj ms).get "password") <;> simp [h] at h3 ⊢
          simp [truthy?] at h3
        · simp [h3]
  | arr xs =>
    simp [validationMessage, validationDetail, orElse, Json.get, optIndex0, truthy?]
  | null => rfl
  | bool b => rfl
  | num n => rfl
  | str text => rfl

theorem loginFailure_cases (t : String → String) (err : JsError) :
    (loginFailure t err).success = false ∧
    (∀ body, err.status = some 400 → err.body = some body → body.truthy = true →
      (loginFailure t err).error = some (validationDetail body)) ∧
    (err.status ≠ some 401 → ¬ (err.status = some 400 ∧ truthy? err.body = true) →
      (loginFailure t err).error = some (.str (t "getStarted.errorGeneric"))) := by
  refine ⟨?_, ?_, ?_⟩
  · unfold loginFailure
    split_ifs <;> rfl
  · intro body hs hb ht
    have htr1 : truthy? (some body) = true := ht
    simp [loginFailure, hs, hb, htr1, validationMessage_eq_detail]
  · intro h401 h400
    simp only [loginFailure, h401, if_false, h400]

/-- An error thrown inside the `try` block of `handleLogin` carries no status. -/
theorem loginSuccess_error_status (storage : Storage) (role : String) (data : Json)
    (err : JsError) (st : Storage) (h : loginSuccess storage role data = .error (err, st)) :
    err.status = none := by
  unfold loginSuccess at h
  cases hr : readProp data "token" with
  | error e =>
    rw [hr] at h
    have he : e = err := by injection h with h; injection h
    subst he
    cases data <;> simp [readProp] at hr
    subst hr; rfl
  | ok token =>
    rw [hr] at h
    cases token with
    | none => simp at h
    | some tk =>
      by_cases htk : tk.truthy = true
      · simp only [htk, if_true] at h
        cases h1 : storage.setItem "agrifinconnect-token" (toJsString tk) with
        | error e =>
          rw [h1] at h
          have he : e = err := by injection h with h; injection h
          subst he
          unfold Storage.setItem at h1
          split_ifs at h1
          all_goals injection h1 with h1; subst h1; rfl
        | ok st1 =>
          rw [h1] at h
          simp only at h
          split at h
          · rename_i e h2
            have he : e = err := by injection h with h; injection h
            subst he
            unfold Storage.setItem at h2
            split_ifs at h2
            all_goals injection h2 with h2; subst h2; rfl
          · simp at h
      · simp [htk] at h

/-- An error thrown after the login request has succeeded (the data is `null`, or the
storage refuses a write) ends in the generic message. -/
theorem handleLogin_try_throw (env : Env) (t : String → String) (fetch : Fetch)
    (storage : Storage) (role email password : String) (data : Json) (err : JsError)
    (st : Storage) (hok : login env fetch email password = .ok data)
    (hthrow : loginSuccess storage role data = .error (err, st)) :
    (handleLogin env t fetch storage role email password).result =
      { success := false, error := some (.str (t "getStarted.errorGeneric")) } := by
  have hs := loginSuccess_error_status storage role data err st hthrow
  simp [handleLogin, hok, hthrow, loginFailure, hs]

/-- The catch block of `handleLogin`, on the error that reaches it: when the login request
fails with `err`, the result is a failure. If the status of `err` is 400 and its body is
truthy, the error of the result is the validation detail of the body; if the failure is
neither a 401 nor a 400 with a body, a failure without status included, it is the generic
localized message. -/
theorem handleLogin_failure_messages (env : Env) (t : String → String) (fetch : Fetch)
    (storage : Storage) (role email password : String) (err : JsError)
    (hfail : login env fetch email password = .error err) :
    (handleLogin env t fetch storage role email password).result.success = false ∧
    (∀ body, err.status = some 400 → err.body = some body → body.truthy = true →
      (handleLogin env t fetch storage role email password).result.error =
        some (validationDetail body)) ∧
    (err.status ≠ some 401 → ¬ (err.status = some 400 ∧ truthy? err.body = true) →
      (handleLogin env t fetch storage role email password).result.error =
        some (.str (t "getStarted.errorGeneric"))) := by
  have hout : (handleLogin env t fetch storage role email password).result =
      loginFailure t err := by
    simp [handleLogin, hfail]
  rw [hout]
  exact loginFailure_cases t err

/-- The catch block at a 400 with an email error, a 400 whose body is the JSON text of a
string, a network failure, and a 500 with an HTML page. -/
theorem handleLogin_failure_messages_witness :
    (handleLogin devEnv id (fun _ _ => .ok badRequestReply) emptyStorage "farmer"
        "a@b" "pw").result.error = some (.str "Enter a valid email address.") ∧
    (handleLogin devEnv id (fun _ _ => .ok badRequestTextReply) emptyStorage "farmer"
        "a@b" "pw").result.error = some (.str "Account is locked") ∧
    (handleLogin devEnv id (fun _ _ => .error (.typeError "Failed to fetch")) emptyStorage
        "farmer" "a@b" "pw").result.error = some (.str "getStarted.errorGeneric") ∧
    (handleLogin devEnv id (fun _ _ => .ok serverErrorReply) emptyStorage
        "farmer" "a@b" "pw").result.success = false :=
  ⟨(handleLogin_failure_messages devEnv id (fun _ _ => .ok badRequestReply) emptyStorage
      "farmer" "a@b" "pw" _ rfl).2.1
      (.obj [("email", .arr [.str "Enter a valid email address."])]) rfl rfl rfl,
   (handleLogin_failure_messages devEnv id (fun _ _ => .ok badRequestTextReply) emptyStorage
      "farmer" "a@b" "pw" _ rfl).2.1 (.str "Account is locked") rfl rfl rfl,
   (handleLogin_failure_messages devEnv id (fun _ _ => .error (.typeError "Failed to fetch"))
      emptyStorage "farmer" "a@b" "pw" _ rfl).2.2 (by decide) (by decide),
   (handleLogin_failure_messages devEnv id (fun _ _ => .ok serverErrorReply)
      emptyStorage "farmer" "a@b" "pw" _ rfl).1⟩

/-- C25, at a reply with status 400 whose body is plain text: `request` reads the body
twice and throws the `TypeError` of the second read, which has no status and no body, so
`handleLogin` reports the generic message and not the text of the body. -/
theorem login_bad_request_text_body :
    (Response.fresh badRequestPlainReply).reply.status = 400 ∧
    login devEnv (fun _ _ => .ok badRequestPlainReply) "jean@example.rw" "" =
      .error (.typeError "body stream already read") ∧
    handleLogin devEnv id (fun _ _ => .ok badRequestPlainReply) emptyStorage "farmer"
        "jean@example.rw" "" =
      { result := { success := false, error := some (.str "getStarted.errorGeneric") }
        storage := emptyStorage
        navigated := none } ∧
    (loginFailure id (.api "Bad Request" 400 (.str "Email and password are required."))).error =
      some (.str "Email and password are required.") :=
  ⟨rfl, rfl, rfl, rfl⟩

/-! ## `formToMlPayload` and `handleUpdateStatus` -/

theorem numberOr_value (r : NumberResult) (d n : Int) (h : r = .int n) (hn : n ≠ 0) :
    numberOr r d = .int n := by
  subst h; simp [numberOr, hn]

theorem numberOr_default (r : NumberResult) (d : Int) (h : r = .int 0 ∨ r = .nan) :
    numberOr r d = .int d := by
  rcases h with h | h <;> subst h <;> simp [numberOr]

theorem valueOr_value (v : Option Json) (d : String) (j : Json) (h : v = some j)
    (ht : j.truthy = true) : valueOr v d = j := by
  subst h; simp [valueOr, ht]

theorem valueOr_default (v : Option Json) (d : String) (h : truthy? v = false) :
    valueOr v d = .str d := by
  cases v with
  | none => rfl
  | some j =>
    have hj : j.truthy = false := h
    simp [valueOr, hj]

/-- C27: for every form, the payload of `formToMlPayload` has the ten features. Each of
the five numeric features is the number the form's value converts to when that is not
zero, and the default (35, 600000, 600, 200000, 24) when it is zero or not a number; each
of the four categorical features is the form's value when that is truthy and the default
otherwise; `DebtToIncomeRatio` is 0.35 whatever the form holds. -/
theorem formToMlPayload_features (form : Json) :
    MlPayload.keys = ["Age", "AnnualIncome", "CreditScore", "LoanAmount", "LoanDuration",
      "EmploymentStatus", "EducationLevel", "MaritalStatus", "LoanPurpose",
      "DebtToIncomeRatio"] ∧
    ((∀ n, toNumber (form.get "age") = .int n → n ≠ 0 →
        (formToMlPayload form).Age = .int n) ∧
     (∀ n, toNumber (form.get "annual_income") = .int n → n ≠ 0 →
        (formToMlPayload form).AnnualIncome = .int n) ∧
     (∀ n, toNumber (form.get "credit_score") = .int n → n ≠ 0 →
        (formToMlPayload form).CreditScore = .int n) ∧
     (∀ n, toNumber (form.get "loan_amount_requested") = .int n → n ≠ 0 →
        (formToMlPayload form).LoanAmount = .int n) ∧
     (∀ n, toNumber (form.get "loan_duration_months") = .int n → n ≠ 0 →
        (formToMlPayload form).LoanDuration = .int n)) ∧
    ((toNumber (form.get "age") = .int 0 ∨ toNumber (form.get "age") = .nan →
        (formToMlPayload form).Age = .int 35) ∧
     (toNumber (form.get "annual_income") = .int 0 ∨
        toNumber (form.get "annual_income") = .nan →
        (formToMlPayload form).AnnualIncome = .int 600000) ∧
     (toNumber (form.get "credit_score") = .int 0 ∨
        toNumber (form.get "credit_score") = .nan →
        (formToMlPayload form).CreditScore = .int 600) ∧
     (toNumber (form.get "loan_amount_requested") = .int 0 ∨
        toNumber (form.get "loan_amount_requested") = .nan →
        (formToMlPayload form).LoanAmount = .int 200000) ∧
     (toNumber (form.get "loan_duration_months") = .int 0 ∨
        toNumber (form.get "loan_duration_months") = .nan →
        (formToMlPayload form).LoanDuration = .int 24)) ∧
    ((∀ v, form.get "employment_status" = some v → v.truthy = true →
        (formToMlPayload form).EmploymentStatus = v) ∧
     (∀ v, form.get "education_level" = some v → v.truthy = true →
        (formToMlPayload form).EducationLevel = v) ∧
     (∀ v, form.get "marital_status" = some v → v.truthy = true →
        (formToMlPayload form).MaritalStatus = v) ∧
     (∀ v, form.get "loan_purpose" = some v → v.truthy = true →
        (formToMlPayload form).LoanPurpose = v)) ∧
    ((truthy? (form.get "employment_status") = false →
        (formToMlPayload form).EmploymentStatus = .str "Self-Employed") ∧
     (truthy? (form.get "education_level") = false →
        (formToMlPayload form).EducationLevel = .str "High School") ∧
     (truthy? (form.get "marital_status") = false →
        (formToMlPayload form).MaritalStatus = .str "Married") ∧
     (truthy? (form.get "loan_purpose") = false →
        (formToMlPayload form).LoanPurpose = .str "Other")) ∧
    (formToMlPayload form).DebtToIncomeRatio = { text := "0.35" } :=
  ⟨rfl,
   ⟨fun n h hn => numberOr_value _ 35 n h hn, fun n h hn => numberOr_value _ 600000 n h hn,
    fun n h hn => numberOr_value _ 600 n h hn, fun n h hn => numberOr_value _ 200000 n h hn,
    fun n h hn => numberOr_value _ 24 n h hn⟩,
   ⟨numberOr_default _ 35, numberOr_default _ 600000, numberOr_default _ 600,
    numberOr_default _ 200000, numberOr_default _ 24⟩,
   ⟨fun v h ht => valueOr_value _ _ v h ht, fun v h ht => valueOr_value _ _ v h ht,
    fun v h ht => valueOr_value _ _ v h ht, fun v h ht => valueOr_value _ _ v h ht⟩,
   ⟨valueOr_default _ _, valueOr_default _ _, valueOr_default _ _, valueOr_default _ _⟩,
   rfl⟩

/-- Witness of `formToMlPayload_features`: a form with a number typed as text, a zero, a
text that is no number, absent fields, a chosen category and an empty one. -/
theorem formToMlPayload_features_witness :
    (formToMlPayload sampleForm).Age = .int 42 ∧
    (formToMlPayload sampleForm).AnnualIncome = .int 600000 ∧
    (formToMlPayload sampleForm).CreditScore = .int 600 ∧
    (formToMlPayload sampleForm).LoanAmount = .int 350000 ∧
    (formToMlPayload sampleForm).LoanDuration = .int 24 ∧
    (formToMlPayload sampleForm).EmploymentStatus = .str "Employed" ∧
    (formToMlPayload sampleForm).EducationLevel = .str "High School" ∧
    (formToMlPayload sampleForm).MaritalStatus = .str "Married" :=
  ⟨(formToMlPayload_features sampleForm).2.1.1 42 rfl (by decide),
   (formToMlPayload_features sampleForm).2.2.1.2.1 (Or.inl rfl),
   (formToMlPayload_features sampleForm).2.2.1.2.2.1 (Or.inr rfl),
   (formToMlPayload_features sampleForm).2.1.2.2.2.1 350000 rfl (by decide),
   (formToMlPayload_features sampleForm).2.2.1.2.2.2.2 (Or.inr rfl),
   (formToMlPayload_features sampleForm).2.2.2.1.1 _ rfl rfl,
   (formToMlPayload_features sampleForm).2.2.2.2.1.2.1 rfl,
   (formToMlPayload_features sampleForm).2.2.2.2.1.2.2.1 rfl⟩

/-- A call to the transport adds one request to those the network has received. -/
theorem Network.send_received (env : Env) (net : Network) (endpoint : String)
    (config : Options) :
    (net.send env endpoint config).2.received =
      net.received ++ [(API_BASE env ++ endpoint, config)] := by
  unfold Network.send Network.fetch
  cases net.respond (API_BASE env ++ endpoint) config <;> rfl

theorem nothingToUpdate_false (form app : Json) (ht : truthy? (form.get "status") = true)
    (hne : strictEquals (form.get "status") (app.get "status") = false) :
    nothingToUpdate form app = false := by
  simp [nothingToUpdate, selectedStatus, orElse, ht, hne]

theorem nothingToUpdate_true (form app : Json)
    (h : truthy? (form.get "status") = false ∨
      strictEquals (form.get "status") (app.get "status") = true) :
    nothingToUpdate form app = true := by
  by_cases ht : truthy? (form.get "status") = true
  · rcases h with h | h
    · rw [ht] at h; exact absurd h (by decide)
    · simp [nothingToUpdate, ht, h]
  · simp [nothingToUpdate, ht]

theorem strictEquals_str (v : Option Json) (text : String) :
    strictEquals v (some (.str text)) = true ↔ v = some (.str text) := by
  constructor
  · intro h
    cases v with
    | none => simp [strictEquals] at h
    | some j =>
      cases j <;> simp [strictEquals] at h
      subst h; rfl
  · intro h; subst h; simp [strictEquals]

/-- The requests of a run that has something to update: the update, then the reads of the
refreshes, which carry no method and no body. -/
theorem handleUpdateStatus_received (env : Env) (storage : Storage) (net : Network)
    (activeTab : String) (s : MfiState) (app : Json)
    (h : nothingToUpdate (currentForm s app) app = false) :
    ∃ reads : List (String × Options),
      (handleUpdateStatus env storage net activeTab s app).network.received =
        net.received ++
          (API_BASE env ++ updateStatusEndpoint (app.get "id"),
            updateStatusConfig storage (updatePayload (currentForm s app) app)) :: reads ∧
      ∀ r ∈ reads, r.2.method = none ∧ r.2.body = none := by
  have hsend := Network.send_received env net (updateStatusEndpoint (app.get "id"))
    (updateStatusConfig storage (updatePayload (currentForm s app) app))
  unfold handleUpdateStatus
  simp only [h, Bool.false_eq_true, if_false, updateMfiApplicationStatus]
  cases hres : net.send env (updateStatusEndpoint (app.get "id"))
    (updateStatusConfig storage (updatePayload (currentForm s app) app)) with
  | mk outcome net1 =>
    rw [hres] at hsend
    simp only at hsend
    cases outcome with
    | error err =>
      exact ⟨[], by simp [hsend], by simp⟩
    | ok data =>
      by_cases htab : activeTab = "portfolio"
      · refine ⟨[(API_BASE env ++ ("/mfi/applications/?status=" ++ s.statusFilter),
            requestConfig (authOptions storage {})),
          (API_BASE env ++ "/mfi/portfolio/", requestConfig (authOptions storage {}))], ?_, ?_⟩
        · simp [htab, fetchPortfolio, fetchApplications, getMfiPortfolio, getMfiApplications,
            Network.authRequest, Network.send_received, hsend]
        · intro r hr
          simp at hr
          rcases hr with rfl | rfl <;> exact ⟨rfl, rfl⟩
      · refine ⟨[(API_BASE env ++ ("/mfi/applications/?status=" ++ s.statusFilter),
            requestConfig (authOptions storage {}))], ?_, ?_⟩
        · simp [htab, fetchApplications, getMfiApplications,
            Network.authRequest, Network.send_received, hsend]
        · intro r hr
          simp at hr
          subst hr; exact ⟨rfl, rfl⟩

/-- C26: `handleUpdateStatus` sends no request when the status selected in the form is
empty or equals the status of the application: the network has received what it had
before. Otherwise the network receives one update, a `POST` to the update-status endpoint
of the application whose body is the JSON text of an object with the selected status and
the note (the empty text when the form has none) and, exactly when the selected status is
`approved`, the amount (the recommended amount when truthy, else the requested amount),
the interest rate 0.12 and the duration in months of the application; whatever follows it
is a read of the refreshes, without method or body. -/
theorem handleUpdateStatus_request (env : Env) (storage : Storage) (net : Network)
    (activeTab : String) (s : MfiState) (app : Json) :
    ((truthy? ((currentForm s app).get "status") = false ∨
        strictEquals ((currentForm s app).get "status") (app.get "status") = true) →
      (handleUpdateStatus env storage net activeTab s app).network.received =
        net.received) ∧
    (truthy? ((currentForm s app).get "status") = true →
      strictEquals ((currentForm s app).get "status") (app.get "status") = false →
      ∃ (config : Options) (note : Json) (amount rate duration : Option JsValue)
          (reads : List (String × Options)),
        (handleUpdateStatus env storage net activeTab s app).network.received =
          net.received ++
            (API_BASE env ++ "/mfi/applications/" ++ templ (app.get "id") ++
              "/update-status/", config) :: reads ∧
        (∀ r ∈ reads, r.2.method = none ∧ r.2.body = none) ∧
        config.method = some "POST" ∧
        config.body = some (.json (.str (stringifyObject
          [("status", ((currentForm s app).get "status").map JsValue.json),
           ("note", some (.json note)), ("amount", amount), ("interest_rate", rate),
           ("duration_months", duration)]))) ∧
        (truthy? ((currentForm s app).get "note") = true →
          (currentForm s app).get "note" = some note) ∧
        (truthy? ((currentForm s app).get "note") = false → note = .str "") ∧
        ((currentForm s app).get "status" = some (.str "approved") →
          (truthy? (app.get "recommended_amount") = true →
            amount = (app.get "recommended_amount").map JsValue.json) ∧
          (truthy? (app.get "recommended_amount") = false →
            amount = (app.get "loan_amount_requested").map JsValue.json) ∧
          duration = (app.get "loan_duration_months").map JsValue.json ∧
          rate = some (.fraction { text := "0.12" })) ∧
        ((currentForm s app).get "status" ≠ some (.str "approved") →
          amount = none ∧ duration = none ∧ rate = none)) := by
  refine ⟨?_, ?_⟩
  · intro h
    simp [handleUpdateStatus, nothingToUpdate_true _ _ h]
  · intro ht hne
    obtain ⟨reads, hrec, hreads⟩ := handleUpdateStatus_received env storage net activeTab s app
      (nothingToUpdate_false _ _ ht hne)
    have hsel : selectedStatus (currentForm s app) app = (currentForm s app).get "status" := by
      simp [selectedStatus, orElse, ht]
    have hstatus : (updatePayload (currentForm s app) app).status =
        ((currentForm s app).get "status").map JsValue.json := by
      unfold updatePayload
      simp only [hsel]
      split <;> rfl
    refine ⟨updateStatusConfig storage (updatePayload (currentForm s app) app),
      if truthy? ((currentForm s app).get "note") then
        ((currentForm s app).get "note").getD .null else .str "",
      (updatePayload (currentForm s app) app).amount,
      (updatePayload (currentForm s app) app).interest_rate,
      (updatePayload (currentForm s app) app).duration_months,
      reads, ?_, hreads, rfl, ?_, ?_, ?_, ?_, ?_⟩
    · rw [hrec]
      simp [updateStatusEndpoint, String.append_assoc]
    · have hnote : (updatePayload (currentForm s app) app).note =
          some (.json (if truthy? ((currentForm s app).get "note") then
            ((currentForm s app).get "note").getD .null else .str "")) := by
        unfold updatePayload
        by_cases hn : truthy? ((currentForm s app).get "note") = true
        · cases hv : (currentForm s app).get "note" with
          | none => rw [hv] at hn; exact absurd hn (by decide)
          | some v =>
            rw [hv] at hn
            simp only [hn, if_true, Option.map_some', Option.getD_some]
            split <;> rfl
        · simp only [hn, Bool.false_eq_true, if_false, Option.map_some']
          split <;> rfl
      show some (BodyValue.json (.str (stringifyObject
        (updatePayload (currentForm s app) app).members))) = _
      simp only [StatusPayload.members, hstatus, hnote]
    · intro hn
      rw [if_pos hn]
      cases hv : (currentForm s app).get "note" with
      | none => rw [hv] at hn; exact absurd hn (by decide)
      | some v => rfl
    · intro hn
      simp [hn]
    · intro happ
      have hsel2 : selectedStatus (currentForm s app) app = some (.str "approved") := by
        rw [hsel, happ]
      have hse : strictEquals (some (.str "approved")) (some (.str "approved")) = true := by
        simp [strictEquals]
      unfold updatePayload
      simp only [hsel2, hse, if_true]
      refine ⟨fun hr => by simp [orElse, hr], fun hr => by simp [orElse, hr], by simp,
        by simp⟩
    · intro happ
      have hse : strictEquals ((currentForm s app).get "status") (some (.str "approved")) =
          false := by
        cases hb : strictEquals ((currentForm s app).get "status") (some (.str "approved"))
        · rfl
        · exact absurd ((strictEquals_str _ _).1 hb) happ
      unfold updatePayload
      simp [hsel, hse]

/-- Witness of `handleUpdateStatus_request`: on a pending application, selecting `pending`
sends nothing; selecting `approved` on the portfolio tab sends the update first, followed
by the two reads of the refreshes. -/
theorem handleUpdateStatus_request_witness :
    (handleUpdateStatus devEnv signedInStorage quietNetwork "applications"
        (mfiSelecting "pending") pendingApp).network.received = [] ∧
    (handleUpdateStatus devEnv signedInStorage quietNetwork "portfolio"
        (mfiSelecting "approved") pendingApp).network.received.head?.map (fun c => c.1) =
      some "/api/mfi/applications/7/update-status/" ∧
    (handleUpdateStatus devEnv signedInStorage quietNetwork "portfolio"
        (mfiSelecting "approved") pendingApp).network.received.map
          (fun c => (c.1, c.2.method, c.2.body)) =
      [("/api/mfi/applications/7/update-status/", some "POST",
        some (.json (.str ("\x7b\"status\":\"approved\",\"note\":\"\",\"amount\":200000," ++
          "\"interest_rate\":0.12,\"duration_months\":12\x7d")))),
       ("/api/mfi/applications/?status=all", none, none),
       ("/api/mfi/portfolio/", none, none)] := by
  refine ⟨(handleUpdateStatus_request devEnv signedInStorage quietNetwork "applications"
      (mfiSelecting "pending") pendingApp).1 (Or.inr rfl), ?_, rfl⟩
  obtain ⟨config, note, amount, rate, duration, reads, hrec, _⟩ :=
    (handleUpdateStatus_request devEnv signedInStorage quietNetwork "portfolio"
      (mfiSelecting "approved") pendingApp).2 rfl rfl
  rw [hrec]
  rfl

/-- The requests of a rejection that the server refuses: the update alone, whose body
leaves out the members that were not assigned. -/
theorem handleUpdateStatus_refused :
    (handleUpdateStatus devEnv signedInStorage refusingNetwork "portfolio"
        (mfiSelecting "rejected") pendingApp).network.received.map
          (fun c => (c.1, c.2.method, c.2.body)) =
      [("/api/mfi/applications/7/update-status/", some "POST",
        some (.json (.str "\x7b\"status\":\"rejected\",\"note\":\"\"\x7d")))] ∧
    (handleUpdateStatus devEnv signedInStorage refusingNetwork "portfolio"
        (mfiSelecting "rejected") pendingApp).state.error =
      some (.str "Application not found") :=
  ⟨rfl, rfl⟩

/-! ## Initialization of the record stores on any stored value -/

/-- C28 fails as stated: when the text stored under the employees key is the JSON text of
an object, the initializer yields that object, not a list, and both the add and the export
raise a `TypeError` on the state. -/
theorem init_stored_object_not_list :
    initFarmEmployees objectStorage = .obj [] ∧
    handleAddEmployee 1700000000000
        { filledFarm objectStorage with farmEmployees := initFarmEmployees objectStorage } =
      .error (.typeError "value is not iterable") ∧
    handleExportFarmData
        { freshFarm objectStorage with farmEmployees := initFarmEmployees objectStorage } =
      .error (.typeError "forEach is not a function") :=
  ⟨rfl, rfl, rfl⟩

theorem loadRecords_list (storage : Storage) (key : String)
    (h : StoredListOrNothing storage key) :
    ∃ xs, loadRecords storage key = .arr xs ∧ ∀ x ∈ xs, IsRecord x := by
  unfold loadRecords
  rcases h with h | ⟨raw, h, hraw | ⟨e, hp⟩ | ⟨xs, hp, hrec⟩⟩
  · exact ⟨[], by simp [h], by simp⟩
  · exact ⟨[], by simp [h, hraw], by simp⟩
  · refine ⟨[], ?_, by simp⟩
    simp only [h, hp]
    split <;> rfl
  · by_cases hne : raw = ""
    · exact ⟨[], by simp [h, hne], by simp⟩
    · exact ⟨xs, by simp [h, hne, hp], hrec⟩

/-- C28 (amended): when the text stored under a farm-record key is absent, empty, not JSON,
or the JSON text of a list of records, the initializer yields a list of records, and the
append and the export are defined on it: the append yields the list with the new record at
the end, the export the table of the list. -/
theorem init_yields_list (storage : Storage) (key : String)
    (h : StoredListOrNothing storage key) :
    ∃ xs, loadRecords storage key = .arr xs ∧ (∀ x ∈ xs, IsRecord x) ∧
      (∀ now members, appendRecord (loadRecords storage key) now members =
        .ok (.arr (xs ++ [newRecord now members]))) ∧
      (∀ header sectionName names,
        forEachRecord sectionName names (pushRow [] (headerCols header))
            (loadRecords storage key) =
          .ok ((exportTable header sectionName names xs).map csvRow)) := by
  obtain ⟨xs, hxs, hrec⟩ := loadRecords_list storage key h
  refine ⟨xs, hxs, hrec, ?_, ?_⟩
  · intro now members
    rw [hxs]; rfl
  · intro header sectionName names
    rw [hxs]
    exact forEachRecord_table header sectionName names xs hrec

/-- Witness of `init_yields_list`: a storage that holds the text of a list of one
employee. -/
theorem init_yields_list_witness :
    ∃ xs, loadRecords listStorage "farm-employees" = .arr xs ∧ (∀ x ∈ xs, IsRecord x) ∧
      (∀ now members, appendRecord (loadRecords listStorage "farm-employees") now members =
        .ok (.arr (xs ++ [newRecord now members]))) ∧
      (∀ header sectionName names,
        forEachRecord sectionName names (pushRow [] (headerCols header))
            (loadRecords listStorage "farm-employees") =
          .ok ((exportTable header sectionName names xs).map csvRow)) :=
  init_yields_list listStorage "farm-employees"
    (Or.inr ⟨_, rfl, Or.inr (Or.inr
      ⟨[.obj [("id", .num 1), ("full_name", .str "Jean")]], rfl, by simp [IsRecord]⟩)⟩)

/-! ## The name of a saved package -/

/-- C29 fails as stated: the header value contains `filename="b.zip"`, but an earlier
`filename=` is what the pattern finds, and the file is saved under a different name. -/
theorem filename_first_occurrence_wins :
    packageFilename sampleApp "attachment; filename=a; filename=\"b.zip\"" =
      "a; filename=" ∧
    (finishDownload sampleApp
      (.ok ⟨"PK", "attachment; filename=a; filename=\"b.zip\""⟩)).saved =
      some ("a; filename=", "PK") :=
  ⟨rfl, rfl⟩

theorem stripIgnoreCase_filename (rest : List Char) :
    stripIgnoreCase "filename=".data ("filename=".data ++ rest) = some rest := rfl

theorem takeNonQuote_name (name post : List Char) (hq : '"' ∉ name) :
    takeNonQuote (name ++ '"' :: post) = name := by
  induction name with
  | nil => simp [takeNonQuote]
  | cons c cs ih =>
    have hc : c ≠ '"' := fun e => hq (by simp [e])
    have hcs : '"' ∉ cs := fun e => hq (List.mem_cons_of_mem _ e)
    simp [takeNonQuote, hc, ih hcs]

theorem execFilenameHere_quoted (name post : List Char) (hname : name ≠ [])
    (hq : '"' ∉ name) :
    execFilenameHere ("filename=".data ++ '"' :: (name ++ '"' :: post)) = some name := by
  unfold execFilenameHere
  rw [stripIgnoreCase_filename]
  simp only [if_true, takeNonQuote_name name post hq]
  cases name with
  | nil => exact absurd rfl hname
  | cons d ds => rfl

theorem execFilenameChars_cons (c : Char) (cs : List Char) :
    execFilenameChars (c :: cs) =
      match execFilenameHere (c :: cs) with
      | some name => some name
      | none => execFilenameChars cs := rfl

theorem execFilenameChars_skip (pre rest : List Char)
    (h : NoFilenameBefore pre.length (pre ++ rest)) :
    execFilenameChars (pre ++ rest) = execFilenameChars rest := by
  induction pre with
  | nil => rfl
  | cons c p ih =>
    have h0 := h 0 (by simp)
    have hhere : execFilenameHere (c :: (p ++ rest)) = none := by
      unfold execFilenameHere
      simp only [List.drop_zero, List.cons_append] at h0
      rw [h0]
    rw [List.cons_append, execFilenameChars_cons, hhere]
    apply ih
    intro i hi
    have := h (i + 1) (by simpa using hi)
    simpa using this

theorem execFilenameChars_none (cs : List Char)
    (h : ∀ n, NoFilenameBefore n cs) : execFilenameChars cs = none := by
  induction cs with
  | nil => rfl
  | cons c p ih =>
    have h0 := h 1 0 (by decide)
    have hhere : execFilenameHere (c :: p) = none := by
      unfold execFilenameHere
      simp only [List.drop_zero] at h0
      rw [h0]
    rw [execFilenameChars_cons, hhere]
    apply ih
    intro n i hi
    simpa using h (n + 1) (i + 1) (by omega)

/-- C29 (amended): for every successful package download, when the first `filename=` of
the `Content-Disposition` value is the one of `filename="NAME"`, with NAME non-empty and
free of double quotes, the file is saved under NAME; and when the value has no `filename=`
at all (the empty value of an absent header included), it is saved under the
`folder_name` of the application followed by `.zip` when `folder_name` is truthy, and
under `application_<id>.zip` otherwise. -/
theorem saved_name_from_header (app : Json) (blob : String) :
    (∀ pre name post : List Char, name ≠ [] → '"' ∉ name →
      NoFilenameBefore pre.length (quotedFilename pre name post) →
      (finishDownload app (.ok ⟨blob, String.mk (quotedFilename pre name post)⟩)).saved =
        some (String.mk name, blob)) ∧
    (∀ cd : String, (∀ n, NoFilenameBefore n cd.data) →
      (truthy? (app.get "folder_name") = true →
        (finishDownload app (.ok ⟨blob, cd⟩)).saved =
          some (templ (app.get "folder_name") ++ ".zip", blob)) ∧
      (truthy? (app.get "folder_name") = false →
        (finishDownload app (.ok ⟨blob, cd⟩)).saved =
          some ("application_" ++ templ (app.get "id") ++ ".zip", blob))) := by
  refine ⟨?_, ?_⟩
  · intro pre name post hname hq hfirst
    have hx : execFilename (String.mk (quotedFilename pre name post)) =
        some (String.mk name) := by
      unfold execFilename
      show Option.map String.mk (execFilenameChars (quotedFilename pre name post)) = _
      unfold quotedFilename
      rw [execFilenameChars_skip pre _ hfirst]
      have hhere := execFilenameHere_quoted name post hname hq
      have hcons : execFilenameChars ("filename=".data ++ '"' :: (name ++ '"' :: post)) =
          some name := by
        show (match execFilenameHere ("filename=".data ++ '"' :: (name ++ '"' :: post)) with
          | some name => some name
          | none => execFilenameChars _) = _
        rw [hhere]
      rw [hcons]; rfl
    simp only [finishDownload, packageFilename, hx]
  · intro cd hnone
    have hx : execFilename cd = none := by
      unfold execFilename
      rw [execFilenameChars_none cd.data hnone]; rfl
    constructor
    · intro ht
      simp only [finishDownload, packageFilename, hx, ht, if_true]
    · intro hf
      simp [finishDownload, packageFilename, hx, hf]

/-- Witness of `saved_name_from_header`: a header that names the file, and an absent
header for an application with a folder name. -/
theorem saved_name_from_header_witness :
    (finishDownload sampleApp
      (.ok ⟨"PK", "attachment; filename=\"application_7.zip\""⟩)).saved =
      some ("application_7.zip", "PK") ∧
    (finishDownload sampleApp (.ok ⟨"PK", ""⟩)).saved = some ("loan_7.zip", "PK") :=
  ⟨(saved_name_from_header sampleApp "PK").1 "attachment; ".data "application_7.zip".data []
      (by decide) (by decide)
      (by intro i hi; have hlt : i < 12 := hi; interval_cases i <;> rfl),
   ((saved_name_from_header sampleApp "PK").2 ""
      (by intro n i _; simp [stripIgnoreCase])).1 rfl⟩

end AgriFin
